import Mathlib

/-!
# DAB+ Superframe filter (dabplus_decoder.cpp / dabplus_decoder.h)

A shallow embedding of `SuperframeFilter`, `RSDecoder::DecodeSuperframe` and the
`AACDecoder` constructor.

Conventions of the embedding:

* a byte (`uint8_t`) is a `Fin 256`; C integer promotion is the coercion to `Nat`,
  and every store into a `uint8_t` / `uint16_t` is an explicit `% 256` / `% 65536`;
* a buffer (`uint8_t *` with its length) is a `List Byte`; `new uint8_t[n]` is
  modelled as `n` zero bytes;
* `size_t` quantities are natural numbers, the `int` array `au_start` is a map from
  the index to `Int`;
* the observer callbacks `FormatChange` and `ProcessPAD`, the virtual
  `AACDecoder::DecodeFrame` call and the `fprintf(stderr, ...)` lines of
  `SuperframeFilter` and `RSDecoder` are recorded, in program order, as a list of
  `Event`s; the construction of the AAC decoder in `ProcessFormat` is the single
  event `NewDecoder`, which stands for all the constructors do (their stderr line
  and the `StartAudio` callback of the backend are not recorded apart);
* the CRC calculators of `tools.h` and `decode_rs_char` of libfec are parameters
  (`Externals`).
-/

namespace Dablin

/-- One `uint8_t`. -/
abbrev Byte := Fin 256

/-- The read `buf[i]`, promoted to `int`. -/
def rd (buf : List Byte) (i : Nat) : Nat := (buf.getD i 0).val

/-- The bytes `p[off .. off+n)` of a buffer. -/
def slice (buf : List Byte) (off n : Nat) : List Byte := (buf.drop off).take n

/-- Nonzero test of C (`int` to `bool`). -/
def toBool (n : Nat) : Bool := n != 0

/-! ## SuperframeFormat (dabplus_decoder.h:49-65) -/

/-- The `struct SuperframeFormat`. -/
structure SuperframeFormat where
  dac_rate : Bool
  sbr_flag : Bool
  aac_channel_mode : Bool
  ps_flag : Bool
  mpeg_surround_config : Nat
deriving DecidableEq, Repr

namespace SuperframeFormat

/-- `GetCoreSrIndex`: 24/48/16/32 kHz. -/
def GetCoreSrIndex (f : SuperframeFormat) : Nat :=
  if f.dac_rate then (if f.sbr_flag then 6 else 3) else (if f.sbr_flag then 8 else 5)

/-- `GetCoreChConfig`. -/
def GetCoreChConfig (f : SuperframeFormat) : Nat :=
  if f.aac_channel_mode then 2 else 1

/-- `GetExtensionSrIndex`: 48/32 kHz. -/
def GetExtensionSrIndex (f : SuperframeFormat) : Nat :=
  if f.dac_rate then 3 else 5

end SuperframeFormat

/-- The format fields as `CheckSync` reads them from byte 2 of the Superframe
(dabplus_decoder.cpp:178-182). -/
def decodeFormat (b : Nat) : SuperframeFormat :=
  { dac_rate := toBool (b &&& 0x40)
    sbr_flag := toBool (b &&& 0x20)
    aac_channel_mode := toBool (b &&& 0x10)
    ps_flag := toBool (b &&& 0x08)
    mpeg_surround_config := b &&& 0x07 }

/-! ## AACDecoder constructor (dabplus_decoder.cpp:306-382) -/

/-- The data members of `class AACDecoder` the constructor fills: `asc[7]`,
`asc_len` and `adts_header[7]`. Bytes of `asc` not written are modelled as 0. -/
structure AACDecoder where
  asc : List Nat
  asc_len : Nat
  adts_header : List Nat
deriving DecidableEq, Repr

/-- The statements of the constructor that write `asc` and `asc_len`
(dabplus_decoder.cpp:333-350), each store truncated to `uint8_t`. -/
def AACDecoder.mkAsc (sf_format : SuperframeFormat) : List Nat × Nat :=
  -- AAC LC
  let asc : List Nat := List.replicate 7 0
  let asc_len := 0
  let asc := asc.set asc_len ((0b00010 <<< 3 ||| sf_format.GetCoreSrIndex >>> 1) % 256)
  let asc_len := asc_len + 1
  let asc := asc.set asc_len
    (((sf_format.GetCoreSrIndex &&& 0x01) <<< 7 ||| sf_format.GetCoreChConfig <<< 3 ||| 0b100) % 256)
  let asc_len := asc_len + 1
  if sf_format.sbr_flag then
    -- add SBR
    let asc := asc.set asc_len 0x56
    let asc_len := asc_len + 1
    let asc := asc.set asc_len 0xE5
    let asc_len := asc_len + 1
    let asc := asc.set asc_len ((0x80 ||| (sf_format.GetExtensionSrIndex <<< 3)) % 256)
    let asc_len := asc_len + 1
    if sf_format.ps_flag then
      -- add PS
      let asc := asc.set (asc_len - 1) ((asc.getD (asc_len - 1) 0 ||| 0x05) % 256)
      let asc := asc.set asc_len 0x48
      let asc_len := asc_len + 1
      let asc := asc.set asc_len 0x80
      let asc_len := asc_len + 1
      (asc, asc_len)
    else (asc, asc_len)
  else (asc, asc_len)

/-- The ADTS header bytes the constructor derives from the format
(dabplus_decoder.cpp:352-381); the bit-field members are masked to their widths. -/
def AACDecoder.mkAdtsHeader (sf_format : SuperframeFormat) : List Nat :=
  let syncword := 0xfff
  let ID := 0x0
  let layer := 0x0
  let protection_absent := 0x1
  let profile := 0x1
  let sampling_frequency_index := sf_format.GetExtensionSrIndex % 16
  let private_bit := 0x0
  let channel_configuration := sf_format.GetCoreChConfig % 8
  let original_copy := 0x0
  let home := 0x0
  let copyright_identification_bit := 0x0
  let copyright_identification_start := 0x0
  let frame_length := 0x80
  let adts_buffer_fullness := 0x7ff
  let number_of_raw_data_blocks_in_frame := 0x0
  [ (syncword >>> 4) % 256,
    (((syncword &&& 0xF) <<< 4) ||| (ID <<< 3) ||| (layer <<< 1) ||| protection_absent) % 256,
    ((profile <<< 6) ||| (sampling_frequency_index <<< 2) ||| (private_bit <<< 1)
      ||| ((channel_configuration >>> 2) &&& 0x1)) % 256,
    (((channel_configuration &&& 0x3) <<< 6) ||| (original_copy <<< 5) ||| (home <<< 4)
      ||| (copyright_identification_bit <<< 3) ||| (copyright_identification_start <<< 2)
      ||| ((frame_length >>> 11) &&& 0x3)) % 256,
    ((frame_length >>> 3) &&& 0xff) % 256,
    (((frame_length &&& 0x7) <<< 5) ||| ((adts_buffer_fullness >>> 6) &&& 0x1f)) % 256,
    (((adts_buffer_fullness &&& 0x3F) <<< 2) ||| number_of_raw_data_blocks_in_frame) % 256 ]

/-- The constructor `AACDecoder::AACDecoder(decoder_name, observer, sf_format)`. -/
def AACDecoder.new (sf_format : SuperframeFormat) : AACDecoder :=
  let r := AACDecoder.mkAsc sf_format
  { asc := r.1, asc_len := r.2, adts_header := AACDecoder.mkAdtsHeader sf_format }

/-- The AudioSpecificConfig handed to the AAC library: the first `asc_len` bytes
of `asc`. -/
def AACDecoder.ascBytes (d : AACDecoder) : List Nat := d.asc.take d.asc_len

/-! ### The ASC as a packed bit string (spec section 4.5) -/

/-- The `width` bits of `value`, most significant first. -/
def bitsMSB (value width : Nat) : List Bool :=
  (List.range width).map (fun k => value.testBit (width - 1 - k))

/-- Concatenation of bit fields `(value, width)`, each most significant bit first. -/
def packFields (fields : List (Nat × Nat)) : List Bool :=
  fields.flatMap (fun f => bitsMSB f.1 f.2)

/-- The value of at most eight bits read most significant first, zero-padded on
the right to a whole byte. -/
def byteOfBits (bits : List Bool) : Nat :=
  (List.range 8).foldl (fun acc k => 2 * acc + (if bits.getD k false then 1 else 0)) 0

/-- Big-endian packing of a bit string into bytes, the last byte zero-padded. -/
def packBytes (bits : List Bool) : List Nat :=
  (List.range ((bits.length + 7) / 8)).map (fun j => byteOfBits ((bits.drop (8 * j)).take 8))

/-- The bit fields of the ASC in the words of the spec: the base fields, the SBR
extension when `sbr_flag`, the PS extension when `sbr_flag` and `ps_flag`. -/
def ascFieldsSpec (f : SuperframeFormat) : List (Nat × Nat) :=
  [(2, 5), (f.GetCoreSrIndex, 4), (f.GetCoreChConfig, 4), (0b100, 3)]
  ++ (if f.sbr_flag then [(0x2B7, 11), (5, 5), (1, 1), (f.GetExtensionSrIndex, 4)] else [])
  ++ (if f.sbr_flag && f.ps_flag then [(0x548, 11), (1, 1)] else [])

/-- The ASC of the spec: the packed bit fields as bytes. -/
def ascSpec (f : SuperframeFormat) : List Nat :=
  packBytes (packFields (ascFieldsSpec f))

/-! ## Observable events and external collaborators -/

/-- What a call of `Feed` does that is visible outside the filter, in program order. -/
inductive Event where
  /-- A line printed with `fprintf(stderr, ...)`. -/
  | Log (msg : String)
  /-- The call `observer->FormatChange(text)`. -/
  | FormatChange (text : String)
  /-- The construction `new AACDecoder...(observer, sf_format)` in `ProcessFormat`,
  with what the constructors print and call back (line 307, `StartAudio`). -/
  | NewDecoder (dec : AACDecoder)
  /-- The call `aac_dec->DecodeFrame(data, len)`. -/
  | DecodeFrame (data : List Byte)
  /-- The call `observer->ProcessPAD(x_pad, x_pad_len, contained_in_dse, f_pad)`;
  a `NULL` pointer is `none`. -/
  | ProcessPAD (x_pad : Option (List Byte)) (x_pad_len : Nat) (contained_in_dse : Bool)
      (f_pad : List Byte)
deriving DecidableEq, Repr

/-- What `decode_rs_char(rs_handle, rs_packet, corr_pos, 0)` leaves behind: the
packet after in-place correction, the array `corr_pos`, and the return value. -/
structure RSResult where
  rs_packet : List Byte
  corr_pos : List Int
  corr_count : Int

/-- The functions the filter calls that live outside dabplus_decoder.cpp:
`CalcCRC::CalcCRC_FIRE_CODE.Calc`, `CalcCRC::CalcCRC_CRC16_CCITT.Calc` (tools.h)
and `decode_rs_char` (libfec). -/
structure Externals where
  CalcCRC_FIRE_CODE : List Byte → Nat
  CalcCRC_CRC16_CCITT : List Byte → Nat
  decode_rs_char : List Byte → RSResult

/-- Modelled from the spec: the constant `FPAD_LEN` is declared outside
dabplus_decoder.cpp; the spec gives "`FPAD_LEN` = 2 bytes". -/
def FPAD_LEN : Nat := 2

/-! ## SuperframeFilter (dabplus_decoder.cpp:23-250) -/

/-- The data members of `class SuperframeFilter`. `sf_raw`, `sf` are `[]` while
`NULL`; `sf_format` and `au_start`, which the constructor leaves unset, start
as zero. -/
structure SuperframeFilter where
  aac_dec : Option AACDecoder
  frame_len : Nat
  frame_count : Nat
  sync_frames : Nat
  sf_raw : List Byte
  sf : List Byte
  sf_len : Nat
  sf_format_set : Bool
  sf_format_raw : Byte
  sf_format : SuperframeFormat
  num_aus : Nat
  au_start : Nat → Int

/-- The constructor `SuperframeFilter::SuperframeFilter`. -/
def SuperframeFilter.new : SuperframeFilter :=
  { aac_dec := none
    frame_len := 0
    frame_count := 0
    sync_frames := 0
    sf_raw := []
    sf := []
    sf_len := 0
    sf_format_set := false
    sf_format_raw := 0
    sf_format := decodeFormat 0
    num_aus := 0
    au_start := fun _ => 0 }

/-- The function `SuperframeFilter::ResetPAD`. -/
def ResetPAD : List Event :=
  let zero_fpad : List Byte := List.replicate FPAD_LEN 0
  [Event.ProcessPAD none 0 true zero_fpad]

/-- The function `SuperframeFilter::CheckForPAD(data, len)`, `len = data.length`. -/
def CheckForPAD (data : List Byte) : List Event :=
  let len := data.length
  let present := false
  -- check for PAD (embedded into Data Stream Element)
  let r : List Event × Bool :=
    if len ≥ 3 ∧ rd data 0 >>> 5 = 4 then
      let pad_start := 2
      let pad_len := rd data 1
      let pad_len_start : Nat × Nat :=
        if pad_len = 255 then (pad_len + rd data 2, pad_start + 1) else (pad_len, pad_start)
      let pad_len := pad_len_start.1
      let pad_start := pad_len_start.2
      if pad_len ≥ 2 ∧ len ≥ pad_start + pad_len then
        ([Event.ProcessPAD (some (slice data pad_start (pad_len - FPAD_LEN))) (pad_len - FPAD_LEN)
            true (slice data (pad_start + pad_len - FPAD_LEN) FPAD_LEN)], true)
      else ([], present)
    else ([], present)
  if !r.2 then r.1 ++ ResetPAD else r.1

/-- The number of AUs `CheckSync` derives from the format (line 186). -/
def numAUs (sf_format : SuperframeFormat) : Nat :=
  if sf_format.dac_rate then (if sf_format.sbr_flag then 3 else 6)
  else (if sf_format.sbr_flag then 2 else 4)

/-- The stores of `CheckSync` into `au_start` (lines 188-199), in program order. -/
def auTable (sf : List Byte) (sf_len : Nat) (sf_format : SuperframeFormat) (num_aus : Nat)
    (au_start : Nat → Int) : Nat → Int :=
  let au_start := Function.update au_start 0
    (if sf_format.dac_rate then (if sf_format.sbr_flag then 6 else 11)
     else (if sf_format.sbr_flag then 5 else 8))
  -- pseudo-next AU (w/o RS coding)
  let au_start := Function.update au_start num_aus (((sf_len / 120 * 110 : Nat) : Int))
  let au_start := Function.update au_start 1 (((rd sf 3 <<< 4 ||| rd sf 4 >>> 4 : Nat) : Int))
  let au_start :=
    if num_aus ≥ 3 then
      Function.update au_start 2 ((((rd sf 4 &&& 0x0F) <<< 8 ||| rd sf 5 : Nat) : Int))
    else au_start
  let au_start :=
    if num_aus ≥ 4 then
      Function.update au_start 3 (((rd sf 6 <<< 4 ||| rd sf 7 >>> 4 : Nat) : Int))
    else au_start
  if num_aus = 6 then
    let au_start :=
      Function.update au_start 4 ((((rd sf 7 &&& 0x0F) <<< 8 ||| rd sf 8 : Nat) : Int))
    Function.update au_start 5 (((rd sf 9 <<< 4 ||| rd sf 10 >>> 4 : Nat) : Int))
  else au_start

/-- The loop of `CheckSync` over the start offsets (lines 202-204): `true` when
some `au_start[i] >= au_start[i+1]` with `i < num_aus` makes it return false. -/
def auDisorder (num_aus : Nat) (au_start : Nat → Int) : Bool :=
  (List.range num_aus).any (fun i => decide (au_start i ≥ au_start (i + 1)))

/-- The function `SuperframeFilter::CheckSync`: the result, and the filter with
`sf_format`, `num_aus` and `au_start` as the call leaves them. -/
def CheckSync (ext : Externals) (s : SuperframeFilter) : Bool × SuperframeFilter :=
  let sf := s.sf
  -- abort, if au_start is kind of zero (prevent sync on complete zero array)
  if rd sf 3 = 0x00 ∧ rd sf 4 = 0x00 then (false, s) else
  -- try to sync on fire code
  let crc_stored := (rd sf 0 <<< 8 ||| rd sf 1) % 65536
  let crc_calced := ext.CalcCRC_FIRE_CODE (slice sf 2 9) % 65536
  if crc_stored ≠ crc_calced then (false, s) else
  -- handle format
  let sf_format := decodeFormat (rd sf 2)
  -- determine number/start of AUs
  let num_aus := numAUs sf_format
  let au_start := auTable sf s.sf_len sf_format num_aus s.au_start
  let s := { s with sf_format := sf_format, num_aus := num_aus, au_start := au_start }
  -- simple plausi check for correct order of start offsets
  if auDisorder num_aus au_start then (false, s) else (true, s)

/-- The text `ProcessFormat` streams into `ss`. -/
def formatText (sf_format : SuperframeFormat) (sf_len : Nat) : String :=
  let stereo_mode := if sf_format.aac_channel_mode || sf_format.ps_flag then "Stereo" else "Mono"
  let surround_mode : Option String :=
    match sf_format.mpeg_surround_config with
    | 0 => none
    | 1 => some "Surround 5.1"
    | 2 => some "Surround 7.1"
    | _ => some "Surround (unknown)"
  let bitrate := sf_len / 120 * 8
  (if sf_format.sbr_flag then (if sf_format.ps_flag then "HE-AAC v2" else "HE-AAC") else "AAC-LC")
    ++ ", "
    ++ toString (if sf_format.dac_rate then 48 else 32) ++ " kHz "
    ++ (match surround_mode with
        | some m => m ++ " (" ++ stereo_mode ++ " core) "
        | none => stereo_mode ++ " ")
    ++ "@ " ++ toString bitrate ++ " kBit/s"

/-- The function `SuperframeFilter::ProcessFormat`: the callback, then the new
AAC decoder replaces the old one; the event `NewDecoder` stands for the whole
construction, the stderr line of the constructor (line 307) and the `StartAudio`
callback of the backend included. -/
def ProcessFormat (s : SuperframeFilter) : SuperframeFilter × List Event :=
  let dec := AACDecoder.new s.sf_format
  ({ s with aac_dec := some dec },
   [Event.FormatChange (formatText s.sf_format s.sf_len), Event.NewDecoder dec])

/-! ## RSDecoder::DecodeSuperframe (dabplus_decoder.cpp:264-301) -/

/-- One pass of the loop over the RS packets: packet `i` is gathered, decoded, and
the reported corrections are written back. The accumulator is `sf`,
`total_corr_count` and `uncorr_errors`. -/
def DecodeSuperframe.packet (decode_rs_char : List Byte → RSResult) (subch_index : Nat)
    (acc : List Byte × Int × Bool) (i : Nat) : List Byte × Int × Bool :=
  let sf := acc.1
  let total_corr_count := acc.2.1
  let uncorr_errors := acc.2.2
  let rs_packet := (List.range 120).map (fun pos => sf.getD (pos * subch_index + i) 0)
  -- detect errors
  let r := decode_rs_char rs_packet
  let corr_count := r.corr_count
  let uncorr_errors := if corr_count = -1 then true else uncorr_errors
  let total_corr_count := if corr_count = -1 then total_corr_count else total_corr_count + corr_count
  -- correct errors
  let sf := (List.range corr_count.toNat).foldl (fun sf j =>
    let pos := r.corr_pos.getD j 0 - 135
    if pos < 0 then sf
    else sf.set (pos.toNat * subch_index + i) (r.rs_packet.getD pos.toNat 0)) sf
  (sf, total_corr_count, uncorr_errors)

/-- The function `RSDecoder::DecodeSuperframe(sf, sf_len)`: the buffer after the
call and what was printed. -/
def DecodeSuperframe (decode_rs_char : List Byte → RSResult) (sf : List Byte) (sf_len : Nat) :
    List Byte × List Event :=
  let subch_index := sf_len / 120
  -- process all RS packets
  let r := (List.range subch_index).foldl (DecodeSuperframe.packet decode_rs_char subch_index)
    (sf, 0, false)
  -- output statistics if errors present (using ANSI coloring)
  (r.1,
   if r.2.1 ≠ 0 ∨ r.2.2 then
     [Event.Log ("\x1b[36m(" ++ toString r.2.1 ++ (if r.2.2 then "+" else "") ++ ")\x1b[0m ")]
   else [])

/-! ## SuperframeFilter::Feed (dabplus_decoder.cpp:46-131) -/

/-- The call `memcpy(dst + dst_off, src + src_off, n)`. -/
def memcpy (dst : List Byte) (dst_off : Nat) (src : List Byte) (src_off n : Nat) : List Byte :=
  dst.take dst_off ++ slice src src_off n ++ dst.drop (dst_off + n)

/-- The frame-length check (lines 47-68): the message of the rejection, or the
filter with the length latched and the buffers allocated. -/
def Feed.checkLen (s : SuperframeFilter) (len : Nat) : Except String SuperframeFilter :=
  if s.frame_len ≠ 0 then
    if s.frame_len ≠ len then
      .error ("SuperframeFilter: different frame len " ++ toString len ++ " (should be: "
        ++ toString s.frame_len ++ ") - frame ignored!\n")
    else .ok s
  else
    if len < 10 then
      .error ("SuperframeFilter: frame len " ++ toString len ++ " too short - frame ignored!\n")
    else if (5 * len) % 120 ≠ 0 then
      .error ("SuperframeFilter: resulting Superframe len of len " ++ toString len
        ++ " not divisible by 120 - frame ignored!\n")
    else
      let frame_len := len
      let sf_len := 5 * frame_len
      .ok { s with frame_len := frame_len, sf_len := sf_len,
                   sf_raw := List.replicate sf_len 0, sf := List.replicate sf_len 0 }

/-- The frame is added to `sf_raw` (lines 70-79), older frames shifted down when
five are held. -/
def Feed.addFrame (s : SuperframeFilter) (data : List Byte) : SuperframeFilter :=
  let s :=
    if s.frame_count = 5 then
      -- shift previous frames
      { s with sf_raw := (List.range 4).foldl (fun sf_raw i =>
          memcpy sf_raw (i * s.frame_len) sf_raw ((i + 1) * s.frame_len) s.frame_len) s.sf_raw }
    else { s with frame_count := s.frame_count + 1 }
  -- copy frame
  { s with sf_raw := memcpy s.sf_raw ((s.frame_count - 1) * s.frame_len) data 0 s.frame_len }

/-- The copy of `sf_raw` into `sf` and the RS pass on the copy (lines 86-87). -/
def Feed.decodeRS (ext : Externals) (s : SuperframeFilter) : SuperframeFilter × List Event :=
  let sf := memcpy s.sf 0 s.sf_raw 0 s.sf_len
  let r := DecodeSuperframe ext.decode_rs_char sf s.sf_len
  ({ s with sf := r.1 }, r.2)

/-- The pointer `au_data = sf + au_start[i]` (line 113): the buffer from that
offset on. -/
def auData (sf : List Byte) (au_start : Nat → Int) (i : Nat) : List Byte :=
  sf.drop (au_start i).toNat

/-- The length `au_len = au_start[i+1] - au_start[i]` (line 114). -/
def auLen (au_start : Nat → Int) (i : Nat) : Nat := (au_start (i + 1) - au_start i).toNat

/-- The word `au_crc_stored` read from the last two bytes of AU `i` (line 116). -/
def auCrcStored (sf : List Byte) (au_start : Nat → Int) (i : Nat) : Nat :=
  (rd (auData sf au_start i) (auLen au_start i - 2) <<< 8
    ||| rd (auData sf au_start i) (auLen au_start i - 1)) % 65536

/-- The word `au_crc_calced` computed over AU `i` without its last two bytes
(line 117). -/
def auCrcCalced (ext : Externals) (sf : List Byte) (au_start : Nat → Int) (i : Nat) : Nat :=
  ext.CalcCRC_CRC16_CCITT ((auData sf au_start i).take (auLen au_start i - 2)) % 65536

/-- The body of the loop over the AUs from the CRC comparison on (lines 118-126),
for an AU of at least two bytes. -/
def Feed.auEvents (ext : Externals) (sf : List Byte) (au_start : Nat → Int) (i : Nat) :
    List Event :=
  let au_data := auData sf au_start i
  let au_len := auLen au_start i
  if auCrcStored sf au_start i ≠ auCrcCalced ext sf au_start i then
    [Event.Log ("\x1b[31m(AU #" ++ toString i ++ ")\x1b[0m ")] ++ ResetPAD
  else
    let au_len := au_len - 2
    [Event.DecodeFrame (au_data.take au_len)] ++ CheckForPAD (au_data.take au_len)

/-- One pass of the loop over the AUs (lines 113-126). For an AU shorter than two
bytes `au_len - 2` wraps around in `size_t` and the CRC runs off the buffer: that
pass has no defined result (`none`). -/
def Feed.decodeAU (ext : Externals) (sf : List Byte) (au_start : Nat → Int) (i : Nat) :
    Option (List Event) :=
  if auLen au_start i < 2 then none else some (Feed.auEvents ext sf au_start i)

/-- The passes of the loop over the AUs for the indices of a list, in order. -/
def Feed.decodeAUsFrom (ext : Externals) (sf : List Byte) (au_start : Nat → Int) :
    List Nat → Option (List Event)
  | [] => some []
  | i :: rest =>
    match Feed.decodeAU ext sf au_start i with
    | none => none
    | some evs => (Feed.decodeAUsFrom ext sf au_start rest).map (fun evs_rest => evs ++ evs_rest)

/-- The loop `for(int i = 0; i < num_aus; i++)` (lines 112-127). -/
def Feed.decodeAUs (ext : Externals) (s : SuperframeFilter) : Option (List Event) :=
  Feed.decodeAUsFrom ext s.sf s.au_start (List.range s.num_aus)

/-- The sync recovery after a successful sync check (lines 96-100). -/
def Feed.recover (s : SuperframeFilter) : SuperframeFilter × List Event :=
  if s.sync_frames ≠ 0 then
    ({ s with sync_frames := 0 },
     [Event.Log ("SuperframeFilter: Superframe sync succeeded after " ++ toString s.sync_frames
        ++ " frame(s)\n")] ++ ResetPAD)
  else (s, [])

/-- The check of the announced format (lines 103-109). -/
def Feed.checkFormat (s : SuperframeFilter) : SuperframeFilter × List Event :=
  if !s.sf_format_set || s.sf_format_raw ≠ s.sf.getD 2 0 then
    ProcessFormat { s with sf_format_raw := s.sf.getD 2 0, sf_format_set := true }
  else (s, [])

/-- The part of `Feed` after a successful sync check (lines 96-130). -/
def Feed.synced (ext : Externals) (s : SuperframeFilter) : Option (SuperframeFilter × List Event) :=
  let r1 := Feed.recover s
  let s := r1.1
  -- check announced format
  let r2 := Feed.checkFormat s
  let s := r2.1
  -- decode frames
  match Feed.decodeAUs ext s with
  | none => none
  | some evs =>
    -- ensure getting a complete new Superframe
    some ({ s with frame_count := 0 }, r1.2 ++ r2.2 ++ evs)

/-- The function `SuperframeFilter::Feed(data, len)`, `len = data.length`: the
filter after the call and the events of the call. -/
def Feed (ext : Externals) (s : SuperframeFilter) (data : List Byte) :
    Option (SuperframeFilter × List Event) :=
  match Feed.checkLen s data.length with
  | .error msg => some (s, [Event.Log msg])
  | .ok s =>
    let s := Feed.addFrame s data
    if s.frame_count < 5 then some (s, []) else
    -- append RS coding on copy
    let r := Feed.decodeRS ext s
    let s := r.1
    match CheckSync ext s with
    | (false, s) =>
      some ({ s with sync_frames := s.sync_frames + 1 },
        r.2 ++ (if s.sync_frames = 0 then
          [Event.Log "SuperframeFilter: Superframe sync started...\n"] else []))
    | (true, s) =>
      match Feed.synced ext s with
      | none => none
      | some (s, evs) => some (s, r.2 ++ evs)

/-! ## Notions used to state the properties -/

/-- The filter right after the sync check of this call of `Feed` succeeded, with
what the RS pass printed; `none` when the call does not get to a successful
sync check. -/
def Feed.syncPoint (ext : Externals) (s : SuperframeFilter) (data : List Byte) :
    Option (SuperframeFilter × List Event) :=
  match Feed.checkLen s data.length with
  | .error _ => none
  | .ok s =>
    let s := Feed.addFrame s data
    if s.frame_count < 5 then none else
    let r := Feed.decodeRS ext s
    match CheckSync ext r.1 with
    | (false, _) => none
    | (true, s) => some (s, r.2)

/-- The callbacks `FormatChange` and `ProcessPAD` into the observer and the calls
of the AAC decoder among the events: log lines and the construction of the
decoder (with its `StartAudio` callback) are left out. -/
def observed (evs : List Event) : List Event :=
  evs.filter (fun e =>
    match e with
    | Event.FormatChange _ => true
    | Event.DecodeFrame _ => true
    | Event.ProcessPAD _ _ _ _ => true
    | _ => false)

/-- The payloads handed to `aac_dec->DecodeFrame`, in call order. -/
def decodedFrames (evs : List Event) : List (List Byte) :=
  evs.filterMap (fun e =>
    match e with
    | Event.DecodeFrame d => some d
    | _ => none)

/-- The filters a sequence of `Feed` calls can produce from a new one. -/
inductive Reachable (ext : Externals) : SuperframeFilter → Prop where
  | init : Reachable ext SuperframeFilter.new
  | feed {s s1 : SuperframeFilter} {data : List Byte} {evs : List Event} :
      Reachable ext s → Feed ext s data = some (s1, evs) → Reachable ext s1

/-- The frame length passes the first-frame check of `Feed` (lines 54-61). -/
def acceptedLen (len : Nat) : Prop := 10 ≤ len ∧ (5 * len) % 120 = 0

instance (len : Nat) : Decidable (acceptedLen len) := by unfold acceptedLen; infer_instance

/-- The filter `CheckSync` leaves behind when it gets past the Fire code. -/
def CheckSync.parsed (s : SuperframeFilter) : SuperframeFilter :=
  { s with sf_format := decodeFormat (rd s.sf 2), num_aus := numAUs (decodeFormat (rd s.sf 2)),
           au_start := auTable s.sf s.sf_len (decodeFormat (rd s.sf 2))
             (numAUs (decodeFormat (rd s.sf 2))) s.au_start }

/-- The PAD region `(pad_start, pad_len)` of an AU payload by the 255-extension
rule of the spec. -/
def padRegion (data : List Byte) : Nat × Nat :=
  if rd data 1 ≠ 255 then (2, rd data 1) else (3, 255 + rd data 2)

/-! ## Concrete collaborators and inputs for the examples -/

/-- Modelled from the spec: the class `CalcCRC` (tools.h) is not among the
sources; the spec describes "two independent CRC-16 algorithms, both computed
left-to-right, MSB-first". One byte is shifted through the 16-bit register with
generator polynomial `gen_polynom`. -/
def crc16Step (gen_polynom : Nat) (crc : Nat) (b : Byte) : Nat :=
  (List.range 8).foldl (fun crc _ =>
    if crc &&& 0x8000 ≠ 0 then ((crc <<< 1) ^^^ gen_polynom) % 65536 else (crc <<< 1) % 65536)
    (crc ^^^ (b.val <<< 8))

/-- Modelled from the spec: `CalcCRC::Calc` (tools.h, not among the sources), a
CRC-16 with optional inversion of the initial value and of the result. -/
def crc16 (initial_invert final_invert : Bool) (gen_polynom : Nat) (data : List Byte) : Nat :=
  let crc := if initial_invert then 0xFFFF else 0x0000
  let crc := data.foldl (crc16Step gen_polynom) crc
  if final_invert then crc ^^^ 0xFFFF else crc

/-- Collaborators for the examples: the Fire code of ETSI TS 102 563 (generator
0x782F, zero initial value), the CCITT CRC-16 (generator 0x1021, initial value and
result inverted), and the answer of `decode_rs_char` on a codeword with zero
syndrome: nothing corrected. -/
def refExternals : Externals :=
  { CalcCRC_FIRE_CODE := crc16 false false 0x782F
    CalcCRC_CRC16_CCITT := crc16 true true 0x1021
    decode_rs_char := fun rs_packet => { rs_packet := rs_packet, corr_pos := [], corr_count := 0 } }

/-- Five frames of 24 bytes, cut at `i * 24`, from a Superframe of 120 bytes. -/
def framesOf (sf : List Byte) : List (List Byte) :=
  (List.range 5).map (fun i => slice sf (i * 24) 24)

/-- Successive calls of `Feed`: the filter after the last call and the events
of each call. -/
def feedAll (ext : Externals) :
    SuperframeFilter → List (List Byte) → Option (SuperframeFilter × List (List Event))
  | s, [] => some (s, [])
  | s, data :: rest =>
    match Feed ext s data with
    | none => none
    | some (s1, evs) =>
      match feedAll ext s1 rest with
      | none => none
      | some (s2, evss) => some (s2, evs :: evss)

/-- A Superframe of 120 bytes (one RS codeword, valid parity) with format byte
0x20: two AUs at offsets 5 and 40, both with a valid CRC; the second starts with
a Data Stream Element carrying four PAD bytes. -/
def sfA : List Byte :=
  [65, 168, 32, 2, 128, 0, 0, 0, 0, 0, 0, 43, 50, 57, 64, 71, 78, 85, 92, 99, 106, 113, 120, 127,
   134, 141, 148, 155, 162, 169, 176, 183, 190, 197, 204, 211, 218, 225, 142, 153, 128, 4, 1, 2,
   3, 4, 9, 9, 2, 9, 16, 23, 30, 37, 44, 51, 58, 65, 72, 79, 86, 93, 100, 107, 114, 121, 128, 135,
   142, 149, 156, 163, 170, 177, 184, 191, 198, 205, 212, 219, 226, 233, 240, 247, 254, 5, 12, 19,
   26, 33, 40, 47, 54, 61, 68, 75, 82, 89, 96, 103, 110, 117, 124, 131, 138, 145, 152, 159, 234,
   215, 101, 13, 0, 239, 96, 216, 172, 90, 69, 97]

/-- The filter holding the Superframe `sfA` in its working buffer, five frames
of 24 bytes assembled. -/
def filterA : SuperframeFilter :=
  { SuperframeFilter.new with
    frame_len := 24, frame_count := 5, sf_raw := sfA, sf := sfA, sf_len := 120 }

/-- An AU payload that starts with a Data Stream Element: four PAD bytes, the
last two of them the F-PAD. -/
def padPayload : List Byte := [0x80, 4, 1, 2, 3, 4, 9, 9]

/-- A Superframe of 120 bytes (one RS codeword, valid parity) with format byte
0x40: six AUs at offsets 11, 20, 30, 50, 70, 90; the stored CRC of AU 2 has its
last bit flipped, the other five are valid. -/
def sfC : List Byte :=
  [14, 106, 64, 1, 64, 30, 3, 32, 70, 5, 160, 1, 8, 15, 22, 29, 36, 43, 188, 204, 2, 9, 16, 23,
   30, 37, 44, 51, 130, 209, 3, 10, 17, 24, 31, 38, 45, 52, 59, 66, 73, 80, 87, 94, 101, 108, 115,
   122, 181, 200, 4, 11, 18, 25, 32, 39, 46, 53, 60, 67, 74, 81, 88, 95, 102, 109, 116, 123, 134,
   106, 5, 12, 19, 26, 33, 40, 47, 54, 61, 68, 75, 82, 89, 96, 103, 110, 117, 124, 143, 114, 6,
   13, 20, 27, 34, 41, 48, 55, 62, 69, 76, 83, 90, 97, 104, 111, 118, 125, 138, 51, 242, 145, 52,
   170, 107, 27, 77, 16, 100, 247]

/-- The filter after `Feed` was called on each frame of a list, starting from a
new filter; a new filter when a call has no result. -/
def filterAfter (ext : Externals) (frames : List (List Byte)) : SuperframeFilter :=
  ((feedAll ext SuperframeFilter.new frames).map Prod.fst).getD SuperframeFilter.new

/-- The events of each of the calls of `Feed` on the frames of a list, starting
from a new filter. -/
def eventsOf (ext : Externals) (frames : List (List Byte)) : Option (List (List Event)) :=
  (feedAll ext SuperframeFilter.new frames).map Prod.snd

/-- The kind of an event. -/
inductive Kind where
  | log | format | decoder | frame | pad
deriving DecidableEq, Repr

/-- The kind of an event: log line, `FormatChange`, decoder construction,
`DecodeFrame`, `ProcessPAD`. -/
def Event.kind : Event → Kind
  | Event.Log _ => Kind.log
  | Event.FormatChange _ => Kind.format
  | Event.NewDecoder _ => Kind.decoder
  | Event.DecodeFrame _ => Kind.frame
  | Event.ProcessPAD _ _ _ _ => Kind.pad

/-- The order of calls per AU as the claim has it: the `ProcessPAD` of an AU,
then at most one `DecodeFrame`. -/
def padThenFrame : List Kind → Bool
  | [] => true
  | Kind.pad :: Kind.frame :: rest => padThenFrame rest
  | Kind.pad :: rest => padThenFrame rest
  | _ => false

/-- The order of the observer-visible events of one call as the claim has it: at
most one `FormatChange` first, then per AU `ProcessPAD` followed by the AAC
decoder call. -/
def claimedOrder (evs : List Event) : Bool :=
  match (observed evs).map Event.kind with
  | Kind.format :: rest => padThenFrame rest
  | ks => padThenFrame ks

/-- The filter after the first four frames of `sfC`. -/
def filterC4 : SuperframeFilter := filterAfter refExternals ((framesOf sfC).take 4)

/-- The fifth frame of `sfC`. -/
def frameC5 : List Byte := slice sfC 96 24

/-- The result of the fifth call of `Feed` on the frames of `sfC`. -/
def resultC : SuperframeFilter × List Event :=
  (Feed refExternals filterC4 frameC5).getD (SuperframeFilter.new, [])

/-- The filter after the sync check of the fifth call on the frames of `sfC`. -/
def syncC : SuperframeFilter × List Event :=
  (Feed.syncPoint refExternals filterC4 frameC5).getD (SuperframeFilter.new, [])

/-- The filter after a first frame of 96 bytes. -/
def filter96 : SuperframeFilter :=
  Feed.addFrame { SuperframeFilter.new with
    frame_len := 96, sf_len := 480, sf_raw := List.replicate 480 0,
    sf := List.replicate 480 0 } (List.replicate 96 0)

/-- The filter on which this call of `Feed` runs `CheckSync`, the RS pass done,
with what the RS pass printed; `none` when the call returns before the check. -/
def Feed.syncInput (ext : Externals) (s : SuperframeFilter) (data : List Byte) :
    Option (SuperframeFilter × List Event) :=
  match Feed.checkLen s data.length with
  | .error _ => none
  | .ok s =>
    let s := Feed.addFrame s data
    if s.frame_count < 5 then none else some (Feed.decodeRS ext s)

/-- The buffers of the filter have the length that goes with the latched frame
length, and at most five frames are held. -/
def SuperframeFilter.WF (s : SuperframeFilter) : Prop :=
  s.sf_len = 5 * s.frame_len ∧ s.sf_raw.length = s.sf_len ∧ s.sf.length = s.sf_len
  ∧ s.frame_count ≤ 5 ∧ (s.frame_len = 0 → s.frame_count = 0)
  ∧ (s.frame_len ≠ 0 → acceptedLen s.frame_len)

/-- The frames of a list that pass the length check of their call of `Feed`, in
order, when `Feed` is called on each frame in turn from the filter `s`. -/
def acceptedFrames (ext : Externals) : SuperframeFilter → List (List Byte) → List (List Byte)
  | _, [] => []
  | s, f :: fs =>
    match Feed ext s f with
    | none => []
    | some (s1, _) =>
      (match Feed.checkLen s f.length with
        | .ok _ => [f]
        | .error _ => []) ++ acceptedFrames ext s1 fs

/-- The last `n` entries of a list, in order. -/
def lastN {α : Type} (n : Nat) (l : List α) : List α := l.drop (l.length - n)

/-- The first `frame_count` slots of `sf_raw` hold the most recently accepted
frames, `racc` listing the accepted frames latest first. -/
def SuperframeFilter.Holds (s : SuperframeFilter) (racc : List (List Byte)) : Prop :=
  s.WF ∧ s.frame_count ≤ racc.length ∧ (∀ f ∈ racc, f.length = s.frame_len)
  ∧ s.sf_raw.take (s.frame_count * s.frame_len) = ((racc.take s.frame_count).reverse).flatten
  ∧ (s.frame_len = 0 → racc = [])

/-- The number of events of a kind among the events of a call. -/
def countKind (k : Kind) (evs : List Event) : Nat := (evs.map Event.kind).count k

/-- The format byte cached by the filter, if one has been set. -/
def cachedFormat (s : SuperframeFilter) : Option Byte :=
  if s.sf_format_set then some s.sf_format_raw else none

/-- Byte 2 of the working buffer of each call of `Feed` that passes the sync
check, in call order, when `Feed` is called on each frame in turn from `s`: the
format bytes of the accepted Superframes. -/
def formatBytes (ext : Externals) : SuperframeFilter → List (List Byte) → List Byte
  | _, [] => []
  | s, f :: fs =>
    match Feed ext s f with
    | none => []
    | some (s1, _) =>
      (match Feed.syncPoint ext s f with
        | some (u, _) => [u.sf.getD 2 0]
        | none => []) ++ formatBytes ext s1 fs

/-- The number of entries of a list of format bytes that differ from the entry
before them, the first one compared with the byte `prev` cached before. -/
def formatTransitions : Option Byte → List Byte → Nat
  | _, [] => 0
  | prev, b :: bs => (if prev = some b then 0 else 1) + formatTransitions (some b) bs

/-- The Superframe `sfA` with format byte 0x28 (SBR and PS) instead of 0x20, Fire
code and RS parity recomputed. -/
def sfB : List Byte :=
  [49, 230, 40, 2, 128, 0, 0, 0, 0, 0, 0, 43, 50, 57, 64, 71, 78, 85, 92, 99, 106, 113, 120, 127,
   134, 141, 148, 155, 162, 169, 176, 183, 190, 197, 204, 211, 218, 225, 142, 153, 128, 4, 1, 2,
   3, 4, 9, 9, 2, 9, 16, 23, 30, 37, 44, 51, 58, 65, 72, 79, 86, 93, 100, 107, 114, 121, 128, 135,
   142, 149, 156, 163, 170, 177, 184, 191, 198, 205, 212, 219, 226, 233, 240, 247, 254, 5, 12, 19,
   26, 33, 40, 47, 54, 61, 68, 75, 82, 89, 96, 103, 110, 117, 124, 131, 138, 145, 152, 159, 234,
   215, 68, 227, 203, 163, 60, 219, 157, 86, 155, 163]

/-- Fifteen frames: the Superframes `sfA`, `sfB`, `sfA` in succession. -/
def framesABA : List (List Byte) := framesOf sfA ++ framesOf sfB ++ framesOf sfA

/-- The filter a new filter becomes when the first-frame check of `Feed` latches
the frame length `len` (lines 63-67). -/
def SuperframeFilter.latched (len : Nat) : SuperframeFilter :=
  { SuperframeFilter.new with
    frame_len := len, sf_len := 5 * len,
    sf_raw := List.replicate (5 * len) 0, sf := List.replicate (5 * len) 0 }

/-- The texts of the form the claim on `FormatChange` allows, for a bit rate:
codec, sample rate, and a channel part that is `Mono `, `Stereo ` or
`Surround x.x (Mono|Stereo core) ` with x.x one of 5.1 and 7.1. -/
def claimedTexts (bitrate : Nat) : List String :=
  ["AAC-LC", "HE-AAC", "HE-AAC v2"].flatMap fun codec =>
    ["32", "48"].flatMap fun rate =>
      ["Mono ", "Stereo ", "Surround 5.1 (Mono core) ", "Surround 5.1 (Stereo core) ",
       "Surround 7.1 (Mono core) ", "Surround 7.1 (Stereo core) "].map fun mode =>
        codec ++ ", " ++ rate ++ " kHz " ++ mode ++ "@ " ++ toString bitrate ++ " kBit/s"

/-- Bit `j` of a buffer, bits counted from the most significant bit of byte 0. -/
def bitAt (buf : List Byte) (j : Nat) : Nat := (rd buf (j / 8) >>> (7 - j % 8)) &&& 1

/-- A big-endian, MSB-first bit reader: the value of the `n` bits of a buffer
that start at bit offset `off`. -/
def readBits (buf : List Byte) (off n : Nat) : Nat :=
  (List.range n).foldl (fun acc k => 2 * acc + bitAt buf (off + k)) 0

/-- The `ProcessPAD` callbacks among the events, in call order. -/
def padCalls (evs : List Event) : List Event :=
  evs.filter (fun e => decide (e.kind = Kind.pad))

/-- The bytes handed to `DecodeFrame` and `CheckForPAD` for AU `i`: the AU
without its CRC (lines 124-126). -/
def auPayload (sf : List Byte) (au_start : Nat → Int) (i : Nat) : List Byte :=
  (auData sf au_start i).take (auLen au_start i - 2)

/-- The payload carries PAD that `CheckForPAD` accepts: a Data Stream Element
first, whose PAD region has at least the two F-PAD bytes and fits the payload. -/
def validPAD (data : List Byte) : Prop :=
  3 ≤ data.length ∧ rd data 0 >>> 5 = 4 ∧ 2 ≤ (padRegion data).2
    ∧ (padRegion data).1 + (padRegion data).2 ≤ data.length

instance (data : List Byte) : Decidable (validPAD data) := by unfold validPAD; infer_instance

/-- The result of the sync check of this call of `Feed`: `none` when the call
does not get to a sync check. -/
def syncOutcome (ext : Externals) (s : SuperframeFilter) (data : List Byte) : Option Bool :=
  (Feed.syncInput ext s data).map (fun r => (CheckSync ext r.1).1)

/-- The results of the sync checks when `Feed` is called on each frame in turn
from `s`, in call order (calls without a sync check left out). -/
def syncOutcomes (ext : Externals) : SuperframeFilter → List (List Byte) → List Bool
  | _, [] => []
  | s, f :: fs =>
    match Feed ext s f with
    | none => []
    | some (s1, _) => (syncOutcome ext s f).toList ++ syncOutcomes ext s1 fs

/-- The number of failed sync checks since the last successful one (or since the
start of the list). -/
def trailingFails (outcomes : List Bool) : Nat :=
  (outcomes.reverse.takeWhile (fun b => !b)).length

/-- Codeword `i` of a buffer of `K` interleaved codewords: the bytes at positions
`pos * K + i` for `pos` in `[0, 120)`, as the loop of lines 276-277 gathers them. -/
def codeword (sf : List Byte) (K i : Nat) : List Byte :=
  (List.range 120).map (fun pos => sf.getD (pos * K + i) 0)

/-- The stores of the correction loop of one packet (lines 286-295), in program
order: the index into `sf` and the byte stored there. -/
def DecodeSuperframe.corrections (r : RSResult) (subch_index i : Nat) : List (Nat × Byte) :=
  (List.range r.corr_count.toNat).filterMap (fun j =>
    let pos := r.corr_pos.getD j 0 - 135
    if pos < 0 then none else some (pos.toNat * subch_index + i, r.rs_packet.getD pos.toNat 0))

/-- Modelled from the spec: `decode_rs_char` belongs to libfec, not to the
sources. The assumption of the spec on it: the decoder "corrects its 120-byte
input in place" and, unless it reports -1, a position of the packet was changed
exactly when it is among the reported ones, "each offset by the shortening pad
135". -/
def RSCorrectsInPlace (decode_rs_char : List Byte → RSResult) : Prop :=
  ∀ p : List Byte, p.length = 120 →
    (decode_rs_char p).rs_packet.length = 120
    ∧ ((decode_rs_char p).corr_count ≠ -1 →
        ∀ pos : Nat, ((decode_rs_char p).rs_packet.getD pos 0 ≠ p.getD pos 0 ↔
          ∃ j, j < (decode_rs_char p).corr_count.toNat
            ∧ (decode_rs_char p).corr_pos.getD j 0 = ((pos + 135 : Nat) : Int)))

/-- A decoder for the examples, for a code whose codewords start with a zero
byte: a packet whose byte 1 is 255 is reported uncorrectable, otherwise byte 0
is set to zero and, when that changed it, reported as position 135. -/
def zeroHeadDecoder (rs_packet : List Byte) : RSResult :=
  if rs_packet.getD 1 0 = 255 then { rs_packet := rs_packet, corr_pos := [], corr_count := -1 }
  else if rs_packet.getD 0 0 = 0 then { rs_packet := rs_packet, corr_pos := [], corr_count := 0 }
  else { rs_packet := rs_packet.set 0 0, corr_pos := [135], corr_count := 1 }

/-- Two interleaved codewords of 120 bytes: codeword 0 starts with the byte 9,
codeword 1 has 255 as its byte 1. -/
def sfInterleaved : List Byte := [9, 0, 0, 255] ++ List.replicate 236 0

/-- The filter holding the Superframe `sfC` in its working buffer, five frames
of 24 bytes assembled. -/
def filterC : SuperframeFilter :=
  { SuperframeFilter.new with
    frame_len := 24, frame_count := 5, sf_raw := sfC, sf := sfC, sf_len := 120 }

/-- The filter after a frame of 24 zero bytes and the first three frames of
`sfA`. -/
def filterZ4 : SuperframeFilter :=
  filterAfter refExternals (List.replicate 24 0 :: (framesOf sfA).take 3)

/-- The result of `Feed` on the fourth frame of `sfA` after that: the window
starts with the frame of zero bytes. -/
def resultZ5 : SuperframeFilter × List Event :=
  (Feed refExternals filterZ4 (slice sfA 72 24)).getD (SuperframeFilter.new, [])

/-- The result of `Feed` on the fifth frame of `sfA` after that: the window is
`sfA`. -/
def resultZ6 : SuperframeFilter × List Event :=
  (Feed refExternals resultZ5.1 (slice sfA 96 24)).getD (SuperframeFilter.new, [])

/-- A Superframe of 120 bytes (one RS codeword, valid parity) with format byte
0x20 and a valid Fire code whose first start field is 6: AU 0 is the single byte
at offset 5, AU 1 the bytes from 6 to 110 with a valid CRC. -/
def sfD : List Byte :=
  [153, 11, 32, 0, 96, 0, 0, 0, 0, 0, 0, 58, 63, 68, 73, 78, 83, 88, 93, 98, 103, 108, 113, 118,
   123, 128, 133, 138, 143, 148, 153, 158, 163, 168, 173, 178, 183, 188, 193, 198, 203, 208, 213,
   218, 223, 228, 233, 238, 243, 248, 253, 2, 7, 12, 17, 22, 27, 32, 37, 42, 47, 52, 57, 62, 67,
   72, 77, 82, 87, 92, 97, 102, 107, 112, 117, 122, 127, 132, 137, 142, 147, 152, 157, 162, 167,
   172, 177, 182, 187, 192, 197, 202, 207, 212, 217, 222, 227, 232, 237, 242, 247, 252, 1, 6, 11,
   16, 21, 26, 173, 30, 44, 222, 94, 107, 69, 232, 246, 124, 185, 226]

/-- The filter after the first four frames of `sfD`. -/
def filterD4 : SuperframeFilter := filterAfter refExternals ((framesOf sfD).take 4)

/-- The fifth frame of `sfD`. -/
def frameD5 : List Byte := slice sfD 96 24

/-- The filter after the sync check of the fifth call on the frames of `sfD`. -/
def syncD : SuperframeFilter × List Event :=
  (Feed.syncPoint refExternals filterD4 frameD5).getD (SuperframeFilter.new, [])

/-- The value `au_len - 2` passed to the CRC (line 117) as a 64-bit `size_t`
holds it: the difference modulo `2 ^ 64`. -/
def auLenMinus2 (au_start : Nat → Int) (i : Nat) : Nat :=
  ((au_start (i + 1) - au_start i - 2) % 2 ^ 64).toNat

/-- `CheckSync` with the test on bytes 3 and 4 (lines 164-166) removed and
everything else as in `CheckSync`. -/
def CheckSync.withoutZeroGuard (ext : Externals) (s : SuperframeFilter) :
    Bool × SuperframeFilter :=
  let sf := s.sf
  -- try to sync on fire code
  let crc_stored := (rd sf 0 <<< 8 ||| rd sf 1) % 65536
  let crc_calced := ext.CalcCRC_FIRE_CODE (slice sf 2 9) % 65536
  if crc_stored ≠ crc_calced then (false, s) else
  -- handle format
  let sf_format := decodeFormat (rd sf 2)
  -- determine number/start of AUs
  let num_aus := numAUs sf_format
  let au_start := auTable sf s.sf_len sf_format num_aus s.au_start
  let s := { s with sf_format := sf_format, num_aus := num_aus, au_start := au_start }
  -- simple plausi check for correct order of start offsets
  if auDisorder num_aus au_start then (false, s) else (true, s)

/-! ## Lemmas -/

theorem slice_length (buf : List Byte) (off n : Nat) (h : off + n ≤ buf.length) :
    (slice buf off n).length = n := by
  simp [slice]; omega

theorem AACDecoder.new_surround (d s a p : Bool) (m : Nat) :
    AACDecoder.new ⟨d, s, a, p, m⟩ = AACDecoder.new ⟨d, s, a, p, 0⟩ := rfl

theorem ascSpec_surround (d s a p : Bool) (m : Nat) :
    ascSpec ⟨d, s, a, p, m⟩ = ascSpec ⟨d, s, a, p, 0⟩ := rfl

theorem AACDecoder.asc_len_eq (f : SuperframeFormat) :
    (AACDecoder.new f).asc_len = (if f.sbr_flag then (if f.ps_flag then 7 else 5) else 2)
    ∧ (AACDecoder.new f).ascBytes.length = (AACDecoder.new f).asc_len := by
  obtain ⟨d, s, a, p, m⟩ := f
  rw [AACDecoder.new_surround]
  dsimp only
  revert d s a p
  decide

theorem CheckForPAD_eq (data : List Byte) :
    CheckForPAD data =
      if 3 ≤ data.length ∧ rd data 0 >>> 5 = 4 ∧ 2 ≤ (padRegion data).2
          ∧ (padRegion data).1 + (padRegion data).2 ≤ data.length then
        [Event.ProcessPAD (some (slice data (padRegion data).1 ((padRegion data).2 - 2)))
          ((padRegion data).2 - 2) true
          (slice data ((padRegion data).1 + (padRegion data).2 - 2) 2)]
      else [Event.ProcessPAD none 0 true [0, 0]] := by
  unfold CheckForPAD padRegion ResetPAD FPAD_LEN
  by_cases hlen : 3 ≤ data.length <;> by_cases hdse : rd data 0 >>> 5 = 4 <;>
    by_cases h255 : rd data 1 = 255
  · by_cases hok : 2 ≤ 255 + rd data 2 ∧ 3 + (255 + rd data 2) ≤ data.length
    · simp [hlen, hdse, h255, hok]
    · simp [hlen, hdse, h255, hok]
  · by_cases hok : 2 ≤ rd data 1 ∧ 2 + rd data 1 ≤ data.length
    · simp [hlen, hdse, h255, hok]
    · simp [hlen, hdse, h255, hok]
  all_goals simp [hlen, hdse, h255]

theorem CheckSync_true_iff (ext : Externals) (s t : SuperframeFilter) :
    CheckSync ext s = (true, t) ↔
      ¬ (rd s.sf 3 = 0 ∧ rd s.sf 4 = 0)
      ∧ (rd s.sf 0 <<< 8 ||| rd s.sf 1) % 65536 = ext.CalcCRC_FIRE_CODE (slice s.sf 2 9) % 65536
      ∧ auDisorder (CheckSync.parsed s).num_aus (CheckSync.parsed s).au_start = false
      ∧ t = CheckSync.parsed s := by
  unfold CheckSync CheckSync.parsed
  simp only
  split_ifs with h1 h2 h3
  · simp [h1]
  · simp [h1, h2]
  · simp [h1, h3]
  · simp [h1, h3]
    constructor
    · rintro rfl; exact ⟨by simpa using h2, rfl⟩
    · rintro ⟨_, rfl⟩; rfl

theorem auDisorder_false_iff (n : Nat) (au : Nat → Int) :
    auDisorder n au = false ↔ ∀ i, i < n → au i < au (i + 1) := by
  unfold auDisorder
  rw [Bool.eq_false_iff]
  simp [List.any_eq_true]

theorem auTable_sentinel (sf : List Byte) (sf_len : Nat) (f : SuperframeFormat) (au : Nat → Int) :
    auTable sf sf_len f (numAUs f) au (numAUs f) = ((sf_len / 120 * 110 : Nat) : Int) := by
  unfold auTable numAUs
  cases f.dac_rate <;> cases f.sbr_flag <;> simp [Function.update]

theorem auTable_zero (sf : List Byte) (sf_len : Nat) (f : SuperframeFormat) (au : Nat → Int) :
    auTable sf sf_len f (numAUs f) au 0 =
      if f.dac_rate then (if f.sbr_flag then 6 else 11) else (if f.sbr_flag then 5 else 8) := by
  unfold auTable numAUs
  cases f.dac_rate <;> cases f.sbr_flag <;> simp [Function.update]

set_option maxRecDepth 100000 in
theorem filterA_sync : CheckSync refExternals filterA = (true, CheckSync.parsed filterA) := by
  rw [CheckSync_true_iff]
  exact ⟨by decide, by decide, by decide, rfl⟩

theorem checkSync_keeps (ext : Externals) (s : SuperframeFilter) :
    (CheckSync ext s).2.frame_len = s.frame_len ∧ (CheckSync ext s).2.sf_len = s.sf_len := by
  unfold CheckSync
  simp only
  split_ifs <;> exact ⟨rfl, rfl⟩

theorem addFrame_keeps (s : SuperframeFilter) (data : List Byte) :
    (Feed.addFrame s data).frame_len = s.frame_len
    ∧ (Feed.addFrame s data).sf_len = s.sf_len := by
  unfold Feed.addFrame
  simp only
  split_ifs <;> exact ⟨rfl, rfl⟩

theorem decodeRS_keeps (ext : Externals) (s : SuperframeFilter) :
    (Feed.decodeRS ext s).1.frame_len = s.frame_len
    ∧ (Feed.decodeRS ext s).1.sf_len = s.sf_len := ⟨rfl, rfl⟩

theorem recover_keeps (s : SuperframeFilter) :
    (Feed.recover s).1.frame_len = s.frame_len ∧ (Feed.recover s).1.sf_len = s.sf_len
    ∧ (Feed.recover s).1.sf = s.sf ∧ (Feed.recover s).1.au_start = s.au_start
    ∧ (Feed.recover s).1.num_aus = s.num_aus := by
  unfold Feed.recover
  split_ifs <;> exact ⟨rfl, rfl, rfl, rfl, rfl⟩

theorem checkFormat_keeps (s : SuperframeFilter) :
    (Feed.checkFormat s).1.frame_len = s.frame_len ∧ (Feed.checkFormat s).1.sf_len = s.sf_len
    ∧ (Feed.checkFormat s).1.sf = s.sf ∧ (Feed.checkFormat s).1.au_start = s.au_start
    ∧ (Feed.checkFormat s).1.num_aus = s.num_aus := by
  unfold Feed.checkFormat ProcessFormat
  split_ifs <;> exact ⟨rfl, rfl, rfl, rfl, rfl⟩

theorem decodeAUsFrom_eq (ext : Externals) (sf : List Byte) (au : Nat → Int) (l : List Nat) :
    Feed.decodeAUsFrom ext sf au l =
      if ∀ i ∈ l, 2 ≤ auLen au i then some (l.map (Feed.auEvents ext sf au)).flatten
      else none := by
  induction l with
  | nil => simp [Feed.decodeAUsFrom]
  | cons a l ih =>
    unfold Feed.decodeAUsFrom Feed.decodeAU
    rw [ih]
    by_cases ha : auLen au a < 2
    · have : ¬ (2 ≤ auLen au a) := by omega
      simp [ha, this]
    · have : 2 ≤ auLen au a := by omega
      by_cases hl : ∀ i ∈ l, 2 ≤ auLen au i
      · simp [ha, hl, this]
      · simp [ha, hl, this]

theorem decodeAUs_eq (ext : Externals) (s : SuperframeFilter) :
    Feed.decodeAUs ext s =
      if ∀ i, i < s.num_aus → 2 ≤ auLen s.au_start i then
        some ((List.range s.num_aus).map (Feed.auEvents ext s.sf s.au_start)).flatten
      else none := by
  unfold Feed.decodeAUs
  rw [decodeAUsFrom_eq]
  simp only [List.mem_range]

theorem synced_eq (ext : Externals) (s : SuperframeFilter) :
    Feed.synced ext s =
      if ∀ i, i < s.num_aus → 2 ≤ auLen s.au_start i then
        some ({ (Feed.checkFormat (Feed.recover s).1).1 with frame_count := 0 },
          (Feed.recover s).2 ++ (Feed.checkFormat (Feed.recover s).1).2
            ++ ((List.range s.num_aus).map (Feed.auEvents ext s.sf s.au_start)).flatten)
      else none := by
  unfold Feed.synced
  simp only [decodeAUs_eq]
  obtain ⟨-, -, h1, h2, h3⟩ := checkFormat_keeps (Feed.recover s).1
  obtain ⟨-, -, h4, h5, h6⟩ := recover_keeps s
  rw [h1, h2, h3, h4, h5, h6]
  split_ifs <;> rfl

theorem synced_keeps (ext : Externals) (s t : SuperframeFilter) (evs : List Event)
    (h : Feed.synced ext s = some (t, evs)) :
    t.frame_len = s.frame_len ∧ t.sf_len = s.sf_len := by
  rw [synced_eq] at h
  split_ifs at h
  simp only [Option.some.injEq, Prod.mk.injEq] at h
  obtain ⟨rfl, -⟩ := h
  exact ⟨(checkFormat_keeps _).1.trans (recover_keeps s).1,
    (checkFormat_keeps _).2.1.trans (recover_keeps s).2.1⟩

theorem feed_cases (ext : Externals) (s t : SuperframeFilter) (data : List Byte)
    (evs : List Event) (h : Feed ext s data = some (t, evs)) :
    (∃ msg, Feed.checkLen s data.length = .error msg ∧ t = s ∧ evs = [Event.Log msg])
    ∨ (∃ s1, Feed.checkLen s data.length = .ok s1 ∧ t.frame_len = s1.frame_len
          ∧ t.sf_len = s1.sf_len) := by
  unfold Feed at h
  split at h
  · rename_i msg hmsg
    simp only [Option.some.injEq, Prod.mk.injEq] at h
    exact Or.inl ⟨msg, hmsg, h.1.symm, h.2.symm⟩
  · rename_i s1 hs1
    refine Or.inr ⟨s1, hs1, ?_⟩
    simp only at h
    split_ifs at h with hc
    · simp only [Option.some.injEq, Prod.mk.injEq] at h
      obtain ⟨rfl, -⟩ := h
      exact addFrame_keeps s1 data
    · have hk := checkSync_keeps ext (Feed.decodeRS ext (Feed.addFrame s1 data)).1
      have hd := decodeRS_keeps ext (Feed.addFrame s1 data)
      have ha := addFrame_keeps s1 data
      split at h
      · rename_i s2 hcs
        simp only [Option.some.injEq, Prod.mk.injEq] at h
        obtain ⟨rfl, -⟩ := h
        rw [hcs] at hk
        exact ⟨hk.1.trans (hd.1.trans ha.1), hk.2.trans (hd.2.trans ha.2)⟩
      · rename_i s2 hcs
        rw [hcs] at hk
        split at h
        · exact absurd h (by simp)
        · rename_i s3 evs3 hsy
          simp only [Option.some.injEq, Prod.mk.injEq] at h
          obtain ⟨rfl, -⟩ := h
          have hy := synced_keeps ext _ _ _ hsy
          exact ⟨hy.1.trans (hk.1.trans (hd.1.trans ha.1)), hy.2.trans (hk.2.trans (hd.2.trans ha.2))⟩

theorem checkLen_ok (s s1 : SuperframeFilter) (len : Nat) (h : Feed.checkLen s len = .ok s1) :
    (s.frame_len ≠ 0 ∧ s.frame_len = len ∧ s1 = s)
    ∨ (s.frame_len = 0 ∧ acceptedLen len
        ∧ s1 = { s with frame_len := len, sf_len := 5 * len,
                        sf_raw := List.replicate (5 * len) 0, sf := List.replicate (5 * len) 0 }) := by
  unfold Feed.checkLen at h
  unfold acceptedLen
  split_ifs at h with h0 h1 h2 h3
  · simp only [Except.ok.injEq] at h
    exact Or.inl ⟨h0, by simpa using h1, h.symm⟩
  · simp only [Except.ok.injEq] at h
    exact Or.inr ⟨by simpa using h0, ⟨by omega, by simpa using h3⟩, h.symm⟩

theorem reachable_unlatched (ext : Externals) (s : SuperframeFilter) (hr : Reachable ext s)
    (h0 : s.frame_len = 0) : s = SuperframeFilter.new := by
  induction hr with
  | init => rfl
  | feed hr hf ih =>
    rcases feed_cases ext _ _ _ _ hf with ⟨msg, -, rfl, -⟩ | ⟨s1, hs1, hfl, -⟩
    · exact ih h0
    · exfalso
      rcases checkLen_ok _ _ _ hs1 with ⟨hne, -, rfl⟩ | ⟨-, hacc, rfl⟩
      · exact hne (hfl.symm.trans h0)
      · have : 10 ≤ _ := hacc.1
        simp only at hfl
        omega

theorem feed_of_error (ext : Externals) (s : SuperframeFilter) (data : List Byte) (msg : String)
    (h : Feed.checkLen s data.length = .error msg) :
    Feed ext s data = some (s, [Event.Log msg]) := by
  unfold Feed
  rw [h]

theorem feed_new_accepted (ext : Externals) (data : List Byte) (h : acceptedLen data.length) :
    Feed ext SuperframeFilter.new data =
      some (Feed.addFrame { SuperframeFilter.new with
              frame_len := data.length, sf_len := 5 * data.length,
              sf_raw := List.replicate (5 * data.length) 0,
              sf := List.replicate (5 * data.length) 0 } data, []) := by
  have h1 : ¬ data.length < 10 := by have := h.1; omega
  have h2 : (5 * data.length) % 120 = 0 := h.2
  unfold Feed Feed.checkLen
  simp [SuperframeFilter.new, h1, h2, Feed.addFrame]

theorem checkLen_new_rejected (len : Nat) (h : ¬ acceptedLen len) :
    ∃ msg, Feed.checkLen SuperframeFilter.new len = .error msg := by
  unfold acceptedLen at h
  unfold Feed.checkLen
  rw [if_neg (by simp [SuperframeFilter.new])]
  by_cases h1 : len < 10
  · rw [if_pos h1]; exact ⟨_, rfl⟩
  · have h2 : (5 * len) % 120 ≠ 0 := fun hc => h ⟨by omega, hc⟩
    rw [if_neg h1, if_pos h2]; exact ⟨_, rfl⟩

theorem feed_new_rejected (ext : Externals) (data : List Byte) (h : ¬ acceptedLen data.length) :
    ∃ msg, Feed ext SuperframeFilter.new data = some (SuperframeFilter.new, [Event.Log msg]) := by
  obtain ⟨msg, hmsg⟩ := checkLen_new_rejected data.length h
  exact ⟨msg, feed_of_error ext _ data msg hmsg⟩

theorem checkLen_mismatch (s : SuperframeFilter) (len : Nat) (hL : s.frame_len ≠ 0)
    (hne : len ≠ s.frame_len) : ∃ msg, Feed.checkLen s len = .error msg := by
  unfold Feed.checkLen
  rw [if_pos hL, if_pos (fun h => hne h.symm)]
  exact ⟨_, rfl⟩

theorem observed_append (a b : List Event) : observed (a ++ b) = observed a ++ observed b := by
  simp [observed]

theorem observed_flatten (l : List (List Event)) :
    observed l.flatten = (l.map observed).flatten := by
  induction l with
  | nil => rfl
  | cons a l ih => simp [observed_append, ih]

theorem observed_decodeRS (ext : Externals) (s : SuperframeFilter) :
    observed (Feed.decodeRS ext s).2 = [] := by
  unfold Feed.decodeRS DecodeSuperframe
  simp only
  split_ifs <;> rfl

theorem decodedFrames_append (a b : List Event) :
    decodedFrames (a ++ b) = decodedFrames a ++ decodedFrames b := by
  simp [decodedFrames]

theorem decodedFrames_decodeRS (ext : Externals) (s : SuperframeFilter) :
    decodedFrames (Feed.decodeRS ext s).2 = [] := by
  unfold Feed.decodeRS DecodeSuperframe
  simp only
  split_ifs <;> rfl

theorem feed_of_syncPoint (ext : Externals) (s t : SuperframeFilter) (data : List Byte)
    (rs : List Event) (h : Feed.syncPoint ext s data = some (t, rs)) :
    Feed ext s data = (Feed.synced ext t).map (fun r => (r.1, rs ++ r.2))
    ∧ observed rs = [] ∧ decodedFrames rs = [] := by
  unfold Feed.syncPoint at h
  unfold Feed
  split at h
  · exact absurd h (by simp)
  · rename_i s1 hs1
    simp only at h ⊢
    split_ifs at h ⊢ with hc
    split at h
    · exact absurd h (by simp)
    · rename_i s2 hcs
      simp only [Option.some.injEq, Prod.mk.injEq] at h
      obtain ⟨rfl, rfl⟩ := h
      refine ⟨?_, observed_decodeRS ext _, decodedFrames_decodeRS ext _⟩
      cases Feed.synced ext s2 <;> rfl

theorem feed_no_syncPoint (ext : Externals) (s : SuperframeFilter) (data : List Byte)
    (h : Feed.syncPoint ext s data = none) :
    ∃ t evs, Feed ext s data = some (t, evs) ∧ observed evs = [] ∧ decodedFrames evs = [] := by
  unfold Feed.syncPoint at h
  unfold Feed
  split at h
  · rename_i msg hmsg
    exact ⟨_, _, rfl, rfl, rfl⟩
  · rename_i s1 hs1
    simp only at h ⊢
    split_ifs at h ⊢ with hc
    · exact ⟨_, _, rfl, rfl, rfl⟩
    · split at h
      · rename_i s2 hcs
        refine ⟨_, _, rfl, ?_, ?_⟩
        · rw [observed_append, observed_decodeRS]
          split_ifs <;> rfl
        · rw [decodedFrames_append, decodedFrames_decodeRS]
          split_ifs <;> rfl
      · exact absurd h (by simp)

theorem observed_recover (s : SuperframeFilter) :
    observed (Feed.recover s).2 = []
    ∨ observed (Feed.recover s).2 = [Event.ProcessPAD none 0 true [0, 0]] := by
  unfold Feed.recover
  split_ifs
  · exact Or.inr rfl
  · exact Or.inl rfl

theorem observed_checkFormat (s : SuperframeFilter) :
    observed (Feed.checkFormat s).2 = []
    ∨ ∃ text, observed (Feed.checkFormat s).2 = [Event.FormatChange text] := by
  unfold Feed.checkFormat ProcessFormat
  split_ifs
  · exact Or.inr ⟨_, rfl⟩
  · exact Or.inl rfl

theorem observed_auEvents (ext : Externals) (sf : List Byte) (au : Nat → Int) (i : Nat) :
    observed (Feed.auEvents ext sf au i) = [Event.ProcessPAD none 0 true [0, 0]]
    ∨ ∃ d x n f, observed (Feed.auEvents ext sf au i)
        = [Event.DecodeFrame d, Event.ProcessPAD x n true f] := by
  unfold Feed.auEvents
  simp only
  split_ifs
  · exact Or.inl rfl
  · right
    rw [CheckForPAD_eq]
    split_ifs
    · exact ⟨_, _, _, _, rfl⟩
    · exact ⟨_, _, _, _, rfl⟩

theorem decodedFrames_auEvents (ext : Externals) (sf : List Byte) (au : Nat → Int) (i : Nat) :
    decodedFrames (Feed.auEvents ext sf au i) =
      if auCrcCalced ext sf au i = auCrcStored sf au i then
        [slice sf (au i).toNat (auLen au i - 2)]
      else [] := by
  unfold Feed.auEvents
  simp only
  by_cases h : auCrcStored sf au i = auCrcCalced ext sf au i
  · rw [if_neg (not_not.2 h), if_pos h.symm, decodedFrames_append, CheckForPAD_eq]
    split_ifs <;> rfl
  · rw [if_pos h, if_neg (fun hc => h hc.symm)]
    rfl

theorem decodedFrames_flatten_map (ext : Externals) (sf : List Byte) (au : Nat → Int)
    (l : List Nat) :
    decodedFrames (l.map (Feed.auEvents ext sf au)).flatten =
      l.filterMap (fun i =>
        if auCrcCalced ext sf au i = auCrcStored sf au i then
          some (slice sf (au i).toNat (auLen au i - 2))
        else none) := by
  induction l with
  | nil => rfl
  | cons a l ih =>
    rw [List.map_cons, List.flatten_cons, decodedFrames_append, ih, decodedFrames_auEvents,
      List.filterMap_cons]
    split_ifs <;> rfl

theorem decodedFrames_recover (s : SuperframeFilter) : decodedFrames (Feed.recover s).2 = [] := by
  unfold Feed.recover
  split_ifs <;> rfl

theorem decodedFrames_checkFormat (s : SuperframeFilter) :
    decodedFrames (Feed.checkFormat s).2 = [] := by
  unfold Feed.checkFormat ProcessFormat
  split_ifs <;> rfl

theorem rd_lt (buf : List Byte) (i : Nat) : rd buf i < 256 := (buf.getD i 0).isLt

theorem rd_drop (buf : List Byte) (a k : Nat) : rd (buf.drop a) k = rd buf (a + k) := by
  unfold rd
  simp [List.getD_eq_getElem?_getD, List.getElem?_drop]

theorem be16 (hi lo : Nat) (h1 : hi < 256) (h2 : lo < 256) :
    (hi <<< 8 ||| lo) % 65536 = 256 * hi + lo := by
  have h := Nat.mul_add_lt_is_or (i := 8) (b := lo) (by simpa using h2) hi
  rw [Nat.shiftLeft_eq, Nat.mul_comm hi (2 ^ 8), ← h]
  norm_num
  omega

theorem auCrcStored_eq (sf : List Byte) (au : Nat → Int) (i : Nat) :
    auCrcStored sf au i
      = 256 * rd sf ((au i).toNat + (auLen au i - 2)) + rd sf ((au i).toNat + (auLen au i - 1)) := by
  unfold auCrcStored auData
  rw [be16 _ _ (rd_lt _ _) (rd_lt _ _), rd_drop, rd_drop]

theorem getD_of_isSome {α : Type} (o : Option α) (d : α) (h : o.isSome = true) :
    o = some (o.getD d) := by
  cases o with
  | none => exact absurd h (by simp)
  | some a => rfl

theorem feedC : Feed refExternals filterC4 frameC5 = some (resultC.1, resultC.2) := by
  rw [Prod.mk.eta]
  unfold resultC
  exact getD_of_isSome _ _ (by decide!)

theorem syncPointC :
    Feed.syncPoint refExternals filterC4 frameC5 = some (syncC.1, syncC.2) := by
  rw [Prod.mk.eta]
  unfold syncC
  exact getD_of_isSome _ _ (by decide!)

/-! ## The AU table of an accepted Superframe -/

/-- C1: for a frame length `L` that `Feed` accepts and a working buffer on which
`CheckSync` returns true, the AU table the call leaves behind satisfies
`0 ≤ au_start[0]`, `au_start[i] < au_start[i+1]` for every `i < num_aus`, and
`au_start[num_aus] = (5*L/120)*110`. -/
theorem checkSync_au_table (ext : Externals) (s t : SuperframeFilter) (L : Nat)
    (_hacc : acceptedLen L) (hlen : s.sf_len = 5 * L)
    (h : CheckSync ext s = (true, t)) :
    0 ≤ t.au_start 0
    ∧ (∀ i, i < t.num_aus → t.au_start i < t.au_start (i + 1))
    ∧ t.au_start t.num_aus = ((5 * L / 120 * 110 : Nat) : Int) := by
  rw [CheckSync_true_iff] at h
  obtain ⟨-, -, hord, rfl⟩ := h
  refine ⟨?_, (auDisorder_false_iff _ _).1 hord, ?_⟩
  · show 0 ≤ auTable _ _ _ _ _ 0
    rw [auTable_zero]
    split_ifs <;> decide
  · exact (auTable_sentinel _ _ _ _).trans (by rw [hlen])

/-- Witness of C1: the Superframe `sfA` (frames of 24 bytes) passes `CheckSync`
and its table is 5 < 40 < 110. -/
theorem checkSync_au_table_witness :
    acceptedLen 24 ∧ CheckSync refExternals filterA = (true, CheckSync.parsed filterA)
    ∧ (0 ≤ (CheckSync.parsed filterA).au_start 0
      ∧ (∀ i, i < (CheckSync.parsed filterA).num_aus →
          (CheckSync.parsed filterA).au_start i < (CheckSync.parsed filterA).au_start (i + 1))
      ∧ (CheckSync.parsed filterA).au_start (CheckSync.parsed filterA).num_aus
          = ((5 * 24 / 120 * 110 : Nat) : Int)) :=
  ⟨by decide, filterA_sync,
   checkSync_au_table refExternals filterA (CheckSync.parsed filterA) 24 (by decide) rfl
     filterA_sync⟩

/-! ## The order of the events of one call -/

/-- C2, as the claim states it, fails. On the five frames of `sfA` fed to a new
filter the fifth call issues `FormatChange`, then for each of the two AUs the AAC
decoder call before the `ProcessPAD` of that AU; with one more frame in front the
sync check first fails, and the call that recovers issues a `ProcessPAD` before
its `FormatChange`. Neither call has the claimed order. -/
theorem feed_order_not_claimed :
    (eventsOf refExternals (framesOf sfA)).map (List.map (fun evs => (observed evs).map Event.kind))
      = some [[], [], [], [], [Kind.format, Kind.frame, Kind.pad, Kind.frame, Kind.pad]]
    ∧ (eventsOf refExternals (framesOf sfA)).map (List.map claimedOrder)
      = some [true, true, true, true, false]
    ∧ (eventsOf refExternals (List.replicate 24 0 :: framesOf sfA)).map
        (List.map (fun evs => (observed evs).map Event.kind))
      = some [[], [], [], [], [], [Kind.pad, Kind.format, Kind.frame, Kind.pad, Kind.frame, Kind.pad]]
    ∧ (eventsOf refExternals (List.replicate 24 0 :: framesOf sfA)).map (List.map claimedOrder)
      = some [true, true, true, true, true, false] := by
  refine ⟨by decide!, by decide!, by decide!, by decide!⟩

/-! ## The AudioSpecificConfig -/

/-- C3, as the claim states it, fails: the ASC built for the format byte 0x20 is
not `0x11 0x88 0x56 0xE5 0x28`. -/
theorem asc_0x20_not_claimed :
    (AACDecoder.new (decodeFormat 0x20)).ascBytes ≠ [0x11, 0x88, 0x56, 0xE5, 0x28] := by
  decide

/-- C3, amended: the format byte 0x20 decodes to sbr_flag set, dac_rate clear,
mono, no PS, no surround, and the ASC the constructor builds for it is exactly the
5 bytes `0x14 0x0C 0x56 0xE5 0xA8`. -/
theorem asc_0x20 :
    decodeFormat 0x20 = { dac_rate := false, sbr_flag := true, aac_channel_mode := false,
                          ps_flag := false, mpeg_surround_config := 0 }
    ∧ (AACDecoder.new (decodeFormat 0x20)).asc_len = 5
    ∧ (AACDecoder.new (decodeFormat 0x20)).ascBytes = [0x14, 0x0C, 0x56, 0xE5, 0xA8] := by
  decide

/-- C4: for every format the bytes the constructor writes are the big-endian,
MSB-first packing, zero-padded to a byte boundary, of the bit fields of the spec:
the base fields, the SBR fields when `sbr_flag`, the PS fields when `sbr_flag` and
`ps_flag`. -/
theorem asc_eq_packed_fields (f : SuperframeFormat) :
    (AACDecoder.new f).ascBytes = ascSpec f := by
  obtain ⟨d, s, a, p, m⟩ := f
  rw [AACDecoder.new_surround, ascSpec_surround]
  revert d s a p
  decide

/-- C5: the decoder `ProcessFormat` builds after a successful `CheckSync` is the
one of the format decoded from byte 2 of the working buffer, whatever the rest of
the buffer and of the filter; and for every format byte `b` the ASC has
`asc_len` bytes, 2 when sbr_flag is clear, 5 when sbr_flag is set and ps_flag
clear, 7 when both are set. -/
theorem asc_of_format_byte (ext : Externals) (s t : SuperframeFilter) (b : Byte)
    (h : CheckSync ext s = (true, t)) :
    (ProcessFormat t).1.aac_dec = some (AACDecoder.new (decodeFormat (rd s.sf 2)))
    ∧ (AACDecoder.new (decodeFormat b.val)).ascBytes.length
        = (AACDecoder.new (decodeFormat b.val)).asc_len
    ∧ (AACDecoder.new (decodeFormat b.val)).asc_len
        = (if (decodeFormat b.val).sbr_flag then
            (if (decodeFormat b.val).ps_flag then 7 else 5) else 2) := by
  rw [CheckSync_true_iff] at h
  obtain ⟨-, -, -, rfl⟩ := h
  exact ⟨rfl, (AACDecoder.asc_len_eq _).2, (AACDecoder.asc_len_eq _).1⟩

/-- Witness of C5: the Superframe `sfA` has format byte 0x20; its decoder gets
the 5-byte ASC of that byte. -/
theorem asc_of_format_byte_witness :
    CheckSync refExternals filterA = (true, CheckSync.parsed filterA)
    ∧ (ProcessFormat (CheckSync.parsed filterA)).1.aac_dec
        = some (AACDecoder.new (decodeFormat 0x20))
    ∧ (AACDecoder.new (decodeFormat 0x20)).asc_len = 5 :=
  ⟨filterA_sync,
   (asc_of_format_byte refExternals filterA (CheckSync.parsed filterA) 0x20 filterA_sync).1,
   (asc_of_format_byte refExternals filterA (CheckSync.parsed filterA) 0x20 filterA_sync).2.2⟩

/-! ## Delivery of the AUs -/

/-- Delivery of the AUs in a call of `Feed` that passes the sync check. The
call has a result exactly when every AU has the two bytes of a CRC; the payloads
it then hands to the AAC decoder are, in index order, those of exactly the AUs
`i < num_aus` whose CCITT CRC-16 over the AU without its last two bytes equals
the big-endian word of these two bytes, each payload the AU bytes without the
last two. -/
theorem feed_delivers_valid_AUs (ext : Externals) (s u : SuperframeFilter) (data : List Byte)
    (rs : List Event) (h : Feed.syncPoint ext s data = some (u, rs)) :
    (Feed ext s data ≠ none ↔ ∀ i, i < u.num_aus → 2 ≤ auLen u.au_start i)
    ∧ ∀ t evs, Feed ext s data = some (t, evs) →
        decodedFrames evs = (List.range u.num_aus).filterMap (fun i =>
          if ext.CalcCRC_CRC16_CCITT
                (slice u.sf (u.au_start i).toNat (auLen u.au_start i - 2)) % 65536
              = 256 * rd u.sf ((u.au_start i).toNat + (auLen u.au_start i - 2))
                + rd u.sf ((u.au_start i).toNat + (auLen u.au_start i - 1)) then
            some (slice u.sf (u.au_start i).toNat (auLen u.au_start i - 2))
          else none) := by
  obtain ⟨hf, -, hrs⟩ := feed_of_syncPoint ext s u data rs h
  rw [hf, synced_eq]
  by_cases hall : ∀ i, i < u.num_aus → 2 ≤ auLen u.au_start i
  swap
  · rw [if_neg hall]
    exact ⟨⟨fun hc => absurd rfl hc, fun hc => absurd hc hall⟩,
      fun t evs he => absurd he (by simp)⟩
  rw [if_pos hall]
  refine ⟨⟨fun _ => hall, fun _ => by simp⟩, ?_⟩
  · intro t evs he
    simp only [Option.map_some', Option.some.injEq, Prod.mk.injEq] at he
    obtain ⟨-, rfl⟩ := he
    rw [decodedFrames_append, hrs, decodedFrames_append, decodedFrames_append,
      decodedFrames_recover, decodedFrames_checkFormat, decodedFrames_flatten_map]
    simp only [← auCrcStored_eq]
    rfl

/-- The Superframe `sfC` passes the sync check with six AUs, each of at least two
bytes; AU 2, whose CRC is wrong, is not handed to the decoder, the other five
are. -/
theorem feed_delivers_valid_AUs_witness :
    Feed.syncPoint refExternals filterC4 frameC5 = some (syncC.1, syncC.2)
    ∧ syncC.1.num_aus = 6
    ∧ decodedFrames resultC.2
        = [slice sfC 11 7, slice sfC 20 8, slice sfC 50 18, slice sfC 70 18, slice sfC 90 18] :=
  ⟨syncPointC, by decide!,
   ((feed_delivers_valid_AUs refExternals filterC4 syncC.1 frameC5 syncC.2 syncPointC).2
      resultC.1 resultC.2 feedC).trans (by decide!)⟩

/-! ## The PAD locator -/

/-- C7: for a payload of at least 3 bytes whose byte 0 has top three bits 4, with
`(pad_start, pad_len)` given by the 255-extension rule, `pad_len ≥ 2` and
`len ≥ pad_start + pad_len`: `CheckForPAD` makes exactly one `ProcessPAD` call,
with X-PAD `data[pad_start .. pad_start+pad_len-2)` of length `pad_len - 2`,
the flag true, and F-PAD the two bytes `data[pad_start+pad_len-2 .. pad_start+pad_len)`;
both ranges lie inside the payload. -/
theorem checkForPAD_present (data : List Byte) (pad_start pad_len : Nat)
    (hlen : 3 ≤ data.length) (hdse : rd data 0 >>> 5 = 4)
    (hreg : (pad_start, pad_len) = padRegion data)
    (h2 : 2 ≤ pad_len) (hfit : pad_start + pad_len ≤ data.length) :
    CheckForPAD data =
      [Event.ProcessPAD (some (slice data pad_start (pad_len - 2))) (pad_len - 2) true
        (slice data (pad_start + pad_len - 2) 2)]
    ∧ (slice data pad_start (pad_len - 2)).length = pad_len - 2
    ∧ (slice data (pad_start + pad_len - 2) 2).length = 2
    ∧ pad_start + (pad_len - 2) ≤ data.length
    ∧ (pad_start + pad_len - 2) + 2 ≤ data.length := by
  have hs1 := slice_length data pad_start (pad_len - 2) (by omega)
  have hs2 := slice_length data (pad_start + pad_len - 2) 2 (by omega)
  refine ⟨?_, hs1, hs2, by omega, by omega⟩
  rw [CheckForPAD_eq, ← hreg]
  simp [hlen, hdse, h2, hfit]

/-- Witness of C7: a payload with `data[1] = 4`: X-PAD `[1, 2]`, F-PAD `[3, 4]`. -/
theorem checkForPAD_present_witness :
    (3 ≤ padPayload.length ∧ rd padPayload 0 >>> 5 = 4 ∧ ((2, 4) : Nat × Nat) = padRegion padPayload)
    ∧ CheckForPAD padPayload = [Event.ProcessPAD (some [1, 2]) 2 true [3, 4]] :=
  ⟨by decide,
   (checkForPAD_present padPayload 2 4 (by decide) (by decide) (by decide) (by decide)
     (by decide)).1⟩

/-- C8: for every AU payload `CheckForPAD` makes exactly one `ProcessPAD` call,
and that call is the reset `ProcessPAD(null, 0, true, {0,0})` if and only if
`len < 3`, or `data[0] >> 5 != 4`, or `pad_len < 2`, or `len < pad_start + pad_len`. -/
theorem checkForPAD_reset_iff (data : List Byte) :
    ∃ x n c f, CheckForPAD data = [Event.ProcessPAD x n c f]
      ∧ (Event.ProcessPAD x n c f = Event.ProcessPAD none 0 true [0, 0]
          ↔ (data.length < 3 ∨ rd data 0 >>> 5 ≠ 4 ∨ (padRegion data).2 < 2
              ∨ data.length < (padRegion data).1 + (padRegion data).2)) := by
  rw [CheckForPAD_eq]
  by_cases h : 3 ≤ data.length ∧ rd data 0 >>> 5 = 4 ∧ 2 ≤ (padRegion data).2
          ∧ (padRegion data).1 + (padRegion data).2 ≤ data.length
  · refine ⟨some (slice data (padRegion data).1 ((padRegion data).2 - 2)),
      (padRegion data).2 - 2, true, slice data ((padRegion data).1 + (padRegion data).2 - 2) 2,
      by simp [h], ?_⟩
    constructor
    · intro he; simp at he
    · intro hc; omega
  · refine ⟨none, 0, true, [0, 0], by simp [h], ?_⟩
    constructor
    · intro _
      by_contra hc
      apply h
      omega
    · intro _; rfl

/-! ## The frame-length check -/

/-- C9: on a filter that has not latched a frame length, `Feed` with a frame of
length `len` latches it (then `frame_len = len` and `sf_len = 5*len`) if and only
if `len ≥ 10` and `(5*len) mod 120 = 0`; otherwise the frame is dropped with a log
line and the filter is unchanged. -/
theorem feed_latch (ext : Externals) (s : SuperframeFilter) (data : List Byte)
    (hr : Reachable ext s) (h0 : s.frame_len = 0) :
    ∃ t evs, Feed ext s data = some (t, evs)
      ∧ (t.frame_len ≠ 0 ↔ acceptedLen data.length)
      ∧ (acceptedLen data.length → t.frame_len = data.length ∧ t.sf_len = 5 * data.length)
      ∧ (¬ acceptedLen data.length → t = s ∧ ∃ msg, evs = [Event.Log msg]) := by
  have hs := reachable_unlatched ext s hr h0
  subst hs
  by_cases hacc : acceptedLen data.length
  · refine ⟨_, _, feed_new_accepted ext data hacc, ?_, ?_, ?_⟩
    · have h10 := hacc.1
      have hk := (addFrame_keeps { SuperframeFilter.new with
              frame_len := data.length, sf_len := 5 * data.length,
              sf_raw := List.replicate (5 * data.length) 0,
              sf := List.replicate (5 * data.length) 0 } data).1
      constructor
      · intro _; exact hacc
      · intro _; rw [hk]; simp only; omega
    · intro _
      exact addFrame_keeps _ data
    · intro hn; exact absurd hacc hn
  · obtain ⟨msg, hmsg⟩ := feed_new_rejected ext data hacc
    refine ⟨_, _, hmsg, ?_, ?_, ?_⟩
    · constructor
      · intro h; exact absurd rfl h
      · intro h; exact absurd h hacc
    · intro h; exact absurd h hacc
    · intro _; exact ⟨rfl, msg, rfl⟩

/-- Witness of C9: a frame of 24 bytes is accepted, with `sf_len / 120 = 1`
codeword; a frame of 10 bytes is rejected and leaves the new filter as it was. -/
theorem feed_latch_witness :
    (∃ t evs, Feed refExternals SuperframeFilter.new (List.replicate 24 0) = some (t, evs)
        ∧ t.frame_len = 24 ∧ t.sf_len = 5 * 24 ∧ t.sf_len / 120 = 1)
    ∧ (∃ evs, Feed refExternals SuperframeFilter.new (List.replicate 10 0)
        = some (SuperframeFilter.new, evs)) := by
  constructor
  · obtain ⟨t, evs, hf, -, hacc, -⟩ :=
      feed_latch refExternals SuperframeFilter.new (List.replicate 24 0) Reachable.init rfl
    have h := hacc (by decide)
    simp only [List.length_replicate] at h
    exact ⟨t, evs, hf, h.1, h.2, by rw [h.2]⟩
  · obtain ⟨t, evs, hf, -, -, hrej⟩ :=
      feed_latch refExternals SuperframeFilter.new (List.replicate 10 0) Reachable.init rfl
    have h := hrej (by decide)
    exact ⟨evs, by rw [hf, h.1]⟩

/-- C10: once a frame length is latched, `Feed` with a frame of another length
returns the filter unchanged, and its only event is a log line: no observer
callback. -/
theorem feed_len_mismatch (ext : Externals) (s : SuperframeFilter) (data : List Byte)
    (hL : s.frame_len ≠ 0) (hne : data.length ≠ s.frame_len) :
    ∃ msg, Feed ext s data = some (s, [Event.Log msg]) := by
  obtain ⟨msg, hmsg⟩ := checkLen_mismatch s data.length hL hne
  exact ⟨msg, feed_of_error ext s data msg hmsg⟩

/-- Witness of C10: a first frame of 96 bytes is accepted, a second one of 84
bytes is rejected and leaves the filter unchanged. -/
theorem feed_len_mismatch_witness :
    Feed refExternals SuperframeFilter.new (List.replicate 96 0) = some (filter96, [])
    ∧ filter96.frame_len = 96
    ∧ ∃ msg, Feed refExternals filter96 (List.replicate 84 0) = some (filter96, [Event.Log msg]) :=
  ⟨feed_new_accepted refExternals (List.replicate 96 0) (by decide),
   rfl, feed_len_mismatch refExternals filter96 (List.replicate 84 0) (by decide) (by decide)⟩

theorem slice_zero_length (data : List Byte) : slice data 0 data.length = data := by
  simp [slice]

theorem memcpy_length (dst src : List Byte) (off so n : Nat) (h1 : off + n ≤ dst.length)
    (h2 : so + n ≤ src.length) : (memcpy dst off src so n).length = dst.length := by
  unfold memcpy
  rw [List.length_append, List.length_append, slice_length src so n h2]
  simp
  omega

theorem memcpy_blocks (A X B C : List Byte) (off so n : Nat) (h1 : off = A.length)
    (h2 : so = A.length + X.length) (h3 : n = B.length) (h4 : X.length = B.length) :
    memcpy (A ++ (X ++ (B ++ C))) off (A ++ (X ++ (B ++ C))) so n = A ++ (B ++ (B ++ C)) := by
  subst h1 h2 h3
  unfold memcpy slice
  have e1 : (A ++ (X ++ (B ++ C))).take A.length = A := by simp
  have e2 : (A ++ (X ++ (B ++ C))).drop (A.length + X.length) = B ++ C := by
    rw [← List.append_assoc, ← List.length_append, List.drop_left']
    rfl
  have e3 : (A ++ (X ++ (B ++ C))).drop (A.length + B.length) = B ++ C := by
    rw [← h4, e2]
  rw [e1, e2, e3]
  simp

theorem memcpy_slot (A X C data : List Byte) (off n : Nat) (h1 : off = A.length)
    (h3 : n = data.length) (h4 : X.length = n) :
    memcpy (A ++ (X ++ C)) off data 0 n = A ++ (data ++ C) := by
  subst h1 h3
  unfold memcpy slice
  have e1 : (A ++ (X ++ C)).take A.length = A := by simp
  have e3 : (A ++ (X ++ C)).drop (A.length + data.length) = C := by
    rw [← h4, ← List.append_assoc, ← List.length_append, List.drop_left']
    rfl
  rw [e1, e3]
  simp


theorem shift_blocks (b0 b1 b2 b3 b4 : List Byte) (L : Nat) (h0 : b0.length = L)
    (h1 : b1.length = L) (h2 : b2.length = L) (h3 : b3.length = L) (h4 : b4.length = L) :
    (List.range 4).foldl (fun sf_raw i => memcpy sf_raw (i * L) sf_raw ((i + 1) * L) L)
        (b0 ++ (b1 ++ (b2 ++ (b3 ++ b4))))
      = b1 ++ (b2 ++ (b3 ++ (b4 ++ b4))) := by
  have r : List.range 4 = [0, 1, 2, 3] := by decide
  rw [r]
  simp only [List.foldl_cons, List.foldl_nil]
  have s0 := memcpy_blocks [] b0 b1 (b2 ++ (b3 ++ b4)) (0 * L) ((0 + 1) * L) L
    (by simp) (by simp [h0]) h1.symm (by omega)
  simp only [List.nil_append] at s0
  rw [s0]
  have s1 := memcpy_blocks b1 b1 b2 (b3 ++ b4) (1 * L) ((1 + 1) * L) L
    (by simp [h1]) (by simp [h1]; omega) h2.symm (by omega)
  rw [s1]
  have s2 := memcpy_blocks (b1 ++ b2) b2 b3 b4 (2 * L) ((2 + 1) * L) L
    (by simp [h1, h2]; omega) (by simp [h1, h2]; omega) h3.symm (by omega)
  simp only [List.append_assoc] at s2
  rw [s2]
  have s3 := memcpy_blocks (b1 ++ (b2 ++ b3)) b3 b4 [] (3 * L) ((3 + 1) * L) L
    (by simp [h1, h2, h3]; omega) (by simp [h1, h2, h3]; omega) h4.symm (by omega)
  simp only [List.append_assoc, List.append_nil] at s3
  rw [s3]

theorem split_five (l : List Byte) (L : Nat) (h : l.length = 5 * L) :
    ∃ b0 b1 b2 b3 b4 : List Byte, l = b0 ++ (b1 ++ (b2 ++ (b3 ++ b4))) ∧ b0.length = L
      ∧ b1.length = L ∧ b2.length = L ∧ b3.length = L ∧ b4.length = L := by
  refine ⟨l.take L, (l.drop L).take L, (l.drop (2 * L)).take L, (l.drop (3 * L)).take L,
    l.drop (4 * L), ?_, ?_, ?_, ?_, ?_, ?_⟩
  · have e1 : l.drop (2 * L) = (l.drop L).drop L := by rw [List.drop_drop]; congr 1; omega
    have e2 : l.drop (3 * L) = (l.drop (2 * L)).drop L := by rw [List.drop_drop]; congr 1; omega
    have e3 : l.drop (4 * L) = (l.drop (3 * L)).drop L := by rw [List.drop_drop]; congr 1; omega
    rw [e3, List.take_append_drop, e2, List.take_append_drop, e1, List.take_append_drop,
      List.take_append_drop]
  all_goals simp [List.length_take, List.length_drop]; omega

theorem addFrame_full (s : SuperframeFilter) (data : List Byte) (hc : s.frame_count = 5)
    (hraw : s.sf_raw.length = 5 * s.frame_len) (hd : data.length = s.frame_len) :
    (Feed.addFrame s data).sf_raw = s.sf_raw.drop s.frame_len ++ data
    ∧ (Feed.addFrame s data).frame_count = 5 := by
  obtain ⟨b0, b1, b2, b3, b4, hb, h0, h1, h2, h3, h4⟩ := split_five s.sf_raw s.frame_len hraw
  unfold Feed.addFrame
  simp only [hc, if_true]
  refine ⟨?_, trivial⟩
  rw [hb, shift_blocks b0 b1 b2 b3 b4 s.frame_len h0 h1 h2 h3 h4]
  have e := memcpy_slot (b1 ++ (b2 ++ (b3 ++ b4))) b4 [] data ((5 - 1) * s.frame_len) s.frame_len
    (by simp [h1, h2, h3, h4]; omega) hd.symm h4
  simp only [List.append_assoc, List.append_nil] at e
  rw [e, ← h0, List.drop_left]
  simp

theorem addFrame_few (s : SuperframeFilter) (data : List Byte) (hc : s.frame_count < 5)
    (hd : data.length = s.frame_len) :
    (Feed.addFrame s data).sf_raw
        = s.sf_raw.take (s.frame_count * s.frame_len) ++ (data
            ++ s.sf_raw.drop ((s.frame_count + 1) * s.frame_len))
    ∧ (Feed.addFrame s data).frame_count = s.frame_count + 1 := by
  unfold Feed.addFrame
  have hne : s.frame_count ≠ 5 := by omega
  simp only [hne, if_false]
  refine ⟨?_, trivial⟩
  simp only [Nat.add_sub_cancel]
  unfold memcpy
  rw [← hd, slice_zero_length, List.append_assoc]
  congr 2
  rw [hd]
  congr 1
  rw [Nat.add_mul]; omega

theorem checkSync_keeps_more (ext : Externals) (s : SuperframeFilter) :
    (CheckSync ext s).2.frame_count = s.frame_count
    ∧ (CheckSync ext s).2.sync_frames = s.sync_frames
    ∧ (CheckSync ext s).2.sf = s.sf ∧ (CheckSync ext s).2.sf_raw = s.sf_raw
    ∧ (CheckSync ext s).2.sf_format_set = s.sf_format_set
    ∧ (CheckSync ext s).2.sf_format_raw = s.sf_format_raw
    ∧ (CheckSync ext s).2.aac_dec = s.aac_dec := by
  unfold CheckSync
  simp only
  split_ifs <;> exact ⟨rfl, rfl, rfl, rfl, rfl, rfl, rfl⟩

theorem recover_keeps_more (s : SuperframeFilter) :
    (Feed.recover s).1.frame_count = s.frame_count ∧ (Feed.recover s).1.sf_raw = s.sf_raw
    ∧ (Feed.recover s).1.sf_format_set = s.sf_format_set
    ∧ (Feed.recover s).1.sf_format_raw = s.sf_format_raw
    ∧ (Feed.recover s).1.sync_frames = 0 := by
  unfold Feed.recover
  split_ifs with h
  · exact ⟨rfl, rfl, rfl, rfl, rfl⟩
  · exact ⟨rfl, rfl, rfl, rfl, by simpa using h⟩

theorem checkFormat_keeps_more (s : SuperframeFilter) :
    (Feed.checkFormat s).1.frame_count = s.frame_count
    ∧ (Feed.checkFormat s).1.sf_raw = s.sf_raw
    ∧ (Feed.checkFormat s).1.sync_frames = s.sync_frames
    ∧ (Feed.checkFormat s).1.sf_format_set = true
    ∧ (Feed.checkFormat s).1.sf_format_raw = s.sf.getD 2 0 := by
  unfold Feed.checkFormat ProcessFormat
  split_ifs with h
  · exact ⟨rfl, rfl, rfl, rfl, rfl⟩
  · simp only [Bool.or_eq_true, Bool.not_eq_true', decide_eq_true_eq, not_or,
      Bool.not_eq_false, ne_eq, not_not] at h
    exact ⟨rfl, rfl, rfl, h.1, h.2⟩

theorem syncPoint_eq (ext : Externals) (s : SuperframeFilter) (data : List Byte) :
    Feed.syncPoint ext s data =
      match Feed.syncInput ext s data with
      | none => none
      | some (v, rs) => if (CheckSync ext v).1 = true then some ((CheckSync ext v).2, rs) else none := by
  unfold Feed.syncPoint Feed.syncInput
  cases hcl : Feed.checkLen s data.length with
  | error msg => rfl
  | ok s1 =>
    dsimp only
    by_cases hc : (Feed.addFrame s1 data).frame_count < 5
    · simp only [hc, if_true]
    · simp only [hc, if_false]
      cases hcs : CheckSync ext (Feed.decodeRS ext (Feed.addFrame s1 data)).1 with
      | mk b u => cases b <;> simp

/-- The ways a call of `Feed` ends after the length check. -/
theorem feed_eq (ext : Externals) (s : SuperframeFilter) (data : List Byte) :
    Feed ext s data =
      match Feed.checkLen s data.length with
      | .error msg => some (s, [Event.Log msg])
      | .ok s1 =>
        match Feed.syncInput ext s data with
        | none => some (Feed.addFrame s1 data, [])
        | some (v, rs) =>
          if (CheckSync ext v).1 = true then
            (Feed.synced ext (CheckSync ext v).2).map (fun r => (r.1, rs ++ r.2))
          else
            some ({ (CheckSync ext v).2 with sync_frames := (CheckSync ext v).2.sync_frames + 1 },
              rs ++ (if (CheckSync ext v).2.sync_frames = 0 then
                [Event.Log "SuperframeFilter: Superframe sync started...\n"] else [])) := by
  unfold Feed Feed.syncInput
  cases hcl : Feed.checkLen s data.length with
  | error msg => rfl
  | ok s1 =>
    dsimp only
    by_cases hc : (Feed.addFrame s1 data).frame_count < 5
    · simp only [hc, if_true]
    · simp only [hc, if_false]
      cases hcs : CheckSync ext (Feed.decodeRS ext (Feed.addFrame s1 data)).1 with
      | mk b u =>
        cases b
        · simp
        · simp only [if_true]
          cases Feed.synced ext u <;> rfl


theorem foldl_length_inv {α β : Type} (f : List α → β → List α)
    (hf : ∀ l b, (f l b).length = l.length) (bs : List β) (l : List α) :
    (bs.foldl f l).length = l.length := by
  induction bs generalizing l with
  | nil => rfl
  | cons b bs ih => rw [List.foldl_cons, ih, hf]

theorem packet_length (dec : List Byte → RSResult) (K : Nat) (acc : List Byte × Int × Bool)
    (i : Nat) : (DecodeSuperframe.packet dec K acc i).1.length = acc.1.length := by
  unfold DecodeSuperframe.packet
  simp only
  apply foldl_length_inv
  intro l j
  split_ifs
  · rfl
  · exact List.length_set ..

theorem DecodeSuperframe_length (dec : List Byte → RSResult) (sf : List Byte) (sf_len : Nat) :
    (DecodeSuperframe dec sf sf_len).1.length = sf.length := by
  unfold DecodeSuperframe
  simp only
  generalize (0 : Int) = c
  generalize false = u
  generalize List.range (sf_len / 120) = is
  induction is generalizing sf c u with
  | nil => rfl
  | cons i is ih =>
    rw [List.foldl_cons]
    have h := ih (DecodeSuperframe.packet dec (sf_len / 120) (sf, c, u) i).1
      (DecodeSuperframe.packet dec (sf_len / 120) (sf, c, u) i).2.1
      (DecodeSuperframe.packet dec (sf_len / 120) (sf, c, u) i).2.2
    rw [h]
    exact packet_length dec _ (sf, c, u) i

theorem decodeRS_sf (ext : Externals) (s : SuperframeFilter) (h1 : s.sf_raw.length = s.sf_len)
    (h2 : s.sf.length = s.sf_len) :
    (Feed.decodeRS ext s).1.sf = (DecodeSuperframe ext.decode_rs_char s.sf_raw s.sf_len).1
    ∧ (Feed.decodeRS ext s).1.sf.length = s.sf_len := by
  have hm : memcpy s.sf 0 s.sf_raw 0 s.sf_len = s.sf_raw := by
    unfold memcpy
    rw [← h1, slice_zero_length, h1, ← h2]
    simp
  unfold Feed.decodeRS
  simp only [hm]
  exact ⟨trivial, (DecodeSuperframe_length _ _ _).trans h1⟩

theorem decodeRS_keeps_more (ext : Externals) (s : SuperframeFilter) :
    (Feed.decodeRS ext s).1.frame_count = s.frame_count
    ∧ (Feed.decodeRS ext s).1.sf_raw = s.sf_raw
    ∧ (Feed.decodeRS ext s).1.sync_frames = s.sync_frames
    ∧ (Feed.decodeRS ext s).1.sf_format_set = s.sf_format_set
    ∧ (Feed.decodeRS ext s).1.sf_format_raw = s.sf_format_raw := ⟨rfl, rfl, rfl, rfl, rfl⟩

theorem addFrame_keeps_more (s : SuperframeFilter) (data : List Byte) :
    (Feed.addFrame s data).sf = s.sf
    ∧ (Feed.addFrame s data).sync_frames = s.sync_frames
    ∧ (Feed.addFrame s data).sf_format_set = s.sf_format_set
    ∧ (Feed.addFrame s data).sf_format_raw = s.sf_format_raw := by
  unfold Feed.addFrame
  simp only
  split_ifs <;> exact ⟨rfl, rfl, rfl, rfl⟩

theorem checkLen_WF (s s1 : SuperframeFilter) (len : Nat) (hw : s.WF)
    (h : Feed.checkLen s len = .ok s1) :
    s1.WF ∧ s1.frame_len = len ∧ s1.frame_count = s.frame_count ∧ acceptedLen len
    ∧ s1.sync_frames = s.sync_frames ∧ s1.sf_format_set = s.sf_format_set
    ∧ s1.sf_format_raw = s.sf_format_raw
    ∧ (s.frame_len ≠ 0 → s1 = s) := by
  rcases checkLen_ok s s1 len h with ⟨hne, hl, rfl⟩ | ⟨h0, hacc, rfl⟩
  · exact ⟨hw, hl, rfl, hl ▸ hw.2.2.2.2.2 hne, rfl, rfl, rfl, fun _ => rfl⟩
  · refine ⟨⟨rfl, by simp, by simp, hw.2.2.2.1, fun _ => hw.2.2.2.2.1 h0, fun _ => hacc⟩,
      rfl, rfl, hacc, rfl, rfl, rfl, fun hc => absurd h0 hc⟩

theorem addFrame_WF (s : SuperframeFilter) (data : List Byte) (hw : s.WF)
    (hd : data.length = s.frame_len) (hL : s.frame_len ≠ 0) : (Feed.addFrame s data).WF := by
  obtain ⟨h1, h2, h3, h4, h5, h6⟩ := hw
  have hk := addFrame_keeps s data
  have hk2 := addFrame_keeps_more s data
  have hraw : s.sf_raw.length = 5 * s.frame_len := h2.trans h1
  by_cases hc : s.frame_count = 5
  · obtain ⟨e1, e2⟩ := addFrame_full s data hc hraw hd
    refine ⟨hk.2.trans (h1.trans (by rw [hk.1])), ?_, by rw [hk2.1, hk.2]; exact h3, by omega,
      fun h => absurd (hk.1.symm.trans h) hL, fun _ => by rw [hk.1]; exact h6 hL⟩
    rw [e1, hk.2, List.length_append, List.length_drop, hd]
    omega
  · have hlt : s.frame_count < 5 := by omega
    obtain ⟨e1, e2⟩ := addFrame_few s data hlt hd
    refine ⟨hk.2.trans (h1.trans (by rw [hk.1])), ?_, by rw [hk2.1, hk.2]; exact h3, by omega,
      fun h => absurd (hk.1.symm.trans h) hL, fun _ => by rw [hk.1]; exact h6 hL⟩
    rw [e1, hk.2, List.length_append, List.length_append, List.length_take, List.length_drop, hd]
    have hm : (s.frame_count + 1) * s.frame_len ≤ 5 * s.frame_len :=
      Nat.mul_le_mul_right _ (by omega)
    rw [Nat.add_mul, Nat.one_mul] at hm ⊢
    omega


theorem WF_congr (s t : SuperframeFilter) (hw : s.WF) (h0 : s.frame_len ≠ 0)
    (h1 : t.frame_len = s.frame_len) (h2 : t.sf_len = s.sf_len)
    (h3 : t.sf_raw.length = s.sf_raw.length) (h4 : t.sf.length = s.sf.length)
    (h5 : t.frame_count ≤ 5) : t.WF := by
  obtain ⟨w1, w2, w3, -, -, w6⟩ := hw
  exact ⟨by rw [h2, h1]; exact w1, by rw [h3, h2]; exact w2, by rw [h4, h2]; exact w3, h5,
    fun h => absurd (h1.symm.trans h) h0, fun _ => by rw [h1]; exact w6 h0⟩

theorem syncInput_some (ext : Externals) (s v : SuperframeFilter) (data : List Byte)
    (rs : List Event) (h : Feed.syncInput ext s data = some (v, rs)) :
    ∃ s1, Feed.checkLen s data.length = .ok s1 ∧ ¬ (Feed.addFrame s1 data).frame_count < 5
      ∧ v = (Feed.decodeRS ext (Feed.addFrame s1 data)).1
      ∧ rs = (Feed.decodeRS ext (Feed.addFrame s1 data)).2 := by
  unfold Feed.syncInput at h
  cases hcl : Feed.checkLen s data.length with
  | error msg => rw [hcl] at h; exact absurd h (by simp)
  | ok s1 =>
    rw [hcl] at h
    dsimp only at h
    by_cases hc : (Feed.addFrame s1 data).frame_count < 5
    · rw [if_pos hc] at h; exact absurd h (by simp)
    · rw [if_neg hc] at h
      simp only [Option.some.injEq] at h
      exact ⟨s1, rfl, hc, by rw [h], by rw [h]⟩

theorem syncInput_none (ext : Externals) (s : SuperframeFilter) (data : List Byte)
    (h : Feed.syncInput ext s data = none) :
    (∃ msg, Feed.checkLen s data.length = .error msg)
    ∨ ∃ s1, Feed.checkLen s data.length = .ok s1 ∧ (Feed.addFrame s1 data).frame_count < 5 := by
  unfold Feed.syncInput at h
  cases hcl : Feed.checkLen s data.length with
  | error msg => exact Or.inl ⟨msg, rfl⟩
  | ok s1 =>
    rw [hcl] at h
    dsimp only at h
    by_cases hc : (Feed.addFrame s1 data).frame_count < 5
    · exact Or.inr ⟨s1, rfl, hc⟩
    · rw [if_neg hc] at h; exact absurd h (by simp)

/-- What holds of the filter handed to `CheckSync`, for a well-formed filter. -/
theorem syncInput_WF (ext : Externals) (s v : SuperframeFilter) (data : List Byte)
    (rs : List Event) (hw : s.WF) (h : Feed.syncInput ext s data = some (v, rs)) :
    v.WF ∧ v.frame_count = 5 ∧ v.frame_len = data.length ∧ acceptedLen data.length
    ∧ v.sf = (DecodeSuperframe ext.decode_rs_char v.sf_raw v.sf_len).1
    ∧ v.sync_frames = s.sync_frames ∧ v.sf_format_set = s.sf_format_set
    ∧ v.sf_format_raw = s.sf_format_raw := by
  obtain ⟨s1, hcl, hc, rfl, -⟩ := syncInput_some ext s v data rs h
  obtain ⟨hw1, hl, -, hacc, hsy, hfs, hfr, -⟩ := checkLen_WF s s1 data.length hw hcl
  have hL : s1.frame_len ≠ 0 := by rw [hl]; have := hacc.1; omega
  have hw2 := addFrame_WF s1 data hw1 hl.symm hL
  have hk := addFrame_keeps s1 data
  have hk2 := addFrame_keeps_more s1 data
  have hd := decodeRS_sf ext (Feed.addFrame s1 data) hw2.2.1 hw2.2.2.1
  have hL2 : (Feed.addFrame s1 data).frame_len ≠ 0 := by rw [hk.1]; exact hL
  refine ⟨WF_congr _ _ hw2 hL2 rfl rfl rfl (hd.2.trans hw2.2.2.1.symm) hw2.2.2.2.1, ?_,
    hk.1.trans hl, hacc, hd.1, hk2.2.1.trans hsy, hk2.2.2.1.trans hfs, hk2.2.2.2.trans hfr⟩
  have := hw2.2.2.2.1
  show (Feed.addFrame s1 data).frame_count = 5
  omega

theorem feed_WF (ext : Externals) (s t : SuperframeFilter) (data : List Byte)
    (evs : List Event) (hw : s.WF) (h : Feed ext s data = some (t, evs)) : t.WF := by
  rw [feed_eq] at h
  cases hcl : Feed.checkLen s data.length with
  | error msg =>
    rw [hcl] at h
    simp only [Option.some.injEq, Prod.mk.injEq] at h
    rw [← h.1]; exact hw
  | ok s1 =>
    rw [hcl] at h
    dsimp only at h
    obtain ⟨hw1, hl, -, hacc, -⟩ := checkLen_WF s s1 data.length hw hcl
    have hL : s1.frame_len ≠ 0 := by rw [hl]; have := hacc.1; omega
    cases hsi : Feed.syncInput ext s data with
    | none =>
      rw [hsi] at h
      simp only [Option.some.injEq, Prod.mk.injEq] at h
      rw [← h.1]
      exact addFrame_WF s1 data hw1 hl.symm hL
    | some r =>
      obtain ⟨v, rs⟩ := r
      rw [hsi] at h
      dsimp only at h
      obtain ⟨hwv, hcv, hlv, -⟩ := syncInput_WF ext s v data rs hw hsi
      have hLv : v.frame_len ≠ 0 := by rw [hlv]; have := hacc.1; omega
      have hk := checkSync_keeps ext v
      have hk2 := checkSync_keeps_more ext v
      have hwu : (CheckSync ext v).2.WF :=
        WF_congr v _ hwv hLv hk.1 hk.2 (by rw [hk2.2.2.2.1]) (by rw [hk2.2.2.1])
          (by rw [hk2.1]; omega)
      have hLu : (CheckSync ext v).2.frame_len ≠ 0 := by rw [hk.1]; exact hLv
      by_cases hb : (CheckSync ext v).1 = true
      · rw [if_pos hb, synced_eq] at h
        by_cases hall : ∀ i, i < (CheckSync ext v).2.num_aus →
            2 ≤ auLen (CheckSync ext v).2.au_start i
        swap
        · rw [if_neg hall] at h; exact absurd h (by simp)
        rw [if_pos hall] at h
        simp only [Option.map_some', Option.some.injEq, Prod.mk.injEq] at h
        rw [← h.1]
        have c1 := checkFormat_keeps (Feed.recover (CheckSync ext v).2).1
        have c2 := checkFormat_keeps_more (Feed.recover (CheckSync ext v).2).1
        have r1 := recover_keeps (CheckSync ext v).2
        have r2 := recover_keeps_more (CheckSync ext v).2
        exact WF_congr _ _ hwu hLu (c1.1.trans r1.1) (c1.2.1.trans r1.2.1)
          (by show (Feed.checkFormat _).1.sf_raw.length = _; rw [c2.2.1, r2.2.1])
          (by show (Feed.checkFormat _).1.sf.length = _; rw [c1.2.2.1, r1.2.2.1])
          (Nat.zero_le 5)
      · rw [if_neg hb] at h
        simp only [Option.some.injEq, Prod.mk.injEq] at h
        rw [← h.1]
        exact WF_congr _ _ hwu hLu rfl rfl rfl rfl hwu.2.2.2.1

theorem new_WF : SuperframeFilter.new.WF :=
  ⟨rfl, rfl, rfl, Nat.zero_le 5, fun _ => rfl, fun h => absurd rfl h⟩

theorem reachable_WF (ext : Externals) (s : SuperframeFilter) (hr : Reachable ext s) : s.WF := by
  induction hr with
  | init => exact new_WF
  | feed _ hf ih => exact feed_WF ext _ _ _ _ ih hf

theorem flatten_length_uniform (l : List (List Byte)) (L : Nat) (h : ∀ f ∈ l, f.length = L) :
    l.flatten.length = l.length * L := by
  induction l with
  | nil => simp
  | cons a l ih =>
    rw [List.flatten_cons, List.length_append, ih (fun f hf => h f (List.mem_cons_of_mem a hf)),
      h a (List.mem_cons_self a l), List.length_cons, Nat.add_mul, Nat.one_mul, Nat.add_comm]

theorem addFrame_Holds (s : SuperframeFilter) (data : List Byte) (racc : List (List Byte))
    (hh : s.Holds racc) (hd : data.length = s.frame_len) (hL : s.frame_len ≠ 0) :
    (Feed.addFrame s data).Holds (data :: racc) := by
  obtain ⟨hw, hc, hlen, htake, -⟩ := hh
  have hw2 := addFrame_WF s data hw hd hL
  have hk := addFrame_keeps s data
  have hraw : s.sf_raw.length = 5 * s.frame_len := hw.2.1.trans hw.1
  have hmem : ∀ f ∈ data :: racc, f.length = (Feed.addFrame s data).frame_len := by
    intro f hf
    rw [hk.1]
    rcases List.mem_cons.1 hf with rfl | hf
    · exact hd
    · exact hlen f hf
  have hz : (Feed.addFrame s data).frame_len = 0 → data :: racc = [] :=
    fun h => absurd (hk.1.symm.trans h) hL
  by_cases h5 : s.frame_count = 5
  · obtain ⟨e1, e2⟩ := addFrame_full s data h5 hraw hd
    refine ⟨hw2, by rw [e2, List.length_cons]; omega, hmem, ?_, hz⟩
    rw [e2, hk.1, e1]
    rw [h5] at htake hc
    have hfull : s.sf_raw = ((racc.take 5).reverse).flatten := by
      rw [← htake, List.take_of_length_le (by omega)]
    obtain ⟨r0, r1, r2, r3, r4, rest, rfl⟩ : ∃ r0 r1 r2 r3 r4 rest,
        racc = r0 :: r1 :: r2 :: r3 :: r4 :: rest := by
      match racc, hc with
      | r0 :: r1 :: r2 :: r3 :: r4 :: rest, _ => exact ⟨r0, r1, r2, r3, r4, rest, rfl⟩
    have l4 : r4.length = s.frame_len := hlen r4 (by simp)
    have hlen2 : (s.sf_raw.drop s.frame_len ++ data).length ≤ 5 * s.frame_len := by
      rw [List.length_append, List.length_drop, hd]; omega
    rw [List.take_of_length_le hlen2, hfull]
    simp only [List.take_succ_cons, List.take_zero, List.reverse_cons, List.reverse_nil,
      List.nil_append, List.flatten_append, List.flatten_cons, List.flatten_nil, List.append_nil,
      List.append_assoc]
    rw [← l4, List.drop_left]
    simp only [List.append_assoc]
  · have hlt : s.frame_count < 5 := by have := hw.2.2.2.1; omega
    obtain ⟨e1, e2⟩ := addFrame_few s data hlt hd
    refine ⟨hw2, by rw [e2, List.length_cons]; omega, hmem, ?_, hz⟩
    rw [e2, hk.1, e1, List.take_succ_cons, List.reverse_cons, List.flatten_append, ← htake]
    have hm : s.frame_count * s.frame_len ≤ 5 * s.frame_len := Nat.mul_le_mul_right _ (by omega)
    have hl1 : (s.sf_raw.take (s.frame_count * s.frame_len)).length
        = s.frame_count * s.frame_len := by
      rw [List.length_take]; omega
    rw [← List.append_assoc, List.take_append_of_le_length (by
      rw [List.length_append, hl1, hd, Nat.add_mul, Nat.one_mul])]
    rw [List.take_of_length_le (by
      rw [List.length_append, hl1, hd, Nat.add_mul, Nat.one_mul])]
    simp


theorem Holds_congr (s t : SuperframeFilter) (racc : List (List Byte)) (hh : s.Holds racc)
    (hw : t.WF) (h1 : t.frame_len = s.frame_len) (h2 : t.sf_raw = s.sf_raw)
    (h3 : t.frame_count = s.frame_count ∨ t.frame_count = 0) : t.Holds racc := by
  obtain ⟨-, hc, hlen, htake, hz⟩ := hh
  rcases h3 with h3 | h3
  · exact ⟨hw, by rw [h3]; exact hc, by rw [h1]; exact hlen, by rw [h3, h1, h2]; exact htake,
      by rw [h1]; exact hz⟩
  · exact ⟨hw, by rw [h3]; exact Nat.zero_le _, by rw [h1]; exact hlen, by rw [h3]; simp,
      by rw [h1]; exact hz⟩

theorem Holds_latch (s s1 : SuperframeFilter) (len : Nat) (racc : List (List Byte))
    (hh : s.Holds racc) (h : Feed.checkLen s len = .ok s1) : s1.Holds racc := by
  obtain ⟨hw1, -, hcnt, -, -, -, -, hsame⟩ := checkLen_WF s s1 len hh.1 h
  by_cases h0 : s.frame_len = 0
  · have hr := hh.2.2.2.2 h0
    subst hr
    exact ⟨hw1, by rw [hcnt, hh.1.2.2.2.2.1 h0]; exact Nat.le_refl _,
      fun f hf => absurd hf (List.not_mem_nil f),
      by rw [hcnt, hh.1.2.2.2.2.1 h0]; simp, fun _ => rfl⟩
  · rw [hsame h0]; exact hh

/-- One call of `Feed` keeps the history invariant, the frame added to the
history when it passes the length check. -/
theorem feed_Holds (ext : Externals) (s t : SuperframeFilter) (data : List Byte)
    (evs : List Event) (racc : List (List Byte)) (hh : s.Holds racc)
    (h : Feed ext s data = some (t, evs)) :
    t.Holds ((match Feed.checkLen s data.length with
                | .ok _ => [data]
                | .error _ => []) ++ racc) := by
  have hwt := feed_WF ext s t data evs hh.1 h
  rw [feed_eq] at h
  cases hcl : Feed.checkLen s data.length with
  | error msg =>
    rw [hcl] at h
    simp only [Option.some.injEq, Prod.mk.injEq] at h
    rw [← h.1]; exact hh
  | ok s1 =>
    rw [hcl] at h
    dsimp only at h ⊢
    obtain ⟨hw1, hl, -, hacc, -⟩ := checkLen_WF s s1 data.length hh.1 hcl
    have hL : s1.frame_len ≠ 0 := by rw [hl]; have := hacc.1; omega
    have hh2 := addFrame_Holds s1 data racc (Holds_latch s s1 _ racc hh hcl) hl.symm hL
    cases hsi : Feed.syncInput ext s data with
    | none =>
      rw [hsi] at h
      simp only [Option.some.injEq, Prod.mk.injEq] at h
      rw [← h.1]; exact hh2
    | some r =>
      obtain ⟨v, rs⟩ := r
      rw [hsi] at h
      dsimp only at h
      obtain ⟨s1', hcl', -, rfl, -⟩ := syncInput_some ext s v data rs hsi
      rw [hcl] at hcl'
      simp only [Except.ok.injEq] at hcl'
      subst hcl'
      have hk := checkSync_keeps ext (Feed.decodeRS ext (Feed.addFrame s1 data)).1
      have hk2 := checkSync_keeps_more ext (Feed.decodeRS ext (Feed.addFrame s1 data)).1
      by_cases hb : (CheckSync ext (Feed.decodeRS ext (Feed.addFrame s1 data)).1).1 = true
      · rw [if_pos hb, synced_eq] at h
        by_cases hall : ∀ i, i < (CheckSync ext (Feed.decodeRS ext (Feed.addFrame s1 data)).1).2.num_aus →
            2 ≤ auLen (CheckSync ext (Feed.decodeRS ext (Feed.addFrame s1 data)).1).2.au_start i
        swap
        · rw [if_neg hall] at h; exact absurd h (by simp)
        rw [if_pos hall] at h
        simp only [Option.map_some', Option.some.injEq, Prod.mk.injEq] at h
        have c1 := checkFormat_keeps
          (Feed.recover (CheckSync ext (Feed.decodeRS ext (Feed.addFrame s1 data)).1).2).1
        have c2 := checkFormat_keeps_more
          (Feed.recover (CheckSync ext (Feed.decodeRS ext (Feed.addFrame s1 data)).1).2).1
        have r1 := recover_keeps (CheckSync ext (Feed.decodeRS ext (Feed.addFrame s1 data)).1).2
        have r2 := recover_keeps_more
          (CheckSync ext (Feed.decodeRS ext (Feed.addFrame s1 data)).1).2
        refine Holds_congr _ t _ hh2 hwt ?_ ?_ (Or.inr ?_)
        · rw [← h.1]; exact c1.1.trans (r1.1.trans hk.1)
        · rw [← h.1]
          show (Feed.checkFormat _).1.sf_raw = _
          rw [c2.2.1, r2.2.1, hk2.2.2.2.1]; rfl
        · rw [← h.1]
      · rw [if_neg hb] at h
        simp only [Option.some.injEq, Prod.mk.injEq] at h
        refine Holds_congr _ t _ hh2 hwt ?_ ?_ (Or.inl ?_)
        · rw [← h.1]; exact hk.1
        · rw [← h.1]; exact hk2.2.2.2.1
        · rw [← h.1]; exact hk2.1

theorem feedAll_Holds (ext : Externals) (fs : List (List Byte)) (s t : SuperframeFilter)
    (evss : List (List Event)) (racc : List (List Byte)) (hh : s.Holds racc)
    (h : feedAll ext s fs = some (t, evss)) :
    t.Holds ((acceptedFrames ext s fs).reverse ++ racc) := by
  induction fs generalizing s t evss racc with
  | nil =>
    unfold feedAll at h
    simp only [Option.some.injEq, Prod.mk.injEq] at h
    rw [← h.1]
    simpa [acceptedFrames] using hh
  | cons f fs ih =>
    unfold feedAll at h
    unfold acceptedFrames
    cases hf : Feed ext s f with
    | none => rw [hf] at h; exact absurd h (by simp)
    | some r =>
      obtain ⟨s1, evs⟩ := r
      rw [hf] at h
      dsimp only at h ⊢
      cases hr : feedAll ext s1 fs with
      | none => rw [hr] at h; exact absurd h (by simp)
      | some r2 =>
        obtain ⟨s2, evss2⟩ := r2
        rw [hr] at h
        simp only [Option.some.injEq, Prod.mk.injEq] at h
        have h1 := feed_Holds ext s s1 f evs racc hh hf
        have h2 := ih s1 s2 evss2 _ h1 hr
        rw [← h.1]
        rw [List.reverse_append, List.append_assoc]
        cases hcl : Feed.checkLen s f.length with
        | error msg => rw [hcl] at h2; simpa using h2
        | ok s' => rw [hcl] at h2; simpa using h2

theorem new_Holds : SuperframeFilter.new.Holds [] :=
  ⟨new_WF, Nat.le_refl _, fun f hf => absurd hf (List.not_mem_nil f), rfl, fun _ => rfl⟩

theorem reverse_take_reverse {α : Type} (l : List α) (n : Nat) :
    (l.reverse.take n).reverse = lastN n l := by
  unfold lastN
  rw [List.take_reverse, List.reverse_reverse]

theorem checkLen_same (s : SuperframeFilter) (len : Nat) (hL : s.frame_len ≠ 0)
    (h : len = s.frame_len) : Feed.checkLen s len = .ok s := by
  unfold Feed.checkLen
  rw [if_pos hL, if_neg (by rw [h]; exact fun hc => hc rfl)]

theorem syncInput_of_count (ext : Externals) (s : SuperframeFilter) (data : List Byte)
    (hL : s.frame_len ≠ 0) (hd : data.length = s.frame_len) :
    Feed.syncInput ext s data =
      if (Feed.addFrame s data).frame_count < 5 then none
      else some (Feed.decodeRS ext (Feed.addFrame s data)) := by
  unfold Feed.syncInput
  rw [checkLen_same s data.length hL hd]

/-- A frame of the latched length fed while fewer than four frames are held:
the frame is stored, nothing else happens. -/
theorem feed_accumulate (ext : Externals) (s : SuperframeFilter) (data : List Byte)
    (racc : List (List Byte)) (hh : s.Holds racc) (hL : s.frame_len ≠ 0)
    (hd : data.length = s.frame_len) (hc : s.frame_count < 4) :
    Feed ext s data = some (Feed.addFrame s data, [])
    ∧ Feed.syncInput ext s data = none
    ∧ (Feed.addFrame s data).Holds (data :: racc)
    ∧ (Feed.addFrame s data).frame_count = s.frame_count + 1
    ∧ (Feed.addFrame s data).frame_len = s.frame_len := by
  obtain ⟨-, e2⟩ := addFrame_few s data (by omega) hd
  have hlt : (Feed.addFrame s data).frame_count < 5 := by rw [e2]; omega
  have hsi : Feed.syncInput ext s data = none := by
    rw [syncInput_of_count ext s data hL hd, if_pos hlt]
  refine ⟨?_, hsi, addFrame_Holds s data racc hh hd hL, e2, (addFrame_keeps s data).1⟩
  rw [feed_eq, checkLen_same s data.length hL hd]
  dsimp only
  rw [hsi]

/-- A frame of the latched length fed while four or five frames are held: the
sync check runs on the window that ends with this frame. -/
theorem feed_window (ext : Externals) (s : SuperframeFilter) (data : List Byte)
    (racc : List (List Byte)) (hh : s.Holds racc) (hL : s.frame_len ≠ 0)
    (hd : data.length = s.frame_len) (hc : 4 ≤ s.frame_count) :
    Feed.syncInput ext s data = some (Feed.decodeRS ext (Feed.addFrame s data))
    ∧ (Feed.addFrame s data).sf_raw = (lastN 5 (data :: racc).reverse).flatten
    ∧ 5 ≤ (data :: racc).length := by
  have h5 := hh.1.2.2.2.1
  have hh2 := addFrame_Holds s data racc hh hd hL
  have hraw : s.sf_raw.length = 5 * s.frame_len := hh.1.2.1.trans hh.1.1
  have hcnt : (Feed.addFrame s data).frame_count = 5 := by
    by_cases h : s.frame_count = 5
    · exact (addFrame_full s data h hraw hd).2
    · rw [(addFrame_few s data (by omega) hd).2]; omega
  refine ⟨?_, ?_, ?_⟩
  · rw [syncInput_of_count ext s data hL hd, if_neg (by omega)]
  · obtain ⟨hw, -, -, htake, -⟩ := hh2
    rw [hcnt] at htake
    rw [← reverse_take_reverse, List.reverse_reverse, ← htake, List.take_of_length_le]
    rw [hw.2.1, hw.1]
  · have := hh2.2.1
    omega


theorem feed_after_sync (ext : Externals) (s u s1 : SuperframeFilter) (f0 : List Byte)
    (rs0 evs : List Event) (hw : s.WF) (hsp : Feed.syncPoint ext s f0 = some (u, rs0))
    (hf : Feed ext s f0 = some (s1, evs)) :
    s1.Holds [] ∧ s1.frame_count = 0 ∧ s1.frame_len ≠ 0 ∧ s1.sync_frames = 0 := by
  have hw1 := feed_WF ext s s1 f0 evs hw hf
  rw [syncPoint_eq] at hsp
  cases hsi : Feed.syncInput ext s f0 with
  | none => rw [hsi] at hsp; exact absurd hsp (by simp)
  | some r =>
    obtain ⟨v, rs⟩ := r
    rw [hsi] at hsp
    dsimp only at hsp
    by_cases hb : (CheckSync ext v).1 = true
    swap
    · rw [if_neg hb] at hsp; exact absurd hsp (by simp)
    obtain ⟨-, -, hlv, hacc, -⟩ := syncInput_WF ext s v f0 rs hw hsi
    obtain ⟨s0, hcl, -⟩ := syncInput_some ext s v f0 rs hsi
    rw [feed_eq, hcl] at hf
    dsimp only at hf
    rw [hsi] at hf
    dsimp only at hf
    rw [if_pos hb, synced_eq] at hf
    by_cases hall : ∀ i, i < (CheckSync ext v).2.num_aus → 2 ≤ auLen (CheckSync ext v).2.au_start i
    swap
    · rw [if_neg hall] at hf; exact absurd hf (by simp)
    rw [if_pos hall] at hf
    simp only [Option.map_some', Option.some.injEq, Prod.mk.injEq] at hf
    have hc0 : s1.frame_count = 0 := by rw [← hf.1]
    have hfl : s1.frame_len = f0.length := by
      rw [← hf.1]
      exact (checkFormat_keeps _).1.trans ((recover_keeps _).1.trans
        ((checkSync_keeps ext v).1.trans hlv))
    have hsf : s1.sync_frames = 0 := by
      rw [← hf.1]
      exact (checkFormat_keeps_more _).2.2.1.trans (recover_keeps_more _).2.2.2.2
    refine ⟨⟨hw1, by rw [hc0]; exact Nat.le_refl _, fun f h => absurd h (List.not_mem_nil f),
      by rw [hc0]; simp, fun h => ?_⟩, hc0, ?_, hsf⟩
    · have := hacc.1; omega
    · have := hacc.1; omega

theorem feed_after_fail (ext : Externals) (s v s1 : SuperframeFilter) (f0 : List Byte)
    (rs0 evs : List Event) (hw : s.WF) (hsi : Feed.syncInput ext s f0 = some (v, rs0))
    (hb : (CheckSync ext v).1 = false) (hf : Feed ext s f0 = some (s1, evs)) :
    s1.WF ∧ s1.frame_count = 5 ∧ s1.frame_len ≠ 0 ∧ s1.sf_raw = v.sf_raw
    ∧ s1.sync_frames = s.sync_frames + 1 := by
  have hw1 := feed_WF ext s s1 f0 evs hw hf
  obtain ⟨-, hcv, hlv, hacc, -, hsy, -⟩ := syncInput_WF ext s v f0 rs0 hw hsi
  obtain ⟨s0, hcl, -⟩ := syncInput_some ext s v f0 rs0 hsi
  rw [feed_eq, hcl] at hf
  dsimp only at hf
  rw [hsi] at hf
  dsimp only at hf
  rw [if_neg (by rw [hb]; exact Bool.false_ne_true)] at hf
  simp only [Option.some.injEq, Prod.mk.injEq] at hf
  have hk := checkSync_keeps ext v
  have hk2 := checkSync_keeps_more ext v
  refine ⟨hw1, by rw [← hf.1]; exact hk2.1.trans hcv, ?_, by rw [← hf.1]; exact hk2.2.2.2.1,
    by rw [← hf.1]; show _ + 1 = _; rw [hk2.2.1, hsy]⟩
  rw [← hf.1]
  show (CheckSync ext v).2.frame_len ≠ 0
  rw [hk.1, hlv]
  have := hacc.1; omega

/-- C11: after any run of `Feed` calls on a new filter, a call that gets to the
sync check runs it on a raw buffer that is the concatenation, in order, of the
last five accepted frames (the frame of the call included), and `sf` is the RS
pass over that buffer. After a failed check the next frame of the latched length
gets to a check on the window slid by one frame: the old raw buffer without its
first frame, then the new frame. After a successful check the next four frames
of the latched length return without a sync check and without any event, and the
fifth gets to a check on exactly those five frames. -/
theorem feed_sync_window (ext : Externals) (fs : List (List Byte)) (s : SuperframeFilter)
    (evss : List (List Event)) (hrun : feedAll ext SuperframeFilter.new fs = some (s, evss)) :
    (∀ f v rs, Feed.syncInput ext s f = some (v, rs) →
        v.sf_raw = (lastN 5 (acceptedFrames ext SuperframeFilter.new fs ++ [f])).flatten
        ∧ 5 ≤ (acceptedFrames ext SuperframeFilter.new fs ++ [f]).length
        ∧ v.sf = (DecodeSuperframe ext.decode_rs_char v.sf_raw v.sf_len).1)
    ∧ (∀ f0 v0 rs0 s1 evs f1, Feed.syncInput ext s f0 = some (v0, rs0) →
        (CheckSync ext v0).1 = false → Feed ext s f0 = some (s1, evs) →
        f1.length = s1.frame_len →
        ∃ v1 rs1, Feed.syncInput ext s1 f1 = some (v1, rs1)
          ∧ v1.sf_raw = v0.sf_raw.drop s1.frame_len ++ f1)
    ∧ (∀ f0 u rs0 s1 evs g1 g2 g3 g4 g5, Feed.syncPoint ext s f0 = some (u, rs0) →
        Feed ext s f0 = some (s1, evs) →
        g1.length = s1.frame_len → g2.length = s1.frame_len → g3.length = s1.frame_len →
        g4.length = s1.frame_len → g5.length = s1.frame_len →
        ∃ t1 t2 t3 t4, Feed ext s1 g1 = some (t1, []) ∧ Feed ext t1 g2 = some (t2, [])
          ∧ Feed ext t2 g3 = some (t3, []) ∧ Feed ext t3 g4 = some (t4, [])
          ∧ Feed.syncInput ext s1 g1 = none ∧ Feed.syncInput ext t1 g2 = none
          ∧ Feed.syncInput ext t2 g3 = none ∧ Feed.syncInput ext t3 g4 = none
          ∧ ∃ v rs, Feed.syncInput ext t4 g5 = some (v, rs)
              ∧ v.sf_raw = g1 ++ (g2 ++ (g3 ++ (g4 ++ g5)))) := by
  have hh := feedAll_Holds ext fs _ s evss [] new_Holds hrun
  rw [List.append_nil] at hh
  refine ⟨?_, ?_, ?_⟩
  · intro f v rs hsi
    obtain ⟨-, -, -, -, hsf, -⟩ := syncInput_WF ext s v f rs hh.1 hsi
    obtain ⟨s1, hcl, hc, rfl, -⟩ := syncInput_some ext s v f rs hsi
    obtain ⟨hw1, hl, hcnt, hacc, -⟩ := checkLen_WF s s1 f.length hh.1 hcl
    have hL : s1.frame_len ≠ 0 := by rw [hl]; have := hacc.1; omega
    have hh1 := Holds_latch s s1 _ _ hh hcl
    have hc4 : 4 ≤ s1.frame_count := by
      by_contra hlt
      exact hc (by rw [(addFrame_few s1 f (by omega) hl.symm).2]; omega)
    obtain ⟨-, hraw, hlen⟩ := feed_window ext s1 f _ hh1 hL hl.symm hc4
    refine ⟨?_, ?_, hsf⟩
    · show (Feed.addFrame s1 f).sf_raw = _
      rw [hraw, List.reverse_cons, List.reverse_reverse]
    · rw [List.length_append, List.length_singleton]
      rw [List.length_cons, List.length_reverse] at hlen
      exact hlen
  · intro f0 v0 rs0 s1 evs f1 hsi hb hf hl1
    obtain ⟨hw1, hc1, hL1, hraw1, -⟩ := feed_after_fail ext s v0 s1 f0 rs0 evs hh.1 hsi hb hf
    have hh1 := feed_Holds ext s s1 f0 evs _ hh hf
    obtain ⟨hsi1, -, -⟩ := feed_window ext s1 f1 _ hh1 hL1 hl1 (by omega)
    refine ⟨_, _, hsi1, ?_⟩
    show (Feed.addFrame s1 f1).sf_raw = _
    rw [(addFrame_full s1 f1 hc1 (hw1.2.1.trans hw1.1) hl1).1, hraw1]
  · intro f0 u rs0 s1 evs g1 g2 g3 g4 g5 hsp hf l1 l2 l3 l4 l5
    obtain ⟨hh0, hc0, hL, -⟩ := feed_after_sync ext s u s1 f0 rs0 evs hh.1 hsp hf
    obtain ⟨f1, n1, hh1, hc1, hl1⟩ := feed_accumulate ext s1 g1 [] hh0 hL l1 (by omega)
    obtain ⟨f2, n2, hh2, hc2, hl2⟩ := feed_accumulate ext _ g2 _ hh1 (by rw [hl1]; exact hL)
      (by rw [hl1]; exact l2) (by omega)
    obtain ⟨f3, n3, hh3, hc3, hl3⟩ := feed_accumulate ext _ g3 _ hh2
      (by rw [hl2, hl1]; exact hL) (by rw [hl2, hl1]; exact l3) (by omega)
    obtain ⟨f4, n4, hh4, hc4, hl4⟩ := feed_accumulate ext _ g4 _ hh3
      (by rw [hl3, hl2, hl1]; exact hL) (by rw [hl3, hl2, hl1]; exact l4) (by omega)
    obtain ⟨hsi, hraw, -⟩ := feed_window ext _ g5 _ hh4
      (by rw [hl4, hl3, hl2, hl1]; exact hL) (by rw [hl4, hl3, hl2, hl1]; exact l5) (by omega)
    refine ⟨_, _, _, _, f1, f2, f3, f4, n1, n2, n3, n4, _, _, hsi, ?_⟩
    show (Feed.addFrame _ g5).sf_raw = _
    rw [hraw]
    simp [lastN]

theorem countKind_append (k : Kind) (a b : List Event) :
    countKind k (a ++ b) = countKind k a + countKind k b := by
  simp [countKind]

theorem countKind_flatten_map (k : Kind) (f : Nat → List Event) (l : List Nat) :
    countKind k (l.map f).flatten = (l.map (fun i => countKind k (f i))).sum := by
  induction l with
  | nil => rfl
  | cons a l ih => simp [countKind_append, ih]

theorem kinds_decodeRS (ext : Externals) (s : SuperframeFilter) :
    (Feed.decodeRS ext s).2.map Event.kind = []
    ∨ (Feed.decodeRS ext s).2.map Event.kind = [Kind.log] := by
  unfold Feed.decodeRS DecodeSuperframe
  simp only
  split_ifs <;> first | exact Or.inr rfl | exact Or.inl rfl

theorem kinds_recover (s : SuperframeFilter) :
    (Feed.recover s).2.map Event.kind = if s.sync_frames ≠ 0 then [Kind.log, Kind.pad] else [] := by
  unfold Feed.recover
  split_ifs <;> rfl

theorem kinds_checkFormat (s : SuperframeFilter) :
    (Feed.checkFormat s).2.map Event.kind =
      if s.sf_format_set = true ∧ s.sf_format_raw = s.sf.getD 2 0 then []
      else [Kind.format, Kind.decoder] := by
  unfold Feed.checkFormat ProcessFormat
  by_cases h : s.sf_format_set = true ∧ s.sf_format_raw = s.sf.getD 2 0
  · rw [if_pos h, if_neg (by simp [h.1, h.2])]
    rfl
  · rw [if_neg h, if_pos]
    · rfl
    · by_cases h1 : s.sf_format_set = true
      · have h2 : s.sf_format_raw ≠ s.sf.getD 2 0 := fun hc => h ⟨h1, hc⟩
        simp only [h1, Bool.not_true, Bool.false_or, decide_eq_true_eq]
        exact h2
      · simp [h1]

theorem kinds_auEvents (ext : Externals) (sf : List Byte) (au : Nat → Int) (i : Nat) :
    (Feed.auEvents ext sf au i).map Event.kind =
      if auCrcStored sf au i ≠ auCrcCalced ext sf au i then [Kind.log, Kind.pad]
      else [Kind.frame, Kind.pad] := by
  unfold Feed.auEvents
  simp only
  split_ifs
  · rfl
  · rw [CheckForPAD_eq]
    split_ifs <;> rfl

theorem countKind_decodeRS (ext : Externals) (s : SuperframeFilter) (k : Kind)
    (hk : k ≠ Kind.log) : countKind k (Feed.decodeRS ext s).2 = 0 := by
  unfold countKind
  rcases kinds_decodeRS ext s with h | h <;> rw [h]
  · rfl
  · cases k <;> first | rfl | exact absurd rfl hk

theorem countKind_auEvents (ext : Externals) (sf : List Byte) (au : Nat → Int) (i : Nat) :
    countKind Kind.format (Feed.auEvents ext sf au i) = 0
    ∧ countKind Kind.decoder (Feed.auEvents ext sf au i) = 0
    ∧ countKind Kind.pad (Feed.auEvents ext sf au i) = 1 := by
  unfold countKind
  rw [kinds_auEvents]
  split_ifs <;> exact ⟨rfl, rfl, rfl⟩

theorem sum_const_range (c n : Nat) : ((List.range n).map (fun _ => c)).sum = n * c := by
  induction n with
  | zero => simp
  | succ n ih => rw [List.range_succ, List.map_append, List.sum_append, ih]; simp [Nat.add_mul]

theorem countKind_aus (ext : Externals) (sf : List Byte) (au : Nat → Int) (n : Nat) :
    countKind Kind.format ((List.range n).map (Feed.auEvents ext sf au)).flatten = 0
    ∧ countKind Kind.decoder ((List.range n).map (Feed.auEvents ext sf au)).flatten = 0
    ∧ countKind Kind.pad ((List.range n).map (Feed.auEvents ext sf au)).flatten = n := by
  rw [countKind_flatten_map, countKind_flatten_map, countKind_flatten_map]
  have h1 : (fun i => countKind Kind.format (Feed.auEvents ext sf au i)) = fun _ => 0 :=
    funext fun i => (countKind_auEvents ext sf au i).1
  have h2 : (fun i => countKind Kind.decoder (Feed.auEvents ext sf au i)) = fun _ => 0 :=
    funext fun i => (countKind_auEvents ext sf au i).2.1
  have h3 : (fun i => countKind Kind.pad (Feed.auEvents ext sf au i)) = fun _ => 1 :=
    funext fun i => (countKind_auEvents ext sf au i).2.2
  rw [h1, h2, h3, sum_const_range, sum_const_range]
  simp


theorem checkLen_keeps (s s1 : SuperframeFilter) (len : Nat)
    (h : Feed.checkLen s len = .ok s1) :
    s1.sync_frames = s.sync_frames ∧ s1.sf_format_set = s.sf_format_set
    ∧ s1.sf_format_raw = s.sf_format_raw ∧ s1.frame_count = s.frame_count := by
  rcases checkLen_ok s s1 len h with ⟨-, -, rfl⟩ | ⟨-, -, rfl⟩ <;> exact ⟨rfl, rfl, rfl, rfl⟩

theorem syncInput_keeps (ext : Externals) (s v : SuperframeFilter) (data : List Byte)
    (rs : List Event) (h : Feed.syncInput ext s data = some (v, rs)) :
    v.sync_frames = s.sync_frames ∧ v.sf_format_set = s.sf_format_set
    ∧ v.sf_format_raw = s.sf_format_raw
    ∧ (rs.map Event.kind = [] ∨ rs.map Event.kind = [Kind.log]) := by
  obtain ⟨s1, hcl, -, rfl, rfl⟩ := syncInput_some ext s v data rs h
  obtain ⟨h1, h2, h3, -⟩ := checkLen_keeps s s1 _ hcl
  have hk := addFrame_keeps_more s1 data
  exact ⟨hk.2.1.trans h1, hk.2.2.1.trans h2, hk.2.2.2.trans h3, kinds_decodeRS ext _⟩

theorem syncPoint_some (ext : Externals) (s u : SuperframeFilter) (data : List Byte)
    (rs : List Event) (h : Feed.syncPoint ext s data = some (u, rs)) :
    ∃ v, Feed.syncInput ext s data = some (v, rs) ∧ (CheckSync ext v).1 = true
      ∧ u = (CheckSync ext v).2 := by
  rw [syncPoint_eq] at h
  cases hsi : Feed.syncInput ext s data with
  | none => rw [hsi] at h; exact absurd h (by simp)
  | some r =>
    obtain ⟨v, rs'⟩ := r
    rw [hsi] at h
    dsimp only at h
    by_cases hb : (CheckSync ext v).1 = true
    · rw [if_pos hb] at h
      simp only [Option.some.injEq, Prod.mk.injEq] at h
      obtain ⟨rfl, rfl⟩ := h
      exact ⟨v, rfl, hb, rfl⟩
    · rw [if_neg hb] at h; exact absurd h (by simp)

/-- The events and the resulting filter of a call of `Feed` that passes the
sync check. -/
theorem feed_synced_events (ext : Externals) (s u t : SuperframeFilter) (data : List Byte)
    (rs evs : List Event) (hsp : Feed.syncPoint ext s data = some (u, rs))
    (hf : Feed ext s data = some (t, evs)) :
    evs = rs ++ ((Feed.recover u).2 ++ (Feed.checkFormat (Feed.recover u).1).2
        ++ ((List.range u.num_aus).map (Feed.auEvents ext u.sf u.au_start)).flatten)
    ∧ t = { (Feed.checkFormat (Feed.recover u).1).1 with frame_count := 0 }
    ∧ u.sync_frames = s.sync_frames ∧ u.sf_format_set = s.sf_format_set
    ∧ u.sf_format_raw = s.sf_format_raw
    ∧ (rs.map Event.kind = [] ∨ rs.map Event.kind = [Kind.log])
    ∧ (∀ i, i < u.num_aus → 2 ≤ auLen u.au_start i) := by
  obtain ⟨v, hsi, -, rfl⟩ := syncPoint_some ext s u data rs hsp
  obtain ⟨k1, k2, k3, k4⟩ := syncInput_keeps ext s v data rs hsi
  have hk := checkSync_keeps_more ext v
  obtain ⟨he, -, -⟩ := feed_of_syncPoint ext s _ data rs hsp
  rw [he, synced_eq] at hf
  by_cases hall : ∀ i, i < (CheckSync ext v).2.num_aus → 2 ≤ auLen (CheckSync ext v).2.au_start i
  swap
  · rw [if_neg hall] at hf; exact absurd hf (by simp)
  rw [if_pos hall] at hf
  simp only [Option.map_some', Option.some.injEq, Prod.mk.injEq] at hf
  exact ⟨hf.2.symm, hf.1.symm, hk.2.1.trans k1, hk.2.2.2.2.1.trans k2,
    hk.2.2.2.2.2.1.trans k3, k4, hall⟩

/-- The events and the resulting filter of a call of `Feed` that does not get to
a successful sync check. -/
theorem feed_unsynced (ext : Externals) (s t : SuperframeFilter) (data : List Byte)
    (evs : List Event) (hsp : Feed.syncPoint ext s data = none)
    (hf : Feed ext s data = some (t, evs)) :
    (∀ k, k ≠ Kind.log → countKind k evs = 0)
    ∧ t.sf_format_set = s.sf_format_set ∧ t.sf_format_raw = s.sf_format_raw := by
  rw [syncPoint_eq] at hsp
  rw [feed_eq] at hf
  cases hcl : Feed.checkLen s data.length with
  | error msg =>
    rw [hcl] at hf
    simp only [Option.some.injEq, Prod.mk.injEq] at hf
    obtain ⟨rfl, rfl⟩ := hf
    exact ⟨fun k hk => by cases k <;> first | rfl | exact absurd rfl hk, rfl, rfl⟩
  | ok s1 =>
    rw [hcl] at hf
    dsimp only at hf
    obtain ⟨-, c2, c3, -⟩ := checkLen_keeps s s1 _ hcl
    cases hsi : Feed.syncInput ext s data with
    | none =>
      rw [hsi] at hf
      simp only [Option.some.injEq, Prod.mk.injEq] at hf
      obtain ⟨rfl, rfl⟩ := hf
      have hk := addFrame_keeps_more s1 data
      exact ⟨fun k _ => rfl, hk.2.2.1.trans c2, hk.2.2.2.trans c3⟩
    | some r =>
      obtain ⟨v, rs⟩ := r
      rw [hsi] at hf hsp
      dsimp only at hf hsp
      by_cases hb : (CheckSync ext v).1 = true
      · rw [if_pos hb] at hsp; exact absurd hsp (by simp)
      · rw [if_neg hb] at hf
        simp only [Option.some.injEq, Prod.mk.injEq] at hf
        obtain ⟨rfl, rfl⟩ := hf
        obtain ⟨-, k2, k3, k4⟩ := syncInput_keeps ext s v data rs hsi
        have hk := checkSync_keeps_more ext v
        refine ⟨fun k hk' => ?_, hk.2.2.2.2.1.trans k2, hk.2.2.2.2.2.1.trans k3⟩
        rw [countKind_append]
        have h1 : countKind k rs = 0 := by
          unfold countKind
          rcases k4 with h | h <;> rw [h]
          · rfl
          · cases k <;> first | rfl | exact absurd rfl hk'
        rw [h1]
        split_ifs
        · cases k <;> first | rfl | exact absurd rfl hk'
        · rfl


theorem cachedFormat_eq_some (s : SuperframeFilter) (b : Byte) :
    cachedFormat s = some b ↔ s.sf_format_set = true ∧ s.sf_format_raw = b := by
  unfold cachedFormat
  by_cases h : s.sf_format_set = true
  · simp [h]
  · simp [h]

theorem countKind_recover (s : SuperframeFilter) :
    countKind Kind.format (Feed.recover s).2 = 0
    ∧ countKind Kind.decoder (Feed.recover s).2 = 0
    ∧ countKind Kind.pad (Feed.recover s).2 = if s.sync_frames ≠ 0 then 1 else 0 := by
  unfold countKind
  rw [kinds_recover]
  split_ifs <;> exact ⟨rfl, rfl, rfl⟩

theorem countKind_checkFormat (s : SuperframeFilter) :
    countKind Kind.format (Feed.checkFormat s).2
        = (if cachedFormat s = some (s.sf.getD 2 0) then 0 else 1)
    ∧ countKind Kind.decoder (Feed.checkFormat s).2
        = (if cachedFormat s = some (s.sf.getD 2 0) then 0 else 1)
    ∧ countKind Kind.pad (Feed.checkFormat s).2 = 0 := by
  unfold countKind
  rw [kinds_checkFormat]
  by_cases h : s.sf_format_set = true ∧ s.sf_format_raw = s.sf.getD 2 0
  · rw [if_pos h, if_pos ((cachedFormat_eq_some s _).2 h)]
    exact ⟨rfl, rfl, rfl⟩
  · rw [if_neg h, if_neg (fun hc => h ((cachedFormat_eq_some s _).1 hc))]
    exact ⟨rfl, rfl, rfl⟩

theorem cachedFormat_congr (s t : SuperframeFilter) (h1 : t.sf_format_set = s.sf_format_set)
    (h2 : t.sf_format_raw = s.sf_format_raw) : cachedFormat t = cachedFormat s := by
  unfold cachedFormat
  rw [h1, h2]

/-- The `FormatChange` calls and decoder constructions of one call of `Feed`,
and the format byte cached after it. -/
theorem feed_format_step (ext : Externals) (s t : SuperframeFilter) (data : List Byte)
    (evs : List Event) (hf : Feed ext s data = some (t, evs)) :
    countKind Kind.format evs =
        (match Feed.syncPoint ext s data with
          | none => 0
          | some (u, _) => if cachedFormat s = some (u.sf.getD 2 0) then 0 else 1)
    ∧ countKind Kind.decoder evs = countKind Kind.format evs
    ∧ cachedFormat t =
        (match Feed.syncPoint ext s data with
          | none => cachedFormat s
          | some (u, _) => some (u.sf.getD 2 0)) := by
  cases hsp : Feed.syncPoint ext s data with
  | none =>
    obtain ⟨h0, h1, h2⟩ := feed_unsynced ext s t data evs hsp hf
    dsimp only
    rw [h0 Kind.format (by decide), h0 Kind.decoder (by decide)]
    exact ⟨rfl, rfl, cachedFormat_congr s t h1 h2⟩
  | some r =>
    obtain ⟨u, rs⟩ := r
    dsimp only
    obtain ⟨he, ht, -, k2, k3, k4, -⟩ := feed_synced_events ext s u t data rs evs hsp hf
    have r1 := recover_keeps u
    have r2 := recover_keeps_more u
    have hc : cachedFormat (Feed.recover u).1 = cachedFormat s :=
      cachedFormat_congr s _ (r2.2.2.1.trans k2) (r2.2.2.2.1.trans k3)
    have hrs : ∀ k, k ≠ Kind.log → countKind k rs = 0 := by
      intro k hk
      unfold countKind
      rcases k4 with h | h <;> rw [h]
      · rfl
      · cases k <;> first | rfl | exact absurd rfl hk
    have cf := countKind_checkFormat (Feed.recover u).1
    rw [hc, r1.2.2.1] at cf
    have ca := countKind_aus ext u.sf u.au_start u.num_aus
    have cr := countKind_recover u
    refine ⟨?_, ?_, ?_⟩
    · rw [he, countKind_append, countKind_append, countKind_append, hrs _ (by decide), cr.1,
        cf.1, ca.1]
      simp
    · rw [he, countKind_append, countKind_append, countKind_append, hrs _ (by decide), cr.2.1,
        cf.2.1, ca.2.1, countKind_append, countKind_append, countKind_append,
        hrs _ (by decide), cr.1, cf.1, ca.1]
    · rw [ht]
      have c2 := checkFormat_keeps_more (Feed.recover u).1
      rw [cachedFormat_eq_some]
      exact ⟨c2.2.2.2.1, c2.2.2.2.2.trans (by rw [r1.2.2.1])⟩

/-- C13, amended: over a run of `Feed` calls the number of `FormatChange`
callbacks is the number of accepted Superframes whose byte 2 differs from that of
the accepted Superframe before it (from the cached format byte, if any, for the
first one): the changes of the format byte, not its distinct values. -/
theorem formatChange_count (ext : Externals) (fs : List (List Byte)) (s t : SuperframeFilter)
    (evss : List (List Event)) (h : feedAll ext s fs = some (t, evss)) :
    countKind Kind.format evss.flatten
      = formatTransitions (cachedFormat s) (formatBytes ext s fs) := by
  induction fs generalizing s t evss with
  | nil =>
    unfold feedAll at h
    simp only [Option.some.injEq, Prod.mk.injEq] at h
    rw [← h.2]
    rfl
  | cons f fs ih =>
    unfold feedAll at h
    unfold formatBytes
    cases hf : Feed ext s f with
    | none => rw [hf] at h; exact absurd h (by simp)
    | some r =>
      obtain ⟨s1, evs⟩ := r
      rw [hf] at h
      dsimp only at h ⊢
      cases hr : feedAll ext s1 fs with
      | none => rw [hr] at h; exact absurd h (by simp)
      | some r2 =>
        obtain ⟨s2, evss2⟩ := r2
        rw [hr] at h
        simp only [Option.some.injEq, Prod.mk.injEq] at h
        rw [← h.2, List.flatten_cons, countKind_append, ih s1 s2 evss2 hr]
        obtain ⟨h1, -, h3⟩ := feed_format_step ext s s1 f evs hf
        rw [h1, h3]
        cases hsp : Feed.syncPoint ext s f with
        | none => simp
        | some r3 =>
          obtain ⟨u, rs⟩ := r3
          dsimp only
          rw [List.singleton_append]
          rfl

/-- C13 fails as stated: three Superframes with format bytes 0x20, 0x28, 0x20
fed in turn to a new filter are all accepted and give three `FormatChange`
callbacks, while only two distinct values of byte 2 occur. -/
theorem formatChange_count_not_distinct :
    (eventsOf refExternals framesABA).map (fun evss => countKind Kind.format evss.flatten) = some 3
    ∧ formatBytes refExternals SuperframeFilter.new framesABA = [0x20, 0x28, 0x20]
    ∧ (formatBytes refExternals SuperframeFilter.new framesABA).dedup.length = 2 := by
  refine ⟨by decide!, by decide!, by decide!⟩

theorem CheckSync_fst_iff (ext : Externals) (s : SuperframeFilter) :
    (CheckSync ext s).1 = true ↔
      ¬ (rd s.sf 3 = 0 ∧ rd s.sf 4 = 0)
      ∧ (rd s.sf 0 <<< 8 ||| rd s.sf 1) % 65536 = ext.CalcCRC_FIRE_CODE (slice s.sf 2 9) % 65536
      ∧ auDisorder (CheckSync.parsed s).num_aus (CheckSync.parsed s).au_start = false := by
  constructor
  · intro h
    have h2 : CheckSync ext s = (true, (CheckSync ext s).2) := by rw [← h]
    obtain ⟨a, b, c, -⟩ := (CheckSync_true_iff ext s _).1 h2
    exact ⟨a, b, c⟩
  · rintro ⟨a, b, c⟩
    have := (CheckSync_true_iff ext s (CheckSync.parsed s)).2 ⟨a, b, c, rfl⟩
    rw [this]

theorem CheckSync_snd_of_true (ext : Externals) (s : SuperframeFilter)
    (h : (CheckSync ext s).1 = true) : (CheckSync ext s).2 = CheckSync.parsed s := by
  have h2 : CheckSync ext s = (true, (CheckSync ext s).2) := by rw [← h]
  exact ((CheckSync_true_iff ext s _).1 h2).2.2.2

theorem numAUs_le (f : SuperframeFormat) : numAUs f ≤ 6 ∧ 2 ≤ numAUs f := by
  unfold numAUs
  split_ifs <;> exact ⟨by decide, by decide⟩

theorem auTable_congr (sf : List Byte) (sf_len : Nat) (f : SuperframeFormat)
    (au au' : Nat → Int) (i : Nat) (hi : i ≤ numAUs f) :
    auTable sf sf_len f (numAUs f) au i = auTable sf sf_len f (numAUs f) au' i := by
  obtain ⟨d, sb, a, p, m⟩ := f
  unfold auTable numAUs at *
  cases d <;> cases sb <;> simp only [if_true, if_false, Bool.false_eq_true] at hi ⊢
  · have : i ≤ 4 := hi
    interval_cases i <;> simp [Function.update]
  · have : i ≤ 2 := hi
    interval_cases i <;> simp [Function.update]
  · have : i ≤ 6 := hi
    interval_cases i <;> simp [Function.update]
  · have : i ≤ 3 := hi
    interval_cases i <;> simp [Function.update]

theorem parsed_congr (v w : SuperframeFilter) (h1 : v.sf = w.sf) (h2 : v.sf_len = w.sf_len) :
    (CheckSync.parsed v).num_aus = (CheckSync.parsed w).num_aus
    ∧ (CheckSync.parsed v).sf = (CheckSync.parsed w).sf
    ∧ ∀ i, i ≤ (CheckSync.parsed v).num_aus →
        (CheckSync.parsed v).au_start i = (CheckSync.parsed w).au_start i := by
  unfold CheckSync.parsed
  simp only [h1, h2]
  exact ⟨trivial, trivial, fun i hi => auTable_congr _ _ _ _ _ i hi⟩

theorem CheckSync_congr (ext : Externals) (v w : SuperframeFilter) (h1 : v.sf = w.sf)
    (h2 : v.sf_len = w.sf_len) (hv : (CheckSync ext v).1 = true) :
    (CheckSync ext w).1 = true
    ∧ (CheckSync ext w).2.num_aus = (CheckSync ext v).2.num_aus
    ∧ (CheckSync ext w).2.sf = (CheckSync ext v).2.sf
    ∧ ∀ i, i ≤ (CheckSync ext v).2.num_aus →
        (CheckSync ext w).2.au_start i = (CheckSync ext v).2.au_start i := by
  obtain ⟨p1, p2, p3⟩ := parsed_congr v w h1 h2
  have hw : (CheckSync ext w).1 = true := by
    rw [CheckSync_fst_iff] at hv ⊢
    obtain ⟨a, b, c⟩ := hv
    rw [h1] at a b
    refine ⟨a, b, ?_⟩
    rw [auDisorder_false_iff] at c ⊢
    intro i hi
    rw [← p1] at hi
    rw [← p3 i (by omega), ← p3 (i + 1) (by omega)]
    exact c i hi
  rw [CheckSync_snd_of_true ext v hv, CheckSync_snd_of_true ext w hw]
  exact ⟨hw, p1.symm, p2.symm, fun i hi => (p3 i hi).symm⟩

/-- C16: `CheckSync` returns true exactly when bytes 3 and 4 of the working
buffer are not both zero, the Fire code computed over bytes 2..10 is the
big-endian word in bytes 0..1, and the decoded AU table is strictly increasing
up to the sentinel; a buffer with bytes 3 and 4 both zero is rejected whatever
its Fire code. -/
theorem checkSync_accepts_iff (ext : Externals) (s : SuperframeFilter) :
    ((CheckSync ext s).1 = true ↔
      ¬ (rd s.sf 3 = 0 ∧ rd s.sf 4 = 0)
      ∧ ext.CalcCRC_FIRE_CODE (slice s.sf 2 9) % 65536 = 256 * rd s.sf 0 + rd s.sf 1
      ∧ ∀ i, i < (CheckSync.parsed s).num_aus →
          (CheckSync.parsed s).au_start i < (CheckSync.parsed s).au_start (i + 1))
    ∧ (rd s.sf 3 = 0 ∧ rd s.sf 4 = 0 → (CheckSync ext s).1 = false) := by
  have hiff := CheckSync_fst_iff ext s
  rw [be16 _ _ (rd_lt _ _) (rd_lt _ _), auDisorder_false_iff] at hiff
  refine ⟨?_, fun hz => ?_⟩
  · rw [hiff]
    constructor
    · rintro ⟨a, b, c⟩; exact ⟨a, b.symm, c⟩
    · rintro ⟨a, b, c⟩; exact ⟨a, b.symm, c⟩
  · cases hb : (CheckSync ext s).1 with
    | false => rfl
    | true => exact absurd hz (hiff.1 hb).1


/-- Five frames of the latched length fed to a filter that holds no frame: four
calls that only store the frame, then a sync check on the five frames. -/
theorem five_frames (ext : Externals) (s : SuperframeFilter) (f1 f2 f3 f4 f5 : List Byte)
    (hh : s.Holds []) (hc : s.frame_count = 0) (hL : s.frame_len ≠ 0)
    (l1 : f1.length = s.frame_len) (l2 : f2.length = s.frame_len)
    (l3 : f3.length = s.frame_len) (l4 : f4.length = s.frame_len)
    (l5 : f5.length = s.frame_len) :
    ∃ t4 v rs, feedAll ext s [f1, f2, f3, f4] = some (t4, [[], [], [], []])
      ∧ cachedFormat t4 = cachedFormat s ∧ t4.sync_frames = s.sync_frames
      ∧ Feed.syncInput ext t4 f5 = some (v, rs)
      ∧ v.sf = (DecodeSuperframe ext.decode_rs_char (f1 ++ (f2 ++ (f3 ++ (f4 ++ f5)))) s.sf_len).1
      ∧ v.sf_len = s.sf_len ∧ v.sf_raw = f1 ++ (f2 ++ (f3 ++ (f4 ++ f5))) := by
  obtain ⟨e1, -, hh1, hc1, hl1⟩ := feed_accumulate ext s f1 [] hh hL l1 (by omega)
  have k1 := addFrame_keeps_more s f1
  have q1 := addFrame_keeps s f1
  obtain ⟨e2, -, hh2, hc2, hl2⟩ := feed_accumulate ext _ f2 _ hh1 (by rw [hl1]; exact hL)
    (by rw [hl1]; exact l2) (by omega)
  have k2 := addFrame_keeps_more (Feed.addFrame s f1) f2
  have q2 := addFrame_keeps (Feed.addFrame s f1) f2
  obtain ⟨e3, -, hh3, hc3, hl3⟩ := feed_accumulate ext _ f3 _ hh2
    (by rw [hl2, hl1]; exact hL) (by rw [hl2, hl1]; exact l3) (by omega)
  have k3 := addFrame_keeps_more (Feed.addFrame (Feed.addFrame s f1) f2) f3
  have q3 := addFrame_keeps (Feed.addFrame (Feed.addFrame s f1) f2) f3
  obtain ⟨e4, -, hh4, hc4, hl4⟩ := feed_accumulate ext _ f4 _ hh3
    (by rw [hl3, hl2, hl1]; exact hL) (by rw [hl3, hl2, hl1]; exact l4) (by omega)
  have k4 := addFrame_keeps_more (Feed.addFrame (Feed.addFrame (Feed.addFrame s f1) f2) f3) f4
  have q4 := addFrame_keeps (Feed.addFrame (Feed.addFrame (Feed.addFrame s f1) f2) f3) f4
  have hL4 : (Feed.addFrame (Feed.addFrame (Feed.addFrame (Feed.addFrame s f1) f2) f3) f4).frame_len
      ≠ 0 := by rw [hl4, hl3, hl2, hl1]; exact hL
  have l5' : f5.length
      = (Feed.addFrame (Feed.addFrame (Feed.addFrame (Feed.addFrame s f1) f2) f3) f4).frame_len := by
    rw [hl4, hl3, hl2, hl1]; exact l5
  obtain ⟨hsi, hraw, -⟩ := feed_window ext _ f5 _ hh4 hL4 l5' (by omega)
  have hw5 := addFrame_WF _ f5 hh4.1 l5' hL4
  have q5 := addFrame_keeps
    (Feed.addFrame (Feed.addFrame (Feed.addFrame (Feed.addFrame s f1) f2) f3) f4) f5
  have hd := decodeRS_sf ext _ hw5.2.1 hw5.2.2.1
  have hraw' : (Feed.addFrame (Feed.addFrame (Feed.addFrame (Feed.addFrame (Feed.addFrame s f1)
      f2) f3) f4) f5).sf_raw = f1 ++ (f2 ++ (f3 ++ (f4 ++ f5))) := by
    rw [hraw]; simp [lastN]
  have hlen : (Feed.addFrame (Feed.addFrame (Feed.addFrame (Feed.addFrame (Feed.addFrame s f1)
      f2) f3) f4) f5).sf_len = s.sf_len := by
    rw [q5.2, q4.2, q3.2, q2.2, q1.2]
  refine ⟨_, (Feed.decodeRS ext _).1, (Feed.decodeRS ext _).2, ?_, ?_, ?_, hsi, ?_, hlen, hraw'⟩
  · simp [feedAll, e1, e2, e3, e4]
  · exact cachedFormat_congr _ _ (k4.2.2.1.trans (k3.2.2.1.trans (k2.2.2.1.trans k1.2.2.1)))
      (k4.2.2.2.trans (k3.2.2.2.trans (k2.2.2.2.trans k1.2.2.2)))
  · exact k4.2.1.trans (k3.2.1.trans (k2.2.1.trans k1.2.1))
  · rw [hd.1, hraw', hlen]

theorem feedAll_append (ext : Externals) (a b : List (List Byte)) (s : SuperframeFilter) :
    feedAll ext s (a ++ b) =
      match feedAll ext s a with
      | none => none
      | some (t, ea) =>
        match feedAll ext t b with
        | none => none
        | some (t2, eb) => some (t2, ea ++ eb) := by
  induction a generalizing s with
  | nil =>
    simp only [List.nil_append, feedAll]
    cases feedAll ext s b with
    | none => rfl
    | some r => rfl
  | cons f a ih =>
    simp only [List.cons_append, feedAll]
    cases Feed ext s f with
    | none => rfl
    | some r =>
      obtain ⟨s1, evs⟩ := r
      dsimp only
      have ih' := ih s1
      rw [show a.append b = a ++ b from rfl, ih']
      cases feedAll ext s1 a with
      | none => rfl
      | some r2 =>
        obtain ⟨t, ea⟩ := r2
        dsimp only
        cases feedAll ext t b with
        | none => rfl
        | some r3 => rfl

theorem feedAll_singleton (ext : Externals) (s t : SuperframeFilter) (f : List Byte)
    (evs : List Event) (h : Feed ext s f = some (t, evs)) :
    feedAll ext s [f] = some (t, [evs]) := by
  simp [feedAll, h]

theorem latched_Holds (len : Nat) (h : acceptedLen len) :
    (SuperframeFilter.latched len).Holds [] := by
  refine ⟨⟨rfl, by simp [SuperframeFilter.latched], by simp [SuperframeFilter.latched],
    Nat.zero_le 5, fun _ => rfl, fun _ => h⟩, Nat.le_refl _,
    fun f hf => absurd hf (List.not_mem_nil f), ?_, fun _ => rfl⟩
  show List.take (0 * len) _ = _
  simp

theorem feedAll_new_eq (ext : Externals) (f : List Byte) (fs : List (List Byte))
    (h : acceptedLen f.length) :
    feedAll ext SuperframeFilter.new (f :: fs)
      = feedAll ext (SuperframeFilter.latched f.length) (f :: fs) := by
  have hL : f.length ≠ 0 := by have := h.1; omega
  obtain ⟨e1, -⟩ := feed_accumulate ext (SuperframeFilter.latched f.length) f []
    (latched_Holds _ h) hL rfl (show 0 < 4 by decide)
  unfold feedAll
  rw [feed_new_accepted ext f h, e1]
  rfl


/-- Feeding the five frames of a Superframe that passes the sync check to a new
filter, then the same five frames again: the second pass has a result and no
`FormatChange`. -/
theorem same_superframe_twice (ext : Externals) (f1 f2 f3 f4 f5 : List Byte)
    (t4 u s1 : SuperframeFilter) (evss4 : List (List Event)) (rs evs5 : List Event)
    (hacc : acceptedLen f1.length) (l2 : f2.length = f1.length) (l3 : f3.length = f1.length)
    (l4 : f4.length = f1.length) (l5 : f5.length = f1.length)
    (h4 : feedAll ext SuperframeFilter.new [f1, f2, f3, f4] = some (t4, evss4))
    (hsp : Feed.syncPoint ext t4 f5 = some (u, rs))
    (h5 : Feed ext t4 f5 = some (s1, evs5)) :
    ∃ s2 evss, feedAll ext s1 [f1, f2, f3, f4, f5] = some (s2, evss)
      ∧ countKind Kind.format (evss4.flatten ++ evs5 ++ evss.flatten) = 1 := by
  have hL : f1.length ≠ 0 := by have := hacc.1; omega
  -- first pass
  obtain ⟨t4a, v1, rs1, ha, hca, -, hsia, hsfa, hlena, -⟩ :=
    five_frames ext (SuperframeFilter.latched f1.length) f1 f2 f3 f4 f5 (latched_Holds _ hacc) rfl
      hL rfl l2 l3 l4 l5
  rw [feedAll_new_eq ext f1 _ hacc, ha] at h4
  simp only [Option.some.injEq, Prod.mk.injEq] at h4
  obtain ⟨rfl, rfl⟩ := h4
  have hw4 : t4a.WF := by
    have := feedAll_Holds ext _ _ t4a _ [] (latched_Holds _ hacc) ha
    exact this.1
  obtain ⟨v, hsi, hb, rfl⟩ := syncPoint_some ext t4a _ f5 rs hsp
  rw [hsia] at hsi
  simp only [Option.some.injEq, Prod.mk.injEq] at hsi
  obtain ⟨rfl, rfl⟩ := hsi
  obtain ⟨-, hs1, -, -, -, -, hall⟩ := feed_synced_events ext t4a _ s1 f5 rs1 evs5 hsp h5
  obtain ⟨hc5, -, hcache⟩ := feed_format_step ext t4a s1 f5 evs5 h5
  rw [hsp] at hc5 hcache
  dsimp only at hc5 hcache
  have hnone : cachedFormat t4a = none := by rw [hca]; rfl
  rw [hnone, if_neg (by simp)] at hc5
  obtain ⟨hh1, hc1, hL1, -⟩ := feed_after_sync ext t4a _ s1 f5 rs1 evs5 hw4 hsp h5
  obtain ⟨-, -, hlv, -⟩ := syncInput_WF ext t4a v1 f5 rs1 hw4 hsia
  have hfl1 : s1.frame_len = f1.length := by
    rw [hs1]
    exact (checkFormat_keeps _).1.trans ((recover_keeps _).1.trans
      ((checkSync_keeps ext v1).1.trans (hlv.trans l5)))
  have hsl1 : s1.sf_len = (SuperframeFilter.latched f1.length).sf_len := by
    rw [hh1.1.1, hfl1]; rfl
  -- second pass
  obtain ⟨t4b, v2, rs2, hb4, hcb, -, hsib, hsfb, hlenb, -⟩ :=
    five_frames ext s1 f1 f2 f3 f4 f5 hh1 hc1 hL1 hfl1.symm (l2.trans hfl1.symm)
      (l3.trans hfl1.symm) (l4.trans hfl1.symm) (l5.trans hfl1.symm)
  have hsf : v1.sf = v2.sf := by rw [hsfa, hsfb, hsl1]
  have hlen : v1.sf_len = v2.sf_len := by rw [hlena, hlenb, hsl1]
  obtain ⟨hb2, hn2, hsf2, hau2⟩ := CheckSync_congr ext v1 v2 hsf hlen hb
  have hall2 : ∀ i, i < (CheckSync ext v2).2.num_aus → 2 ≤ auLen (CheckSync ext v2).2.au_start i := by
    intro i hi
    rw [hn2] at hi
    unfold auLen
    rw [hau2 i (by omega), hau2 (i + 1) (by omega)]
    exact hall i hi
  have hsp2 : Feed.syncPoint ext t4b f5 = some ((CheckSync ext v2).2, rs2) := by
    rw [syncPoint_eq, hsib]
    dsimp only
    rw [if_pos hb2]
  obtain ⟨s1b, hclb, -⟩ := syncInput_some ext t4b v2 f5 rs2 hsib
  have hf2 : ∃ s2 evs10, Feed ext t4b f5 = some (s2, evs10) := by
    rw [feed_eq, hclb]
    dsimp only
    rw [hsib]
    dsimp only
    rw [if_pos hb2, synced_eq, if_pos hall2]
    exact ⟨_, _, rfl⟩
  obtain ⟨s2, evs10, hf2⟩ := hf2
  obtain ⟨hc10, -, -⟩ := feed_format_step ext t4b s2 f5 evs10 hf2
  rw [hsp2] at hc10
  dsimp only at hc10
  rw [hcb, hcache, hsf2, if_pos rfl] at hc10
  refine ⟨s2, [[], [], [], []] ++ [evs10], ?_, ?_⟩
  · rw [show [f1, f2, f3, f4, f5] = [f1, f2, f3, f4] ++ [f5] from rfl, feedAll_append, hb4]
    dsimp only
    rw [feedAll_singleton ext t4b s2 f5 evs10 hf2]
  · have e0 : countKind Kind.format ([[], [], [], []] : List (List Event)).flatten = 0 := rfl
    have e1 : ([[], [], [], []] ++ [evs10]).flatten = evs10 := by simp
    rw [countKind_append, countKind_append, hc5, e0, e1, hc10]


/-- C12: a call of `Feed` calls `FormatChange` once and builds one AAC decoder,
or does neither; it does so exactly when its sync check succeeds and either no
format was set before or the cached raw format byte differs from byte 2 of the
working buffer. So the five frames of a Superframe that passes the sync check,
fed twice in succession to a new filter, give one `FormatChange` in total. -/
theorem formatChange_iff (ext : Externals) (s t : SuperframeFilter) (data : List Byte)
    (evs : List Event) (hf : Feed ext s data = some (t, evs)) :
    ((countKind Kind.format evs = 1 ∧ countKind Kind.decoder evs = 1)
      ∨ (countKind Kind.format evs = 0 ∧ countKind Kind.decoder evs = 0))
    ∧ (countKind Kind.format evs = 1 ↔
        ∃ u rs, Feed.syncPoint ext s data = some (u, rs)
          ∧ (s.sf_format_set = false ∨ s.sf_format_raw ≠ u.sf.getD 2 0))
    ∧ (∀ (f1 f2 f3 f4 f5 : List Byte) (t4 u1 s1 : SuperframeFilter)
        (evss4 : List (List Event)) (rs1 evs5 : List Event),
        acceptedLen f1.length → f2.length = f1.length → f3.length = f1.length →
        f4.length = f1.length → f5.length = f1.length →
        feedAll ext SuperframeFilter.new [f1, f2, f3, f4] = some (t4, evss4) →
        Feed.syncPoint ext t4 f5 = some (u1, rs1) →
        Feed ext t4 f5 = some (s1, evs5) →
        ∃ s2 evss, feedAll ext s1 [f1, f2, f3, f4, f5] = some (s2, evss)
          ∧ countKind Kind.format (evss4.flatten ++ evs5 ++ evss.flatten) = 1) := by
  obtain ⟨h1, h2, -⟩ := feed_format_step ext s t data evs hf
  refine ⟨?_, ?_, fun f1 f2 f3 f4 f5 t4 u1 s1 evss4 rs1 evs5 hacc l2 l3 l4 l5 h4 hsp h5 =>
    same_superframe_twice ext f1 f2 f3 f4 f5 t4 u1 s1 evss4 rs1 evs5 hacc l2 l3 l4 l5 h4 hsp h5⟩
  · rw [h2, h1]
    cases Feed.syncPoint ext s data with
    | none => exact Or.inr ⟨rfl, rfl⟩
    | some r =>
      obtain ⟨u, rs⟩ := r
      dsimp only
      split_ifs
      · exact Or.inr ⟨rfl, rfl⟩
      · exact Or.inl ⟨rfl, rfl⟩
  · rw [h1]
    cases hsp : Feed.syncPoint ext s data with
    | none => simp
    | some r =>
      obtain ⟨u, rs⟩ := r
      dsimp only
      by_cases hc : cachedFormat s = some (u.sf.getD 2 0)
      · rw [if_pos hc]
        obtain ⟨hset, hraw⟩ := (cachedFormat_eq_some s _).1 hc
        constructor
        · intro h; exact absurd h (by decide)
        · rintro ⟨u', rs', he, hor⟩
          simp only [Option.some.injEq, Prod.mk.injEq] at he
          obtain ⟨rfl, rfl⟩ := he
          rcases hor with h | h
          · rw [hset] at h; exact absurd h (by decide)
          · exact absurd hraw h
      · rw [if_neg hc]
        refine ⟨fun _ => ⟨u, rs, rfl, ?_⟩, fun _ => rfl⟩
        by_cases hset : s.sf_format_set = true
        · exact Or.inr (fun hraw => hc ((cachedFormat_eq_some s _).2 ⟨hset, hraw⟩))
        · exact Or.inl (by simpa using hset)

/-- C14 fails as stated: for format byte 0x03 (surround configuration 3) and
frames of 96 bytes the text is "AAC-LC, 32 kHz Surround (unknown) (Mono core) @
32 kBit/s", which is none of the texts of the claimed form. -/
theorem formatText_not_claimed :
    formatText (decodeFormat 0x03) (5 * 96)
      = "AAC-LC, 32 kHz Surround (unknown) (Mono core) @ 32 kBit/s"
    ∧ formatText (decodeFormat 0x03) (5 * 96) ∉ claimedTexts (5 * 96 / 120 * 8) := by
  refine ⟨by decide!, by decide!⟩

theorem formatText_eq (d sbr ch ps : Bool) (m : Nat) (sf_len : Nat) (mode : String)
    (hmode : (m = 0 ∧ mode = (if ch || ps then "Stereo" else "Mono") ++ " ")
      ∨ (m = 1 ∧ mode = "Surround 5.1 (" ++ (if ch || ps then "Stereo" else "Mono") ++ " core) ")
      ∨ (m = 2 ∧ mode = "Surround 7.1 (" ++ (if ch || ps then "Stereo" else "Mono") ++ " core) ")
      ∨ (3 ≤ m ∧ mode
          = "Surround (unknown) (" ++ (if ch || ps then "Stereo" else "Mono") ++ " core) ")) :
    formatText ⟨d, sbr, ch, ps, m⟩ sf_len =
      (if sbr then (if ps then "HE-AAC v2" else "HE-AAC") else "AAC-LC") ++ ", "
        ++ (if d then "48" else "32") ++ " kHz " ++ mode
        ++ "@ " ++ toString (sf_len / 120 * 8) ++ " kBit/s" := by
  rcases hmode with ⟨rfl, rfl⟩ | ⟨rfl, rfl⟩ | ⟨rfl, rfl⟩ | ⟨hm, rfl⟩
  · unfold formatText
    simp only
    congr 3
    cases d <;> cases sbr <;> cases ch <;> cases ps <;> decide
  · unfold formatText
    simp only
    congr 3
    cases d <;> cases sbr <;> cases ch <;> cases ps <;> decide
  · unfold formatText
    simp only
    congr 3
    cases d <;> cases sbr <;> cases ch <;> cases ps <;> decide
  · obtain ⟨n, rfl⟩ : ∃ n, m = n + 3 := ⟨m - 3, by omega⟩
    have e : formatText ⟨d, sbr, ch, ps, n + 3⟩ sf_len = formatText ⟨d, sbr, ch, ps, 3⟩ sf_len :=
      rfl
    rw [e]
    unfold formatText
    simp only
    congr 3
    cases d <;> cases sbr <;> cases ch <;> cases ps <;> decide

/-- C14, amended: for a working buffer of `5 * L` bytes that passes the sync
check, `ProcessFormat` calls `FormatChange` with a text `codec, rate kHz mode@
bitrate kBit/s`: codec is HE-AAC v2 when sbr and ps are set, HE-AAC when only sbr
is, AAC-LC otherwise; rate is 48 when dac_rate is set and 32 otherwise; mode is
`core ` for surround configuration 0, `Surround 5.1 (core core) ` for 1,
`Surround 7.1 (core core) ` for 2 and `Surround (unknown) (core core) ` for 3 to
7, with core Stereo when the channel mode or ps is set and Mono otherwise; the
bit rate is `(5 * L / 120) * 8`. For format byte 0x20 and `L = 96` the text is
"HE-AAC, 32 kHz Mono @ 32 kBit/s". -/
theorem formatText_form (ext : Externals) (s t : SuperframeFilter) (L : Nat)
    (hlen : s.sf_len = 5 * L) (h : CheckSync ext s = (true, t)) :
    (∃ text, (ProcessFormat t).2 = [Event.FormatChange text, Event.NewDecoder (AACDecoder.new t.sf_format)]
      ∧ t.sf_format = decodeFormat (rd s.sf 2)
      ∧ ∃ codec rate core mode : String,
        text = codec ++ ", " ++ rate ++ " kHz " ++ mode ++ "@ " ++ toString (5 * L / 120 * 8)
                ++ " kBit/s"
        ∧ (codec = "HE-AAC v2" ∧ t.sf_format.sbr_flag = true ∧ t.sf_format.ps_flag = true
            ∨ codec = "HE-AAC" ∧ t.sf_format.sbr_flag = true ∧ t.sf_format.ps_flag = false
            ∨ codec = "AAC-LC" ∧ t.sf_format.sbr_flag = false)
        ∧ (rate = "48" ∧ t.sf_format.dac_rate = true ∨ rate = "32" ∧ t.sf_format.dac_rate = false)
        ∧ (core = "Stereo" ∧ (t.sf_format.aac_channel_mode = true ∨ t.sf_format.ps_flag = true)
            ∨ core = "Mono" ∧ t.sf_format.aac_channel_mode = false ∧ t.sf_format.ps_flag = false)
        ∧ (mode = core ++ " " ∧ t.sf_format.mpeg_surround_config = 0
            ∨ mode = "Surround 5.1 (" ++ core ++ " core) " ∧ t.sf_format.mpeg_surround_config = 1
            ∨ mode = "Surround 7.1 (" ++ core ++ " core) " ∧ t.sf_format.mpeg_surround_config = 2
            ∨ mode = "Surround (unknown) (" ++ core ++ " core) "
                ∧ 3 ≤ t.sf_format.mpeg_surround_config))
    ∧ formatText (decodeFormat 0x20) (5 * 96) = "HE-AAC, 32 kHz Mono @ 32 kBit/s" := by
  refine ⟨?_, by decide!⟩
  rw [CheckSync_true_iff] at h
  obtain ⟨-, -, -, rfl⟩ := h
  refine ⟨formatText (CheckSync.parsed s).sf_format (CheckSync.parsed s).sf_len, rfl, rfl, ?_⟩
  show ∃ codec rate core mode : String,
    formatText (CheckSync.parsed s).sf_format s.sf_len = _ ∧ _
  rw [hlen]
  generalize (CheckSync.parsed s).sf_format = f
  obtain ⟨d, sbr, ch, ps, m⟩ := f
  dsimp only
  have hm : m = 0 ∨ m = 1 ∨ m = 2 ∨ 3 ≤ m := by omega
  refine ⟨(if sbr then (if ps then "HE-AAC v2" else "HE-AAC") else "AAC-LC"),
    (if d then "48" else "32"), (if ch || ps then "Stereo" else "Mono"), ?_⟩
  rcases hm with rfl | rfl | rfl | hm
  · refine ⟨_, formatText_eq d sbr ch ps 0 _ _ (Or.inl ⟨rfl, rfl⟩), ?_, ?_, ?_, Or.inl ⟨rfl, rfl⟩⟩
    · cases sbr <;> cases ps <;> simp
    · cases d <;> simp
    · cases ch <;> cases ps <;> simp
  · refine ⟨_, formatText_eq d sbr ch ps 1 _ _ (Or.inr (Or.inl ⟨rfl, rfl⟩)), ?_, ?_, ?_,
      Or.inr (Or.inl ⟨rfl, rfl⟩)⟩
    · cases sbr <;> cases ps <;> simp
    · cases d <;> simp
    · cases ch <;> cases ps <;> simp
  · refine ⟨_, formatText_eq d sbr ch ps 2 _ _ (Or.inr (Or.inr (Or.inl ⟨rfl, rfl⟩))), ?_, ?_, ?_,
      Or.inr (Or.inr (Or.inl ⟨rfl, rfl⟩))⟩
    · cases sbr <;> cases ps <;> simp
    · cases d <;> simp
    · cases ch <;> cases ps <;> simp
  · refine ⟨_, formatText_eq d sbr ch ps m _ _ (Or.inr (Or.inr (Or.inr ⟨hm, rfl⟩))), ?_, ?_, ?_,
      Or.inr (Or.inr (Or.inr ⟨rfl, hm⟩))⟩
    · cases sbr <;> cases ps <;> simp
    · cases d <;> simp
    · cases ch <;> cases ps <;> simp

theorem chain_le (au : Nat → Int) (n : Nat) (h : ∀ i, i < n → au i < au (i + 1)) (i j : Nat)
    (hij : i ≤ j) (hj : j ≤ n) : au i ≤ au j := by
  induction j with
  | zero =>
    have : i = 0 := by omega
    rw [this]
  | succ j ih =>
    rcases Nat.lt_or_ge i (j + 1) with hlt | hge
    · have h1 := ih (by omega) (by omega)
      have h2 := h j (by omega)
      omega
    · have : i = j + 1 := by omega
      rw [this]

theorem checkSync_table (ext : Externals) (s t : SuperframeFilter)
    (h : CheckSync ext s = (true, t)) :
    0 ≤ t.au_start 0 ∧ (∀ i, i < t.num_aus → t.au_start i < t.au_start (i + 1))
    ∧ t.au_start t.num_aus = ((s.sf_len / 120 * 110 : Nat) : Int) := by
  rw [CheckSync_true_iff] at h
  obtain ⟨-, -, hord, rfl⟩ := h
  refine ⟨?_, (auDisorder_false_iff _ _).1 hord, auTable_sentinel _ _ _ _⟩
  show 0 ≤ auTable _ _ _ _ _ 0
  rw [auTable_zero]
  split_ifs <;> decide

/-- C15: on a filter reached by `Feed` calls from a new one, a call that gets to
the sync check has a frame length `L` with `L ≥ 10` and `5 * L` divisible by 120
and a working buffer of `5 * L > 10` bytes, so the reads of `CheckSync` at indices
0..10 are inside it. When the check succeeds, every AU has
`0 ≤ au_start[i] < au_start[i+1] ≤ (5 * L / 120) * 110`, and the buffer is those
`(5 * L / 120) * 110` bytes followed by `(5 * L / 120) * 10` parity bytes. -/
theorem au_ranges_in_bounds (ext : Externals) (s : SuperframeFilter) (data : List Byte)
    (hr : Reachable ext s) :
    (∀ v rs, Feed.syncInput ext s data = some (v, rs) →
        acceptedLen data.length ∧ v.sf.length = 5 * data.length ∧ 10 < v.sf.length)
    ∧ (∀ u rs, Feed.syncPoint ext s data = some (u, rs) →
        u.sf.length = 5 * data.length
        ∧ 5 * data.length / 120 * 110 + 5 * data.length / 120 * 10 = 5 * data.length
        ∧ ∀ i, i < u.num_aus →
            0 ≤ u.au_start i ∧ u.au_start i < u.au_start (i + 1)
            ∧ u.au_start (i + 1) ≤ ((5 * data.length / 120 * 110 : Nat) : Int)) := by
  have hw := reachable_WF ext s hr
  have key : ∀ v rs, Feed.syncInput ext s data = some (v, rs) →
      acceptedLen data.length ∧ v.sf.length = 5 * data.length ∧ v.sf_len = 5 * data.length := by
    intro v rs hsi
    obtain ⟨hwv, -, hl, hacc, -⟩ := syncInput_WF ext s v data rs hw hsi
    exact ⟨hacc, by rw [hwv.2.2.1, hwv.1, hl], by rw [hwv.1, hl]⟩
  refine ⟨fun v rs hsi => ?_, fun u rs hsp => ?_⟩
  · obtain ⟨hacc, h1, -⟩ := key v rs hsi
    have := hacc.1
    exact ⟨hacc, h1, by omega⟩
  · obtain ⟨v, hsi, hb, rfl⟩ := syncPoint_some ext s u data rs hsp
    obtain ⟨hacc, h1, h2⟩ := key v rs hsi
    have hk := checkSync_keeps_more ext v
    have hcs : CheckSync ext v = (true, (CheckSync ext v).2) := by rw [← hb]
    obtain ⟨h0, hinc, hlast⟩ := checkSync_table ext v _ hcs
    rw [h2] at hlast
    refine ⟨by rw [hk.2.2.1]; exact h1, ?_, fun i hi => ⟨?_, hinc i hi, ?_⟩⟩
    · have := hacc.2
      omega
    · have := chain_le _ _ hinc 0 i (Nat.zero_le i) (by omega)
      omega
    · rw [← hlast]
      exact chain_le _ _ hinc (i + 1) _ (by omega) (Nat.le_refl _)

theorem field_even (a b : Nat) (hb : b < 256) :
    a <<< 4 ||| b >>> 4 = 16 * a + b / 16 := by
  have h := Nat.mul_add_lt_is_or (i := 4) (b := b / 16) (by norm_num; omega) a
  rw [Nat.shiftLeft_eq, Nat.shiftRight_eq_div_pow, Nat.mul_comm a (2 ^ 4)]
  norm_num at h ⊢
  exact h.symm

theorem and_15 (b : Nat) : b &&& 0x0F = b % 16 := by
  have := Nat.and_pow_two_sub_one_eq_mod b 4
  simpa using this

theorem field_odd (b c : Nat) (hc : c < 256) :
    (b &&& 0x0F) <<< 8 ||| c = 256 * (b % 16) + c := by
  have h := Nat.mul_add_lt_is_or (i := 8) (b := c) (by norm_num; omega) (b % 16)
  rw [and_15, Nat.shiftLeft_eq, Nat.mul_comm (b % 16) (2 ^ 8)]
  norm_num at h ⊢
  exact h.symm

theorem readBits_zero (buf : List Byte) (off : Nat) : readBits buf off 0 = 0 := rfl

theorem readBits_succ (buf : List Byte) (off n : Nat) :
    readBits buf off (n + 1) = 2 * readBits buf off n + bitAt buf (off + n) := by
  unfold readBits
  rw [List.range_succ, List.foldl_append]
  rfl

theorem bitAt_byte (buf : List Byte) (n k : Nat) (hk : k < 8) :
    bitAt buf (8 * n + k) = rd buf n / 2 ^ (7 - k) % 2 := by
  unfold bitAt
  rw [Nat.shiftRight_eq_div_pow, Nat.and_one_is_mod]
  have e : (8 * n + k) / 8 = n := by omega
  have m : (8 * n + k) % 8 = k := by omega
  rw [e, m]

theorem bitAt_eq (buf : List Byte) (j q r : Nat) (h : j = 8 * q + r) (hr : r < 8) :
    bitAt buf j = rd buf q / 2 ^ (7 - r) % 2 := by
  rw [h]; exact bitAt_byte buf q r hr

/-- A 12-bit field that starts on a byte boundary: the byte and the high nibble of
the next one. -/
theorem readBits_even (buf : List Byte) (n : Nat) :
    readBits buf (8 * n) 12 = 16 * rd buf n + rd buf (n + 1) / 16 := by
  simp only [readBits_succ, readBits_zero]
  rw [bitAt_eq buf (8 * n + 0) n 0 (by omega) (by decide),
    bitAt_eq buf (8 * n + 1) n 1 (by omega) (by decide),
    bitAt_eq buf (8 * n + 2) n 2 (by omega) (by decide),
    bitAt_eq buf (8 * n + 3) n 3 (by omega) (by decide),
    bitAt_eq buf (8 * n + 4) n 4 (by omega) (by decide),
    bitAt_eq buf (8 * n + 5) n 5 (by omega) (by decide),
    bitAt_eq buf (8 * n + 6) n 6 (by omega) (by decide),
    bitAt_eq buf (8 * n + 7) n 7 (by omega) (by decide),
    bitAt_eq buf (8 * n + 8) (n + 1) 0 (by omega) (by decide),
    bitAt_eq buf (8 * n + 9) (n + 1) 1 (by omega) (by decide),
    bitAt_eq buf (8 * n + 10) (n + 1) 2 (by omega) (by decide),
    bitAt_eq buf (8 * n + 11) (n + 1) 3 (by omega) (by decide)]
  have ha := rd_lt buf n
  have hb := rd_lt buf (n + 1)
  norm_num
  omega

/-- A 12-bit field that starts in the middle of a byte: its low nibble and the
next byte. -/
theorem readBits_odd (buf : List Byte) (n : Nat) :
    readBits buf (8 * n + 4) 12 = 256 * (rd buf n % 16) + rd buf (n + 1) := by
  simp only [readBits_succ, readBits_zero]
  rw [bitAt_eq buf (8 * n + 4 + 0) n 4 (by omega) (by decide),
    bitAt_eq buf (8 * n + 4 + 1) n 5 (by omega) (by decide),
    bitAt_eq buf (8 * n + 4 + 2) n 6 (by omega) (by decide),
    bitAt_eq buf (8 * n + 4 + 3) n 7 (by omega) (by decide),
    bitAt_eq buf (8 * n + 4 + 4) (n + 1) 0 (by omega) (by decide),
    bitAt_eq buf (8 * n + 4 + 5) (n + 1) 1 (by omega) (by decide),
    bitAt_eq buf (8 * n + 4 + 6) (n + 1) 2 (by omega) (by decide),
    bitAt_eq buf (8 * n + 4 + 7) (n + 1) 3 (by omega) (by decide),
    bitAt_eq buf (8 * n + 4 + 8) (n + 1) 4 (by omega) (by decide),
    bitAt_eq buf (8 * n + 4 + 9) (n + 1) 5 (by omega) (by decide),
    bitAt_eq buf (8 * n + 4 + 10) (n + 1) 6 (by omega) (by decide),
    bitAt_eq buf (8 * n + 4 + 11) (n + 1) 7 (by omega) (by decide)]
  have ha := rd_lt buf n
  have hb := rd_lt buf (n + 1)
  norm_num
  omega

theorem CheckSync_snd_parsed (ext : Externals) (s : SuperframeFilter)
    (hz : ¬ (rd s.sf 3 = 0 ∧ rd s.sf 4 = 0))
    (hfire : (rd s.sf 0 <<< 8 ||| rd s.sf 1) % 65536
      = ext.CalcCRC_FIRE_CODE (slice s.sf 2 9) % 65536) :
    (CheckSync ext s).2 = CheckSync.parsed s := by
  unfold CheckSync CheckSync.parsed
  simp only
  rw [if_neg hz, if_neg (not_not.2 hfire)]
  split_ifs <;> rfl

/-- The packed fields of the AU table are the 12-bit fields of the bit reader. -/
theorem auTable_readBits (sf : List Byte) (sf_len : Nat) (f : SuperframeFormat) (au : Nat → Int)
    (k : Nat) (h1 : 1 ≤ k) (hk : k < numAUs f) :
    auTable sf sf_len f (numAUs f) au k = ((readBits sf (24 + 12 * (k - 1)) 12 : Nat) : Int) := by
  have e1 : readBits sf (24 + 12 * (1 - 1)) 12 = rd sf 3 <<< 4 ||| rd sf 4 >>> 4 := by
    rw [field_even _ _ (rd_lt _ _)]; exact readBits_even sf 3
  have e2 : readBits sf (24 + 12 * (2 - 1)) 12 = (rd sf 4 &&& 0x0F) <<< 8 ||| rd sf 5 := by
    rw [field_odd _ _ (rd_lt _ _)]; exact readBits_odd sf 4
  have e3 : readBits sf (24 + 12 * (3 - 1)) 12 = rd sf 6 <<< 4 ||| rd sf 7 >>> 4 := by
    rw [field_even _ _ (rd_lt _ _)]; exact readBits_even sf 6
  have e4 : readBits sf (24 + 12 * (4 - 1)) 12 = (rd sf 7 &&& 0x0F) <<< 8 ||| rd sf 8 := by
    rw [field_odd _ _ (rd_lt _ _)]; exact readBits_odd sf 7
  have e5 : readBits sf (24 + 12 * (5 - 1)) 12 = rd sf 9 <<< 4 ||| rd sf 10 >>> 4 := by
    rw [field_even _ _ (rd_lt _ _)]; exact readBits_even sf 9
  obtain ⟨d, sb, c, p, m⟩ := f
  unfold auTable numAUs at *
  cases d <;> cases sb <;> simp only [Bool.false_eq_true, if_true, if_false] at hk ⊢
  · have : k ≤ 3 := by omega
    interval_cases k
    · rw [e1]; simp [Function.update]
    · rw [e2]; simp [Function.update]
    · rw [e3]; simp [Function.update]
  · have : k ≤ 1 := by omega
    interval_cases k
    rw [e1]; simp [Function.update]
  · have : k ≤ 5 := by omega
    interval_cases k
    · rw [e1]; simp [Function.update]
    · rw [e2]; simp [Function.update]
    · rw [e3]; simp [Function.update]
    · rw [e4]; simp [Function.update]
    · rw [e5]; simp [Function.update]
  · have : k ≤ 2 := by omega
    interval_cases k
    · rw [e1]; simp [Function.update]
    · rw [e2]; simp [Function.update]

theorem readBits_lt (buf : List Byte) (off n : Nat) : readBits buf off n < 2 ^ n := by
  induction n with
  | zero => simp [readBits_zero]
  | succ n ih =>
    rw [readBits_succ, Nat.pow_succ]
    have : bitAt buf (off + n) < 2 := by
      unfold bitAt; rw [Nat.and_one_is_mod]; exact Nat.mod_lt _ (by decide)
    omega

/-- C17: for a working buffer that passes the zero guard and the Fire code,
`CheckSync` leaves the format decoded from byte 2, `num_aus` equal to
`dac_rate ? (sbr_flag ? 3 : 6) : (sbr_flag ? 2 : 4)`, and for every `k` with
`1 ≤ k < num_aus` the start `au_start[k]` equal to what the big-endian, MSB-first
bit reader `readBits` gives for the 12 bits at bit offset `24 + 12 * (k - 1)`;
that value is below 4096 and its bits lie in bytes 3..10, the five fields of
`num_aus = 6` running from byte 3 to byte 10. -/
theorem checkSync_bit_reader (ext : Externals) (s : SuperframeFilter)
    (hz : ¬ (rd s.sf 3 = 0 ∧ rd s.sf 4 = 0))
    (hfire : 256 * rd s.sf 0 + rd s.sf 1 = ext.CalcCRC_FIRE_CODE (slice s.sf 2 9) % 65536) :
    (CheckSync ext s).2.sf_format = decodeFormat (rd s.sf 2)
    ∧ (CheckSync ext s).2.num_aus =
        (if (CheckSync ext s).2.sf_format.dac_rate
          then (if (CheckSync ext s).2.sf_format.sbr_flag then 3 else 6)
          else (if (CheckSync ext s).2.sf_format.sbr_flag then 2 else 4))
    ∧ (∀ k, 1 ≤ k → k < (CheckSync ext s).2.num_aus →
        (CheckSync ext s).2.au_start k = ((readBits s.sf (24 + 12 * (k - 1)) 12 : Nat) : Int)
        ∧ (CheckSync ext s).2.au_start k < 4096
        ∧ ∀ j, j < 12 → 3 ≤ (24 + 12 * (k - 1) + j) / 8 ∧ (24 + 12 * (k - 1) + j) / 8 ≤ 10)
    ∧ ((CheckSync ext s).2.num_aus = 6 →
        (24 + 12 * (1 - 1)) / 8 = 3 ∧ (24 + 12 * (5 - 1) + 11) / 8 = 10) := by
  have hp := CheckSync_snd_parsed ext s hz
    (by rw [be16 _ _ (rd_lt _ _) (rd_lt _ _)]; exact hfire)
  rw [hp]
  refine ⟨rfl, rfl, fun k h1 hk => ?_, fun _ => ⟨by decide, by decide⟩⟩
  have hk6 : k < 6 := lt_of_lt_of_le hk (numAUs_le _).1
  have hv := auTable_readBits s.sf s.sf_len (decodeFormat (rd s.sf 2)) s.au_start k h1 hk
  have hlt := readBits_lt s.sf (24 + 12 * (k - 1)) 12
  refine ⟨hv, ?_, fun j hj => by omega⟩
  show auTable s.sf s.sf_len (decodeFormat (rd s.sf 2)) (numAUs (decodeFormat (rd s.sf 2)))
    s.au_start k < 4096
  rw [hv]
  have : (2 : Nat) ^ 12 = 4096 := by decide
  omega

theorem padCalls_append (a b : List Event) : padCalls (a ++ b) = padCalls a ++ padCalls b := by
  unfold padCalls; rw [List.filter_append]

theorem padCalls_flatten (l : List (List Event)) :
    padCalls l.flatten = (l.map padCalls).flatten := by
  induction l with
  | nil => rfl
  | cons a l ih => rw [List.flatten_cons, padCalls_append, ih]; rfl

theorem padCalls_length (evs : List Event) : (padCalls evs).length = countKind Kind.pad evs := by
  unfold padCalls countKind
  induction evs with
  | nil => rfl
  | cons e es ih =>
    rw [List.map_cons, List.filter_cons, List.count_cons]
    by_cases h : e.kind = Kind.pad
    · simp [h, ih]
    · simp [h, ih]

theorem padCalls_of_logs (evs : List Event)
    (h : evs.map Event.kind = [] ∨ evs.map Event.kind = [Kind.log]) : padCalls evs = [] := by
  have hl := padCalls_length evs
  unfold countKind at hl
  rcases h with h | h <;> rw [h] at hl <;> exact List.eq_nil_of_length_eq_zero hl

theorem padCalls_recover (s : SuperframeFilter) :
    padCalls (Feed.recover s).2 = if s.sync_frames ≠ 0 then ResetPAD else [] := by
  unfold Feed.recover
  split_ifs <;> rfl

theorem padCalls_checkFormat (s : SuperframeFilter) : padCalls (Feed.checkFormat s).2 = [] := by
  have hl := padCalls_length (Feed.checkFormat s).2
  rw [(countKind_checkFormat s).2.2] at hl
  exact List.eq_nil_of_length_eq_zero hl

theorem padCalls_auEvents (ext : Externals) (sf : List Byte) (au : Nat → Int) (i : Nat) :
    padCalls (Feed.auEvents ext sf au i) =
      [if auCrcStored sf au i ≠ auCrcCalced ext sf au i then Event.ProcessPAD none 0 true [0, 0]
       else if validPAD (auPayload sf au i) then
         Event.ProcessPAD
           (some (slice (auPayload sf au i) (padRegion (auPayload sf au i)).1
             ((padRegion (auPayload sf au i)).2 - 2)))
           ((padRegion (auPayload sf au i)).2 - 2) true
           (slice (auPayload sf au i)
             ((padRegion (auPayload sf au i)).1 + (padRegion (auPayload sf au i)).2 - 2) 2)
       else Event.ProcessPAD none 0 true [0, 0]] := by
  unfold Feed.auEvents auPayload validPAD
  simp only
  split_ifs with h1 h2
  · rfl
  · rw [CheckForPAD_eq, if_pos h2]; rfl
  · rw [CheckForPAD_eq, if_neg h2]; rfl

/-- The `ProcessPAD` callbacks of a call of `Feed` that has a result (every AU
of an accepted Superframe has at least two bytes). When the call passes the sync
check they are, in order: one reset call exactly when the sync counter was
non-zero on entry, then one call per AU in index order, `num_aus` of them; the
call of an AU is the reset call exactly when the CRC of the AU fails or its
payload carries no valid PAD. A call that does not pass the sync check makes no
`ProcessPAD` callback. -/
theorem processPAD_per_AU (ext : Externals) (s t : SuperframeFilter) (data : List Byte)
    (evs : List Event) (hf : Feed ext s data = some (t, evs)) :
    (∀ u rs, Feed.syncPoint ext s data = some (u, rs) →
      ∃ pads : List Event,
        padCalls evs = (if s.sync_frames ≠ 0 then [Event.ProcessPAD none 0 true [0, 0]] else [])
          ++ pads
        ∧ pads = (List.range u.num_aus).map (fun i =>
            (padCalls (Feed.auEvents ext u.sf u.au_start i)).getD 0 (Event.Log ""))
        ∧ pads.length = u.num_aus
        ∧ u.num_aus = numAUs (decodeFormat (rd u.sf 2))
        ∧ countKind Kind.pad evs = u.num_aus + (if s.sync_frames ≠ 0 then 1 else 0)
        ∧ ∀ i, i < u.num_aus →
            padCalls (Feed.auEvents ext u.sf u.au_start i) = [pads.getD i (Event.Log "")]
            ∧ (pads.getD i (Event.Log "") = Event.ProcessPAD none 0 true [0, 0] ↔
                (auCrcStored u.sf u.au_start i ≠ auCrcCalced ext u.sf u.au_start i
                 ∨ ¬ validPAD (auPayload u.sf u.au_start i))))
    ∧ (Feed.syncPoint ext s data = none → padCalls evs = [] ∧ countKind Kind.pad evs = 0) := by
  refine ⟨fun u rs hsp => ?_, fun hsp => ?_⟩
  · obtain ⟨he, -, hsy, -, -, hrs, -⟩ := feed_synced_events ext s u t data rs evs hsp hf
    have hone : ∀ i, padCalls (Feed.auEvents ext u.sf u.au_start i)
        = [(padCalls (Feed.auEvents ext u.sf u.au_start i)).getD 0 (Event.Log "")] := by
      intro i; rw [padCalls_auEvents]; rfl
    have hpads : padCalls evs
        = (if s.sync_frames ≠ 0 then [Event.ProcessPAD none 0 true [0, 0]] else [])
          ++ (List.range u.num_aus).map (fun i =>
            (padCalls (Feed.auEvents ext u.sf u.au_start i)).getD 0 (Event.Log "")) := by
      rw [he, padCalls_append, padCalls_append, padCalls_append, padCalls_of_logs rs hrs,
        padCalls_recover, padCalls_checkFormat, padCalls_flatten, hsy, List.nil_append,
        List.append_nil, List.map_map]
      congr 1
      induction u.num_aus with
      | zero => rfl
      | succ n ih =>
        rw [List.range_succ, List.map_append, List.map_append, List.flatten_append, ih]
        congr 1
        simp only [List.map_cons, List.map_nil, List.flatten_cons, List.flatten_nil,
          List.append_nil, Function.comp]
        exact hone n
    obtain ⟨v, -, hv, rfl⟩ := syncPoint_some ext s _ data rs hsp
    have hu := CheckSync_snd_of_true ext v hv
    refine ⟨_, hpads, rfl, by simp, ?_, ?_, fun i hi => ?_⟩
    · rw [hu]; rfl
    · rw [← padCalls_length, hpads]
      split_ifs <;> simp
    · have hg : ((List.range (CheckSync ext v).2.num_aus).map (fun i =>
          (padCalls (Feed.auEvents ext (CheckSync ext v).2.sf (CheckSync ext v).2.au_start
            i)).getD 0 (Event.Log ""))).getD i (Event.Log "")
          = (padCalls (Feed.auEvents ext (CheckSync ext v).2.sf (CheckSync ext v).2.au_start
            i)).getD 0 (Event.Log "") := by
        rw [List.getD_eq_getElem?_getD, List.getElem?_map, List.getElem?_range hi]
        rfl
      rw [hg]
      refine ⟨hone i, ?_⟩
      rw [padCalls_auEvents]
      simp only [List.getD_cons_zero]
      split_ifs with h1 h2
      · simp [h1]
      · simp [h1, h2]
      · simp [h1, h2]
  · have h0 := (feed_unsynced ext s t data evs hsp hf).1 Kind.pad (by decide)
    refine ⟨?_, h0⟩
    rw [← padCalls_length] at h0
    exact List.eq_nil_of_length_eq_zero h0

theorem append_ne_of_take (k : Nat) (p x q : String) (hk : k ≤ p.data.length)
    (h : p.data.take k ≠ q.data.take k) : p ++ x ≠ q := by
  intro e
  apply h
  have := congrArg (fun s => s.data.take k) e
  simp only [String.data_append, List.take_append_of_le_length hk] at this
  exact this

theorem ne_append_of_take (k : Nat) (p x q : String) (hk : k ≤ p.data.length)
    (h : p.data.take k ≠ q.data.take k) : q ≠ p ++ x :=
  fun e => append_ne_of_take k p x q hk h e.symm

theorem append_ne_append_of_take (k : Nat) (p x q y : String) (hk : k ≤ p.data.length)
    (hq : k ≤ q.data.length) (h : p.data.take k ≠ q.data.take k) : p ++ x ≠ q ++ y := by
  intro e
  apply h
  have := congrArg (fun s => s.data.take k) e
  simp only [String.data_append, List.take_append_of_le_length hk,
    List.take_append_of_le_length hq] at this
  exact this

/-- The line the RS pass prints is neither of the two sync messages. -/
theorem rsLog_not_sync (ext : Externals) (s : SuperframeFilter) :
    Event.Log "SuperframeFilter: Superframe sync started...\n" ∉ (Feed.decodeRS ext s).2
    ∧ ∀ n : Nat, Event.Log ("SuperframeFilter: Superframe sync succeeded after " ++ toString n
        ++ " frame(s)\n") ∉ (Feed.decodeRS ext s).2 := by
  unfold Feed.decodeRS DecodeSuperframe
  simp only
  split_ifs <;> first
    | exact ⟨List.not_mem_nil _, fun n => List.not_mem_nil _⟩
    | (simp only [List.mem_singleton, Event.Log.injEq, String.append_assoc]
       exact ⟨ne_append_of_take 1 _ _ _ (by decide) (by decide),
         fun n => append_ne_append_of_take 1 _ _ _ _ (by decide) (by decide) (by decide)⟩)

/-- The rejection of a frame by its length prints neither of the two sync
messages. -/
theorem checkLen_not_sync (s : SuperframeFilter) (len : Nat) (msg : String)
    (h : Feed.checkLen s len = .error msg) :
    msg ≠ "SuperframeFilter: Superframe sync started...\n"
    ∧ ∀ n : Nat, msg ≠ "SuperframeFilter: Superframe sync succeeded after " ++ toString n
        ++ " frame(s)\n" := by
  unfold Feed.checkLen at h
  split_ifs at h <;> simp only [Except.error.injEq, reduceCtorEq] at h <;> subst h <;>
    simp only [String.append_assoc] <;>
    exact ⟨append_ne_of_take 19 _ _ _ (by decide) (by decide),
      fun n => append_ne_append_of_take 19 _ _ _ _ (by decide) (by decide) (by decide)⟩

/-- The events of an AU are neither of the two sync messages. -/
theorem auEvents_not_sync (ext : Externals) (sf : List Byte) (au : Nat → Int) (i : Nat) :
    Event.Log "SuperframeFilter: Superframe sync started...\n" ∉ Feed.auEvents ext sf au i
    ∧ ∀ n : Nat, Event.Log ("SuperframeFilter: Superframe sync succeeded after " ++ toString n
        ++ " frame(s)\n") ∉ Feed.auEvents ext sf au i := by
  unfold Feed.auEvents
  simp only
  split_ifs
  · simp only [ResetPAD, List.mem_append, List.mem_singleton, Event.Log.injEq, reduceCtorEq,
      or_false, String.append_assoc]
    exact ⟨ne_append_of_take 1 _ _ _ (by decide) (by decide),
      fun n => append_ne_append_of_take 1 _ _ _ _ (by decide) (by decide) (by decide)⟩
  · rw [CheckForPAD_eq]
    split_ifs <;> simp

theorem checkFormat_not_log (s : SuperframeFilter) (m : String) :
    Event.Log m ∉ (Feed.checkFormat s).2 := by
  unfold Feed.checkFormat ProcessFormat
  split_ifs <;> simp

theorem recover_log (s : SuperframeFilter) :
    Event.Log "SuperframeFilter: Superframe sync started...\n" ∉ (Feed.recover s).2
    ∧ (s.sync_frames ≠ 0 → Event.Log ("SuperframeFilter: Superframe sync succeeded after "
        ++ toString s.sync_frames ++ " frame(s)\n") ∈ (Feed.recover s).2)
    ∧ (∀ m, Event.Log m ∈ (Feed.recover s).2 → s.sync_frames ≠ 0) := by
  unfold Feed.recover
  split_ifs with h
  · refine ⟨?_, fun _ => by simp, fun _ _ => h⟩
    simp only [ResetPAD, List.mem_append, List.mem_singleton, Event.Log.injEq, reduceCtorEq,
      or_false, String.append_assoc]
    exact ne_append_of_take 36 _ _ _ (by decide) (by decide)
  · exact ⟨List.not_mem_nil _, fun h2 => absurd h2 h, fun m hm => absurd hm (List.not_mem_nil _)⟩

/-- One call of `Feed`: what it does to the sync counter and which of the two
sync messages it prints, by the result of its sync check. -/
theorem feed_sync_step (ext : Externals) (s t : SuperframeFilter) (data : List Byte)
    (evs : List Event) (hf : Feed ext s data = some (t, evs)) :
    (syncOutcome ext s data = none →
      t.sync_frames = s.sync_frames
      ∧ Event.Log "SuperframeFilter: Superframe sync started...\n" ∉ evs
      ∧ ∀ n : Nat, Event.Log ("SuperframeFilter: Superframe sync succeeded after "
          ++ toString n ++ " frame(s)\n") ∉ evs)
    ∧ (syncOutcome ext s data = some false →
      t.sync_frames = s.sync_frames + 1
      ∧ (Event.Log "SuperframeFilter: Superframe sync started...\n" ∈ evs ↔ s.sync_frames = 0)
      ∧ evs.count (Event.Log "SuperframeFilter: Superframe sync started...\n") ≤ 1
      ∧ ∀ n : Nat, Event.Log ("SuperframeFilter: Superframe sync succeeded after "
          ++ toString n ++ " frame(s)\n") ∉ evs)
    ∧ (syncOutcome ext s data = some true →
      t.sync_frames = 0
      ∧ Event.Log "SuperframeFilter: Superframe sync started...\n" ∉ evs
      ∧ (s.sync_frames ≠ 0 → Event.Log ("SuperframeFilter: Superframe sync succeeded after "
          ++ toString s.sync_frames ++ " frame(s)\n") ∈ evs)
      ∧ ∀ n : Nat, Event.Log ("SuperframeFilter: Superframe sync succeeded after "
          ++ toString n ++ " frame(s)\n") ∈ evs → s.sync_frames ≠ 0) := by
  rw [feed_eq] at hf
  unfold syncOutcome
  cases hsi : Feed.syncInput ext s data with
  | none =>
    refine ⟨fun _ => ?_, fun h => absurd h (by simp), fun h => absurd h (by simp)⟩
    rw [hsi] at hf
    cases hcl : Feed.checkLen s data.length with
    | error msg =>
      rw [hcl] at hf
      simp only [Option.some.injEq, Prod.mk.injEq] at hf
      obtain ⟨rfl, rfl⟩ := hf
      obtain ⟨h1, h2⟩ := checkLen_not_sync s _ msg hcl
      refine ⟨rfl, ?_, fun n => ?_⟩
      · simp only [List.mem_singleton, Event.Log.injEq]; exact fun e => h1 e.symm
      · simp only [List.mem_singleton, Event.Log.injEq]; exact fun e => h2 n e.symm
    | ok s1 =>
      rw [hcl] at hf
      simp only [Option.some.injEq, Prod.mk.injEq] at hf
      obtain ⟨rfl, rfl⟩ := hf
      exact ⟨(addFrame_keeps_more s1 data).2.1.trans (checkLen_keeps s s1 _ hcl).1,
        List.not_mem_nil _, fun n => List.not_mem_nil _⟩
  | some r =>
    obtain ⟨v, rs⟩ := r
    obtain ⟨s1, hcl, -, rfl, rfl⟩ := syncInput_some ext s _ data _ hsi
    obtain ⟨k1, -, -, -⟩ := syncInput_keeps ext s _ data _ hsi
    obtain ⟨r1, r2⟩ := rsLog_not_sync ext (Feed.addFrame s1 data)
    have hk := (checkSync_keeps_more ext (Feed.decodeRS ext (Feed.addFrame s1 data)).1).2.1
    rw [hsi, hcl] at hf
    simp only [Option.map_some'] at hf ⊢
    refine ⟨fun h => absurd h (by simp), fun hb => ?_, fun hb => ?_⟩
    · simp only [Option.some.injEq] at hb
      rw [if_neg (by rw [hb]; decide)] at hf
      simp only [Option.some.injEq, Prod.mk.injEq] at hf
      obtain ⟨rfl, rfl⟩ := hf
      rw [hk, k1]
      refine ⟨rfl, ?_, ?_, fun n => ?_⟩
      · by_cases h0 : s.sync_frames = 0
        · simp [h0]
        · simp only [h0, if_false, List.append_nil, iff_false]; exact r1
      · rw [List.count_append, List.count_eq_zero_of_not_mem r1]
        split_ifs <;> simp
      · rw [List.mem_append]
        rintro (h | h)
        · exact r2 n h
        · split_ifs at h
          · simp only [List.mem_singleton, Event.Log.injEq, String.append_assoc] at h
            exact append_ne_of_take 36 _ _ _ (by decide) (by decide) h
          · exact absurd h (List.not_mem_nil _)
    · simp only [Option.some.injEq] at hb
      rw [if_pos hb, synced_eq] at hf
      by_cases hall : ∀ i, i < (CheckSync ext (Feed.decodeRS ext (Feed.addFrame s1 data)).1).2.num_aus →
          2 ≤ auLen (CheckSync ext (Feed.decodeRS ext (Feed.addFrame s1 data)).1).2.au_start i
      swap
      · rw [if_neg hall] at hf; exact absurd hf (by simp)
      rw [if_pos hall] at hf
      simp only [Option.map_some', Option.some.injEq, Prod.mk.injEq] at hf
      obtain ⟨rfl, rfl⟩ := hf
      obtain ⟨q1, q2, q3⟩ := recover_log (CheckSync ext (Feed.decodeRS ext (Feed.addFrame s1 data)).1).2
      rw [hk, k1] at q2 q3
      have haus : ∀ m, Event.Log m ∈ ((List.range
          (CheckSync ext (Feed.decodeRS ext (Feed.addFrame s1 data)).1).2.num_aus).map
          (Feed.auEvents ext (CheckSync ext (Feed.decodeRS ext (Feed.addFrame s1 data)).1).2.sf
            (CheckSync ext (Feed.decodeRS ext (Feed.addFrame s1 data)).1).2.au_start)).flatten →
          ∃ i, Event.Log m ∈ Feed.auEvents ext
            (CheckSync ext (Feed.decodeRS ext (Feed.addFrame s1 data)).1).2.sf
            (CheckSync ext (Feed.decodeRS ext (Feed.addFrame s1 data)).1).2.au_start i := by
        intro m hm
        rw [List.mem_flatten] at hm
        obtain ⟨l, hl, hml⟩ := hm
        rw [List.mem_map] at hl
        obtain ⟨i, -, rfl⟩ := hl
        exact ⟨i, hml⟩
      refine ⟨?_, ?_, fun h0 => ?_, fun n hn => ?_⟩
      · exact (checkFormat_keeps_more _).2.2.1.trans (recover_keeps_more _).2.2.2.2
      · simp only [List.mem_append, not_or]
        refine ⟨r1, ⟨q1, checkFormat_not_log _ _⟩, fun h => ?_⟩
        obtain ⟨i, hi⟩ := haus _ h
        exact (auEvents_not_sync ext _ _ i).1 hi
      · simp only [List.mem_append]
        exact Or.inr (Or.inl (Or.inl (q2 h0)))
      · simp only [List.mem_append] at hn
        rcases hn with h | (h | h) | h
        · exact absurd h (r2 n)
        · exact q3 _ h
        · exact absurd h (checkFormat_not_log _ _)
        · obtain ⟨i, hi⟩ := haus _ h
          exact absurd hi ((auEvents_not_sync ext _ _ i).2 n)

theorem trailingFails_snoc (l : List Bool) (b : Bool) :
    trailingFails (l ++ [b]) = if b then 0 else trailingFails l + 1 := by
  unfold trailingFails
  rw [List.reverse_append, List.reverse_singleton, List.singleton_append, List.takeWhile_cons]
  cases b <;> simp

theorem syncOutcomes_append (ext : Externals) (a b : List (List Byte)) (s t : SuperframeFilter)
    (ea : List (List Event)) (h : feedAll ext s a = some (t, ea)) :
    syncOutcomes ext s (a ++ b) = syncOutcomes ext s a ++ syncOutcomes ext t b := by
  induction a generalizing s ea with
  | nil =>
    simp only [feedAll, Option.some.injEq, Prod.mk.injEq] at h
    rw [h.1]; rfl
  | cons f fs ih =>
    unfold feedAll at h
    cases hf : Feed ext s f with
    | none => rw [hf] at h; exact absurd h (by simp)
    | some r =>
      obtain ⟨s1, evs⟩ := r
      rw [hf] at h
      dsimp only at h
      cases hr : feedAll ext s1 fs with
      | none => rw [hr] at h; exact absurd h (by simp)
      | some r2 =>
        obtain ⟨s2, evss⟩ := r2
        rw [hr] at h
        simp only [Option.some.injEq, Prod.mk.injEq] at h
        obtain ⟨rfl, -⟩ := h
        have e : ∀ l, syncOutcomes ext s (f :: l)
            = (syncOutcome ext s f).toList ++ syncOutcomes ext s1 l := by
          intro l
          rw [syncOutcomes, hf]
        rw [List.cons_append, e, e, ih s1 evss hr, List.append_assoc]

/-- The sync counter after a run of `Feed` calls from a filter with counter 0. -/
theorem feedAll_sync_frames (ext : Externals) (s0 : SuperframeFilter) (h0 : s0.sync_frames = 0)
    (fs : List (List Byte)) :
    ∀ s evss, feedAll ext s0 fs = some (s, evss) →
      s.sync_frames = trailingFails (syncOutcomes ext s0 fs) := by
  induction fs using List.reverseRecOn with
  | nil =>
    intro s evss h
    simp only [feedAll, Option.some.injEq, Prod.mk.injEq] at h
    rw [← h.1, h0]; rfl
  | append_singleton a f ih =>
    intro s evss h
    rw [feedAll_append] at h
    cases ha : feedAll ext s0 a with
    | none => rw [ha] at h; exact absurd h (by simp)
    | some r =>
      obtain ⟨s1, ea⟩ := r
      rw [ha] at h
      dsimp only at h
      cases hf : Feed ext s1 f with
      | none =>
        unfold feedAll at h
        rw [hf] at h; exact absurd h (by simp)
      | some r2 =>
        obtain ⟨s2, evs⟩ := r2
        rw [feedAll_singleton ext s1 s2 f evs hf] at h
        simp only [Option.some.injEq, Prod.mk.injEq] at h
        obtain ⟨rfl, -⟩ := h
        have hi := ih s1 ea ha
        obtain ⟨c1, c2, c3⟩ := feed_sync_step ext s1 s2 f evs hf
        rw [syncOutcomes_append ext a [f] s0 s1 ea ha]
        have e1 : syncOutcomes ext s1 [f] = (syncOutcome ext s1 f).toList := by
          unfold syncOutcomes
          rw [hf]
          simp [syncOutcomes]
        rw [e1]
        cases ho : syncOutcome ext s1 f with
        | none => rw [(c1 ho).1, hi]; simp
        | some b =>
          cases b with
          | false =>
            rw [(c2 ho).1, hi, Option.toList_some, trailingFails_snoc]; rfl
          | true =>
            rw [(c3 ho).1, Option.toList_some, trailingFails_snoc]; rfl

/-- C20: after any run of `Feed` calls on a new filter, `sync_frames` is the
number of failed sync checks since the last successful one (or since the
start). A call whose check fails adds one to it, a call whose check succeeds
leaves it 0, a call without a check leaves it as it was. "sync started" is
printed, once, exactly by the call that takes the counter from 0 to 1. A call
whose check succeeds with a non-zero counter prints "sync succeeded after n
frame(s)" with `n` the counter on entry, and no other call prints such a line.
So a failed check on a counter of 0 followed by a successful one prints "sync
succeeded after 1 frame(s)". -/
theorem sync_counter (ext : Externals) (fs : List (List Byte)) (s : SuperframeFilter)
    (evss : List (List Event)) (data : List Byte) (t : SuperframeFilter) (evs : List Event)
    (hrun : feedAll ext SuperframeFilter.new fs = some (s, evss))
    (hf : Feed ext s data = some (t, evs)) :
    s.sync_frames = trailingFails (syncOutcomes ext SuperframeFilter.new fs)
    ∧ (syncOutcome ext s data = some false → t.sync_frames = s.sync_frames + 1)
    ∧ (syncOutcome ext s data = some true → t.sync_frames = 0)
    ∧ (syncOutcome ext s data = none → t.sync_frames = s.sync_frames)
    ∧ (Event.Log "SuperframeFilter: Superframe sync started...\n" ∈ evs
        ↔ s.sync_frames = 0 ∧ t.sync_frames = 1)
    ∧ evs.count (Event.Log "SuperframeFilter: Superframe sync started...\n") ≤ 1
    ∧ (syncOutcome ext s data = some true → s.sync_frames ≠ 0 →
        Event.Log ("SuperframeFilter: Superframe sync succeeded after "
          ++ toString s.sync_frames ++ " frame(s)\n") ∈ evs)
    ∧ (∀ n : Nat, Event.Log ("SuperframeFilter: Superframe sync succeeded after "
          ++ toString n ++ " frame(s)\n") ∈ evs →
        syncOutcome ext s data = some true ∧ s.sync_frames ≠ 0)
    ∧ (∀ data2 t2 evs2, s.sync_frames = 0 → syncOutcome ext s data = some false →
        Feed ext t data2 = some (t2, evs2) → syncOutcome ext t data2 = some true →
        Event.Log "SuperframeFilter: Superframe sync succeeded after 1 frame(s)\n" ∈ evs2) := by
  obtain ⟨c1, c2, c3⟩ := feed_sync_step ext s t data evs hf
  refine ⟨feedAll_sync_frames ext _ rfl fs s evss hrun, fun h => (c2 h).1, fun h => (c3 h).1,
    fun h => (c1 h).1, ?_, ?_, fun h => (c3 h).2.2.1, fun n hn => ?_, ?_⟩
  · cases ho : syncOutcome ext s data with
    | none =>
      obtain ⟨a, b, -⟩ := c1 ho
      constructor
      · intro h; exact absurd h b
      · rintro ⟨h0, h1⟩; omega
    | some b =>
      cases b with
      | false =>
        obtain ⟨a, b, -⟩ := c2 ho
        rw [b]
        constructor
        · intro h; exact ⟨h, by omega⟩
        · exact fun h => h.1
      | true =>
        obtain ⟨a, b, -⟩ := c3 ho
        constructor
        · intro h; exact absurd h b
        · rintro ⟨h0, h1⟩; omega
  · cases ho : syncOutcome ext s data with
    | none => rw [List.count_eq_zero_of_not_mem (c1 ho).2.1]; exact Nat.zero_le 1
    | some b =>
      cases b with
      | false => exact (c2 ho).2.2.1
      | true => rw [List.count_eq_zero_of_not_mem (c3 ho).2.1]; exact Nat.zero_le 1
  · cases ho : syncOutcome ext s data with
    | none => exact absurd hn ((c1 ho).2.2 n)
    | some b =>
      cases b with
      | false => exact absurd hn ((c2 ho).2.2.2 n)
      | true => exact ⟨rfl, (c3 ho).2.2.2 n hn⟩
  · intro data2 t2 evs2 h0 hfail hf2 hok
    have ht : t.sync_frames = 1 := by rw [(c2 hfail).1, h0]
    obtain ⟨-, -, d3⟩ := feed_sync_step ext t t2 data2 evs2 hf2
    have := (d3 hok).2.2.1 (by omega)
    rw [ht] at this
    exact this

theorem getD_set (l : List Byte) (a idx : Nat) (v : Byte) (ha : a < l.length) :
    (l.set a v).getD idx 0 = if idx = a then v else l.getD idx 0 := by
  rw [List.getD_eq_getElem?_getD, List.getD_eq_getElem?_getD, List.getElem?_set]
  by_cases h : a = idx
  · subst h; simp [ha]
  · rw [if_neg h, if_neg (fun e => h e.symm)]

/-- A run of stores whose value is a function of the index stored to. -/
theorem foldl_set_getD (g : Nat → Byte) (ws : List (Nat × Byte)) (sf : List Byte)
    (hv : ∀ p ∈ ws, p.2 = g p.1) (hb : ∀ p ∈ ws, p.1 < sf.length) (idx : Nat) :
    (ws.foldl (fun sf p => sf.set p.1 p.2) sf).getD idx 0
      = if idx ∈ ws.map Prod.fst then g idx else sf.getD idx 0 := by
  induction ws generalizing sf with
  | nil => simp
  | cons p ws ih =>
    rw [List.foldl_cons, ih (sf.set p.1 p.2) (fun q hq => hv q (List.mem_cons_of_mem _ hq))
      (fun q hq => by rw [List.length_set]; exact hb q (List.mem_cons_of_mem _ hq))]
    rw [getD_set sf p.1 idx p.2 (hb p (List.mem_cons_self _ _))]
    by_cases h1 : idx ∈ ws.map Prod.fst
    · rw [if_pos h1, if_pos (by rw [List.map_cons]; exact List.mem_cons_of_mem _ h1)]
    · rw [if_neg h1]
      by_cases h2 : idx = p.1
      · rw [if_pos h2, if_pos (by rw [List.map_cons, h2]; exact List.mem_cons_self _ _),
          hv p (List.mem_cons_self _ _), h2]
      · rw [if_neg h2, if_neg]
        rw [List.map_cons, List.mem_cons]
        rintro (h | h)
        · exact h2 h
        · exact h1 h

theorem foldl_filterMap_set (g : Nat → Option (Nat × Byte)) (l : List Nat) (sf : List Byte) :
    l.foldl (fun sf j => match g j with
        | none => sf
        | some p => sf.set p.1 p.2) sf
      = (l.filterMap g).foldl (fun sf p => sf.set p.1 p.2) sf := by
  induction l generalizing sf with
  | nil => rfl
  | cons j l ih =>
    rw [List.foldl_cons, List.filterMap_cons]
    cases hg : g j with
    | none => simp only [hg]; exact ih sf
    | some p => simp only [hg]; rw [List.foldl_cons]; exact ih _

/-- The buffer a pass of the loop over the RS packets leaves: the corrections of
the packet stored into the buffer the pass started from. -/
theorem packet_eq (dec : List Byte → RSResult) (K : Nat) (acc : List Byte × Int × Bool)
    (i : Nat) :
    (DecodeSuperframe.packet dec K acc i).1
      = (DecodeSuperframe.corrections (dec (codeword acc.1 K i)) K i).foldl
          (fun sf p => sf.set p.1 p.2) acc.1 := by
  unfold DecodeSuperframe.packet DecodeSuperframe.corrections codeword
  simp only
  rw [← foldl_filterMap_set]
  congr 1
  funext sf j
  split_ifs <;> rfl

theorem codeword_length (sf : List Byte) (K i : Nat) : (codeword sf K i).length = 120 := by
  unfold codeword; simp

theorem codeword_getD (sf : List Byte) (K i pos : Nat) (h : pos < 120) :
    (codeword sf K i).getD pos 0 = sf.getD (pos * K + i) 0 := by
  unfold codeword
  rw [List.getD_eq_getElem?_getD, List.getElem?_map, List.getElem?_range h]
  rfl

theorem codeword_congr (a b : List Byte) (K i : Nat)
    (h : ∀ pos, pos < 120 → a.getD (pos * K + i) 0 = b.getD (pos * K + i) 0) :
    codeword a K i = codeword b K i := by
  unfold codeword
  apply List.map_congr_left
  intro pos hp
  exact h pos (List.mem_range.1 hp)

theorem codeword_eq_of_getD (a : List Byte) (K i : Nat) (q : List Byte) (hq : q.length = 120)
    (h : ∀ pos, pos < 120 → a.getD (pos * K + i) 0 = q.getD pos 0) : codeword a K i = q := by
  apply List.ext_getElem (by rw [codeword_length, hq])
  intro n h1 h2
  have e1 := codeword_getD a K i n (by rw [codeword_length] at h1; exact h1)
  rw [List.getD_eq_getElem?_getD, List.getElem?_eq_getElem h1] at e1
  have e2 : q.getD n 0 = q[n] := by
    rw [List.getD_eq_getElem?_getD, List.getElem?_eq_getElem h2]; rfl
  rw [← e2, ← h n (by rw [codeword_length] at h1; exact h1)]
  exact e1

theorem mem_corrections (r : RSResult) (K i : Nat) (p : Nat × Byte) :
    p ∈ DecodeSuperframe.corrections r K i ↔
      ∃ j n : Nat, j < r.corr_count.toNat ∧ r.corr_pos.getD j 0 = ((n + 135 : Nat) : Int)
        ∧ p = (n * K + i, r.rs_packet.getD n 0) := by
  unfold DecodeSuperframe.corrections
  rw [List.mem_filterMap]
  constructor
  · rintro ⟨j, hj, h⟩
    simp only at h
    split_ifs at h with hneg
    simp only [Option.some.injEq] at h
    refine ⟨j, (r.corr_pos.getD j 0 - 135).toNat, List.mem_range.1 hj, ?_, h.symm⟩
    push_cast
    omega
  · rintro ⟨j, n, hj, hn, rfl⟩
    refine ⟨j, List.mem_range.2 hj, ?_⟩
    simp only
    have e : r.corr_pos.getD j 0 - 135 = (n : Int) := by rw [hn]; push_cast; omega
    rw [e, if_neg (by omega)]
    rfl

/-- The corrections of a decoder that corrects in place stay inside the packet. -/
theorem corrections_in_packet (dec : List Byte → RSResult) (hdec : RSCorrectsInPlace dec)
    (p : List Byte) (hp : p.length = 120) (K i : Nat) (w : Nat × Byte)
    (hw : w ∈ DecodeSuperframe.corrections (dec p) K i) :
    ∃ n, n < 120 ∧ w = (n * K + i, (dec p).rs_packet.getD n 0) := by
  obtain ⟨j, n, hj, hn, rfl⟩ := (mem_corrections _ K i w).1 hw
  obtain ⟨hl, hc⟩ := hdec p hp
  have hne : (dec p).corr_count ≠ -1 := by
    intro e; rw [e] at hj; exact absurd hj (Nat.not_lt_zero j)
  have hch := ((hc hne) n).2 ⟨j, hj, hn⟩
  refine ⟨n, ?_, rfl⟩
  by_contra hge
  apply hch
  rw [List.getD_eq_default _ _ (by omega), List.getD_eq_default _ _ (by omega)]

theorem mul_add_mod_lt (pos K i : Nat) (hi : i < K) : (pos * K + i) % K = i := by
  rw [Nat.add_comm, Nat.add_mul_mod_self_right, Nat.mod_eq_of_lt hi]

theorem mul_add_inj (K i a b : Nat) (hK : 0 < K) (h : a * K + i = b * K + i) : a = b := by
  have := Nat.add_right_cancel h
  exact Nat.eq_of_mul_eq_mul_right hK this

/-- One pass of the loop over the RS packets on a buffer of `K` interleaved
codewords, for a decoder that corrects in place. -/
theorem packet_spec (dec : List Byte → RSResult) (hdec : RSCorrectsInPlace dec) (K : Nat)
    (acc : List Byte × Int × Bool) (i : Nat) (hi : i < K) (hlen : 120 * K ≤ acc.1.length) :
    (∀ idx, idx % K ≠ i →
        (DecodeSuperframe.packet dec K acc i).1.getD idx 0 = acc.1.getD idx 0)
    ∧ (∀ pos, pos < 120 →
        (DecodeSuperframe.packet dec K acc i).1.getD (pos * K + i) 0
          = if (dec (codeword acc.1 K i)).corr_count = -1 then acc.1.getD (pos * K + i) 0
            else (dec (codeword acc.1 K i)).rs_packet.getD pos 0)
    ∧ (∀ w ∈ DecodeSuperframe.corrections (dec (codeword acc.1 K i)) K i, w.1 < acc.1.length) := by
  have hK : 0 < K := by omega
  have hin := corrections_in_packet dec hdec (codeword acc.1 K i) (codeword_length _ _ _) K i
  have hb : ∀ w ∈ DecodeSuperframe.corrections (dec (codeword acc.1 K i)) K i,
      w.1 < acc.1.length := by
    intro w hw
    obtain ⟨n, hn, rfl⟩ := hin w hw
    show n * K + i < acc.1.length
    have : n * K + K ≤ 120 * K := by
      rw [← Nat.succ_mul]; exact Nat.mul_le_mul_right K hn
    omega
  have hv : ∀ w ∈ DecodeSuperframe.corrections (dec (codeword acc.1 K i)) K i,
      w.2 = (fun idx => (dec (codeword acc.1 K i)).rs_packet.getD (idx / K) 0) w.1 := by
    intro w hw
    obtain ⟨n, hn, rfl⟩ := hin w hw
    show _ = (dec (codeword acc.1 K i)).rs_packet.getD ((n * K + i) / K) 0
    have : (n * K + i) / K = n := by
      rw [Nat.add_comm, Nat.add_mul_div_right _ _ hK, Nat.div_eq_of_lt hi, Nat.zero_add]
    rw [this]
  have hg := foldl_set_getD
    (fun idx => (dec (codeword acc.1 K i)).rs_packet.getD (idx / K) 0) _ acc.1 hv hb
  rw [← packet_eq] at hg
  refine ⟨fun idx hidx => ?_, fun pos hpos => ?_, hb⟩
  · rw [hg, if_neg]
    rw [List.mem_map]
    rintro ⟨w, hw, rfl⟩
    obtain ⟨n, hn, rfl⟩ := hin w hw
    exact hidx (mul_add_mod_lt n K i hi)
  · rw [hg]
    have hdiv : (pos * K + i) / K = pos := by
      rw [Nat.add_comm, Nat.add_mul_div_right _ _ hK, Nat.div_eq_of_lt hi, Nat.zero_add]
    by_cases hc : (dec (codeword acc.1 K i)).corr_count = -1
    · rw [if_pos hc, if_neg]
      rw [List.mem_map]
      rintro ⟨w, hw, -⟩
      obtain ⟨j, n, hj, -, -⟩ := (mem_corrections _ K i w).1 hw
      rw [hc] at hj
      exact absurd hj (Nat.not_lt_zero j)
    · rw [if_neg hc]
      by_cases hm : pos * K + i ∈ (DecodeSuperframe.corrections (dec (codeword acc.1 K i)) K i).map
          Prod.fst
      · rw [if_pos hm]
        show (dec (codeword acc.1 K i)).rs_packet.getD ((pos * K + i) / K) 0 = _
        rw [hdiv]
      · rw [if_neg hm, ← codeword_getD acc.1 K i pos hpos]
        by_contra hne
        apply hm
        obtain ⟨j, hj, hcp⟩ := (((hdec _ (codeword_length acc.1 K i)).2 hc) pos).1
          (fun e => hne e.symm)
        rw [List.mem_map]
        exact ⟨(pos * K + i, (dec (codeword acc.1 K i)).rs_packet.getD pos 0),
          (mem_corrections _ K i _).2 ⟨j, pos, hj, hcp, rfl⟩, rfl⟩

/-- The buffer after the first `c` passes of the loop over the RS packets. -/
theorem packets_spec (dec : List Byte → RSResult) (hdec : RSCorrectsInPlace dec) (K : Nat)
    (sf : List Byte) (hlen : 120 * K ≤ sf.length) (c : Nat) (hc : c ≤ K) :
    ((List.range c).foldl (DecodeSuperframe.packet dec K) (sf, 0, false)).1.length = sf.length
    ∧ (∀ idx, c ≤ idx % K →
        ((List.range c).foldl (DecodeSuperframe.packet dec K) (sf, 0, false)).1.getD idx 0
          = sf.getD idx 0)
    ∧ (∀ i, i < c → ∀ pos, pos < 120 →
        ((List.range c).foldl (DecodeSuperframe.packet dec K) (sf, 0, false)).1.getD
            (pos * K + i) 0
          = if (dec (codeword sf K i)).corr_count = -1 then sf.getD (pos * K + i) 0
            else (dec (codeword sf K i)).rs_packet.getD pos 0) := by
  induction c with
  | zero =>
    exact ⟨rfl, fun _ _ => rfl, fun i hi => absurd hi (Nat.not_lt_zero i)⟩
  | succ c ih =>
    obtain ⟨h1, h2, h3⟩ := ih (by omega)
    rw [List.range_succ, List.foldl_append, List.foldl_cons, List.foldl_nil]
    have hcw : codeword ((List.range c).foldl (DecodeSuperframe.packet dec K) (sf, 0, false)).1
        K c = codeword sf K c :=
      codeword_congr _ _ K c (fun pos _ => h2 _ (by rw [mul_add_mod_lt pos K c (by omega)]))
    obtain ⟨p1, p2, -⟩ := packet_spec dec hdec K
      ((List.range c).foldl (DecodeSuperframe.packet dec K) (sf, 0, false)) c (by omega)
      (by rw [h1]; exact hlen)
    rw [hcw] at p2
    refine ⟨by rw [packet_length, h1], fun idx hidx => ?_, fun i hi pos hpos => ?_⟩
    · rw [p1 idx (by omega)]
      exact h2 idx (by omega)
    · by_cases hic : i = c
      · subst hic
        rw [p2 pos hpos, h2 _ (by rw [mul_add_mod_lt pos K i (by omega)])]
      · rw [p1 _ (by rw [mul_add_mod_lt pos K i (by omega)]; exact hic)]
        exact h3 i (by omega) pos hpos

theorem zeroHeadDecoder_correctsInPlace : RSCorrectsInPlace zeroHeadDecoder := by
  intro p hp
  unfold zeroHeadDecoder
  split_ifs with h1 h0
  · exact ⟨hp, fun h => absurd rfl h⟩
  · refine ⟨hp, fun _ pos => ?_⟩
    simp
  · refine ⟨by rw [List.length_set]; exact hp, fun _ pos => ?_⟩
    simp only [getD_set p 0 pos 0 (by omega)]
    have e : (1 : Int).toNat = 1 := rfl
    rw [e]
    constructor
    · intro h
      refine ⟨0, Nat.zero_lt_one, ?_⟩
      by_cases hpos : pos = 0
      · subst hpos; rfl
      · rw [if_neg hpos] at h; exact absurd rfl h
    · rintro ⟨j, hj, hcp⟩
      have hj0 : j = 0 := by omega
      subst hj0
      have hpos : pos = 0 := by
        simp only [List.getD_cons_zero] at hcp
        omega
      subst hpos
      rw [if_pos rfl]
      exact fun e => h0 e.symm

/-- C19: for a decoder that corrects its 120-byte packet in place and reports
the positions it changed, offset by 135, `DecodeSuperframe` on a buffer of
`sf_len` bytes, `K = sf_len / 120` interleaved codewords, keeps the length of the
buffer and, for every `i < K`: pass `i` decodes codeword `i` of the buffer as it
was on entry; the bytes at the positions `pos * K + i` are afterwards the
decoder's corrected packet when it reports a count other than -1 (as it does
for a codeword with at most 5 byte errors) and are unchanged when it reports -1;
every store of the correction loop and every position of the codeword is inside
the buffer. -/
theorem decodeSuperframe_codewords (dec : List Byte → RSResult) (sf : List Byte) (sf_len : Nat)
    (hdec : RSCorrectsInPlace dec) (hlen : sf.length = sf_len) :
    (DecodeSuperframe dec sf sf_len).1.length = sf.length
    ∧ ∀ i, i < sf_len / 120 →
        codeword ((List.range i).foldl (DecodeSuperframe.packet dec (sf_len / 120))
            (sf, 0, false)).1 (sf_len / 120) i = codeword sf (sf_len / 120) i
        ∧ ((dec (codeword sf (sf_len / 120) i)).corr_count ≠ -1 →
            codeword (DecodeSuperframe dec sf sf_len).1 (sf_len / 120) i
              = (dec (codeword sf (sf_len / 120) i)).rs_packet)
        ∧ ((dec (codeword sf (sf_len / 120) i)).corr_count = -1 →
            codeword (DecodeSuperframe dec sf sf_len).1 (sf_len / 120) i
              = codeword sf (sf_len / 120) i)
        ∧ (∀ w ∈ DecodeSuperframe.corrections (dec (codeword sf (sf_len / 120) i))
              (sf_len / 120) i, w.1 < sf.length)
        ∧ ∀ pos, pos < 120 → pos * (sf_len / 120) + i < sf.length := by
  have hK : 120 * (sf_len / 120) ≤ sf.length := by rw [hlen]; exact Nat.mul_div_le sf_len 120
  refine ⟨DecodeSuperframe_length dec sf sf_len, fun i hi => ?_⟩
  obtain ⟨a1, a2, -⟩ := packets_spec dec hdec (sf_len / 120) sf hK i (by omega)
  obtain ⟨-, -, b3⟩ := packets_spec dec hdec (sf_len / 120) sf hK (sf_len / 120) (Nat.le_refl _)
  have hcw : codeword ((List.range i).foldl (DecodeSuperframe.packet dec (sf_len / 120))
      (sf, 0, false)).1 (sf_len / 120) i = codeword sf (sf_len / 120) i :=
    codeword_congr _ _ _ i (fun pos _ => a2 _ (by rw [mul_add_mod_lt pos _ i hi]))
  obtain ⟨-, -, p3⟩ := packet_spec dec hdec (sf_len / 120)
    ((List.range i).foldl (DecodeSuperframe.packet dec (sf_len / 120)) (sf, 0, false)) i hi
    (by rw [a1]; exact hK)
  rw [hcw, a1] at p3
  have hout : (DecodeSuperframe dec sf sf_len).1
      = ((List.range (sf_len / 120)).foldl (DecodeSuperframe.packet dec (sf_len / 120))
          (sf, 0, false)).1 := rfl
  refine ⟨hcw, fun hc => ?_, fun hc => ?_, p3, fun pos hpos => ?_⟩
  · apply codeword_eq_of_getD _ _ _ _ (hdec _ (codeword_length _ _ _)).1
    intro pos hpos
    rw [hout, b3 i hi pos hpos, if_neg hc]
  · apply codeword_congr
    intro pos hpos
    rw [hout, b3 i hi pos hpos, if_pos hc]
  · have : pos * (sf_len / 120) + sf_len / 120 ≤ 120 * (sf_len / 120) := by
      rw [← Nat.succ_mul]; exact Nat.mul_le_mul_right _ hpos
    omega

theorem feedAll_filterAfter (ext : Externals) (fs : List (List Byte))
    (h : (feedAll ext SuperframeFilter.new fs).isSome = true) :
    ∃ evss, feedAll ext SuperframeFilter.new fs = some (filterAfter ext fs, evss) := by
  unfold filterAfter
  cases hr : feedAll ext SuperframeFilter.new fs with
  | none => rw [hr] at h; exact absurd h (by simp)
  | some r => exact ⟨r.2, rfl⟩

theorem reachable_feedAll (ext : Externals) (fs : List (List Byte)) (s t : SuperframeFilter)
    (evss : List (List Event)) (hs : Reachable ext s) (h : feedAll ext s fs = some (t, evss)) :
    Reachable ext t := by
  induction fs generalizing s evss with
  | nil =>
    simp only [feedAll, Option.some.injEq, Prod.mk.injEq] at h
    rw [← h.1]; exact hs
  | cons f fs ih =>
    unfold feedAll at h
    cases hf : Feed ext s f with
    | none => rw [hf] at h; exact absurd h (by simp)
    | some r =>
      obtain ⟨s1, evs⟩ := r
      rw [hf] at h
      dsimp only at h
      cases hr : feedAll ext s1 fs with
      | none => rw [hr] at h; exact absurd h (by simp)
      | some r2 =>
        obtain ⟨s2, evss2⟩ := r2
        rw [hr] at h
        simp only [Option.some.injEq, Prod.mk.injEq] at h
        obtain ⟨rfl, -⟩ := h
        exact ih s1 evss2 (Reachable.feed hs hf) hr

theorem filterC4_run :
    ∃ evss, feedAll refExternals SuperframeFilter.new ((framesOf sfC).take 4)
      = some (filterC4, evss) :=
  feedAll_filterAfter refExternals _ (by decide!)

theorem filterC4_reachable : Reachable refExternals filterC4 := by
  obtain ⟨evss, h⟩ := filterC4_run
  exact reachable_feedAll refExternals _ _ _ evss Reachable.init h

/-- Witness of C11: after the first four frames of `sfC`, the call on the fifth
frame runs the sync check, on a raw buffer that is `sfC`, the five frames in
order. -/
theorem feed_sync_window_witness :
    ∃ v rs, Feed.syncInput refExternals filterC4 frameC5 = some (v, rs) ∧ v.sf_raw = sfC := by
  obtain ⟨evss, h⟩ := filterC4_run
  obtain ⟨v, hsi, -, -⟩ := syncPoint_some refExternals filterC4 _ frameC5 _ syncPointC
  exact ⟨v, _, hsi,
    ((feed_sync_window refExternals _ filterC4 evss h).1 frameC5 v _ hsi).1.trans (by decide!)⟩

/-- Witness of C12: the call that completes the Superframe `sfC` on a filter that
has no format yet passes the sync check and calls `FormatChange` once. -/
theorem formatChange_iff_witness :
    Feed refExternals filterC4 frameC5 = some (resultC.1, resultC.2)
    ∧ countKind Kind.format resultC.2 = 1 :=
  ⟨feedC, (formatChange_iff refExternals filterC4 resultC.1 frameC5 resultC.2 feedC).2.1.2
    ⟨syncC.1, syncC.2, syncPointC, Or.inl (by decide!)⟩⟩

/-- Witness of C13: the three Superframes with format bytes 0x20, 0x28, 0x20 are
accepted one after the other and `FormatChange` is called three times. -/
theorem formatChange_count_witness :
    ∃ t evss, feedAll refExternals SuperframeFilter.new framesABA = some (t, evss)
      ∧ countKind Kind.format evss.flatten = 3 := by
  obtain ⟨evss, h⟩ := feedAll_filterAfter refExternals framesABA (by decide!)
  exact ⟨_, evss, h,
    (formatChange_count refExternals framesABA SuperframeFilter.new _ evss h).trans (by decide!)⟩

/-- Witness of C14: the filter holding `sfA`, with `sf_len = 5 * 24`, passes the
sync check; the text for format byte 0x20 and frames of 96 bytes. -/
theorem formatText_form_witness :
    CheckSync refExternals filterA = (true, CheckSync.parsed filterA)
    ∧ filterA.sf_len = 5 * 24
    ∧ formatText (decodeFormat 0x20) (5 * 96) = "HE-AAC, 32 kHz Mono @ 32 kBit/s" :=
  ⟨filterA_sync, rfl,
    (formatText_form refExternals filterA (CheckSync.parsed filterA) 24 rfl filterA_sync).2⟩

/-- Witness of C15: the filter after four frames of `sfC` is reachable, and the
six AUs of the accepted Superframe `sfC` lie in order inside its first 110
bytes. -/
theorem au_ranges_in_bounds_witness :
    Reachable refExternals filterC4
    ∧ ∀ i, i < syncC.1.num_aus →
        0 ≤ syncC.1.au_start i ∧ syncC.1.au_start i < syncC.1.au_start (i + 1)
        ∧ syncC.1.au_start (i + 1) ≤ ((5 * frameC5.length / 120 * 110 : Nat) : Int) :=
  ⟨filterC4_reachable,
    ((au_ranges_in_bounds refExternals filterC4 frameC5 filterC4_reachable).2
      syncC.1 syncC.2 syncPointC).2.2⟩

/-- Witness of C16: a working buffer of zero bytes has a valid Fire code (the CRC
of nine zero bytes is the word 0 stored in bytes 0..1) and is rejected. -/
theorem checkSync_accepts_iff_witness :
    refExternals.CalcCRC_FIRE_CODE (slice filter96.sf 2 9) % 65536
        = 256 * rd filter96.sf 0 + rd filter96.sf 1
    ∧ (CheckSync refExternals filter96).1 = false :=
  ⟨by decide!, (checkSync_accepts_iff refExternals filter96).2 ⟨by decide!, by decide!⟩⟩

/-- Witness of C17: the buffer `sfC` passes the zero guard and the Fire code,
has six AUs, and the start of AU 5 is the 12-bit field at bit offset 72, the
value 90. -/
theorem checkSync_bit_reader_witness :
    (CheckSync refExternals filterC).2.num_aus = 6
    ∧ (CheckSync refExternals filterC).2.au_start 5
        = ((readBits filterC.sf (24 + 12 * (5 - 1)) 12 : Nat) : Int)
    ∧ readBits filterC.sf (24 + 12 * (5 - 1)) 12 = 90 :=
  ⟨by decide!,
    ((checkSync_bit_reader refExternals filterC (by decide!) (by decide!)).2.2.1 5 (by decide)
      (by decide!)).1,
    by decide!⟩

/-- The call that completes the Superframe `sfC`, six AUs of at least two bytes
and the sync counter at zero, calls `ProcessPAD` six times. -/
theorem processPAD_per_AU_witness :
    Feed refExternals filterC4 frameC5 = some (resultC.1, resultC.2)
    ∧ countKind Kind.pad resultC.2 = 6 := by
  obtain ⟨pads, -, -, -, -, hc, -⟩ :=
    (processPAD_per_AU refExternals filterC4 resultC.1 frameC5 resultC.2 feedC).1
      syncC.1 syncC.2 syncPointC
  exact ⟨feedC, hc.trans (by decide!)⟩

/-- Witness of C19: `zeroHeadDecoder` corrects in place; on `sfInterleaved`, two
interleaved codewords, codeword 0 is left as the corrected packet of 120 zero
bytes and codeword 1, reported uncorrectable, is left as it was. -/
theorem decodeSuperframe_codewords_witness :
    RSCorrectsInPlace zeroHeadDecoder ∧ sfInterleaved.length = 240
    ∧ codeword (DecodeSuperframe zeroHeadDecoder sfInterleaved 240).1 (240 / 120) 0
        = List.replicate 120 0
    ∧ codeword (DecodeSuperframe zeroHeadDecoder sfInterleaved 240).1 (240 / 120) 1
        = codeword sfInterleaved (240 / 120) 1 :=
  ⟨zeroHeadDecoder_correctsInPlace, rfl,
    (((decodeSuperframe_codewords zeroHeadDecoder sfInterleaved 240
      zeroHeadDecoder_correctsInPlace rfl).2 0 (by decide)).2.1 (by decide!)).trans (by decide!),
    ((decodeSuperframe_codewords zeroHeadDecoder sfInterleaved 240
      zeroHeadDecoder_correctsInPlace rfl).2 1 (by decide)).2.2.1 (by decide!)⟩

theorem feedZ5 :
    Feed refExternals filterZ4 (slice sfA 72 24) = some (resultZ5.1, resultZ5.2) := by
  rw [Prod.mk.eta]
  unfold resultZ5
  exact getD_of_isSome _ _ (by decide!)

theorem feedZ6 :
    Feed refExternals resultZ5.1 (slice sfA 96 24) = some (resultZ6.1, resultZ6.2) := by
  rw [Prod.mk.eta]
  unfold resultZ6
  exact getD_of_isSome _ _ (by decide!)

/-- Witness of C20: with a frame of zero bytes ahead of the frames of `sfA`, the
first window fails the sync check and the counter goes from 0 to 1; the next
window is `sfA` and the call prints "sync succeeded after 1 frame(s)". -/
theorem sync_counter_witness :
    Feed refExternals filterZ4 (slice sfA 72 24) = some (resultZ5.1, resultZ5.2)
    ∧ Feed refExternals resultZ5.1 (slice sfA 96 24) = some (resultZ6.1, resultZ6.2)
    ∧ resultZ5.1.sync_frames = 1
    ∧ Event.Log "SuperframeFilter: Superframe sync succeeded after 1 frame(s)\n" ∈ resultZ6.2 := by
  obtain ⟨evss, h⟩ := feedAll_filterAfter refExternals
    (List.replicate 24 0 :: (framesOf sfA).take 3) (by decide!)
  have hs := sync_counter refExternals _ filterZ4 evss (slice sfA 72 24) resultZ5.1 resultZ5.2
    h feedZ5
  have h0 : filterZ4.sync_frames = 0 := hs.1.trans (by decide!)
  have hfail : syncOutcome refExternals filterZ4 (slice sfA 72 24) = some false := by decide!
  refine ⟨feedZ5, feedZ6, ?_, ?_⟩
  · rw [hs.2.1 hfail, h0]
  · exact hs.2.2.2.2.2.2.2.2 (slice sfA 96 24) resultZ6.1 resultZ6.2 h0 hfail feedZ6 (by decide!)

theorem syncPointD :
    Feed.syncPoint refExternals filterD4 frameD5 = some (syncD.1, syncD.2) := by
  rw [Prod.mk.eta]
  unfold syncD
  exact getD_of_isSome _ _ (by decide!)

/-- C21 does not hold of the code: the five frames of `sfD` (valid Fire code,
format byte 0x20, first start field 6, valid RS parity) pass the sync check
with `au_start[0] = 5` and `au_start[1] = 6`, so AU 0 has length 1; `au_len - 2`
is then `2 ^ 64 - 1` as a `size_t`, far beyond the working buffer, and the call of
`Feed` has no defined result. -/
theorem checkSync_accepts_one_byte_AU :
    Feed.syncPoint refExternals filterD4 frameD5 = some (syncD.1, syncD.2)
    ∧ syncD.1.sf = sfD
    ∧ syncD.1.num_aus = 2 ∧ syncD.1.au_start 0 = 5 ∧ syncD.1.au_start 1 = 6
    ∧ auLen syncD.1.au_start 0 = 1
    ∧ auLenMinus2 syncD.1.au_start 0 = 2 ^ 64 - 1
    ∧ syncD.1.sf.length < auLenMinus2 syncD.1.au_start 0
    ∧ Feed refExternals filterD4 frameD5 = none :=
  ⟨syncPointD, by decide!, by decide!, by decide!, by decide!, by decide!, by decide!,
    by decide!, Option.isNone_iff_eq_none.1 (by decide!)⟩

theorem auTable_one (sf : List Byte) (sf_len : Nat) (f : SuperframeFormat) (au : Nat → Int) :
    auTable sf sf_len f (numAUs f) au 1 = ((rd sf 3 <<< 4 ||| rd sf 4 >>> 4 : Nat) : Int) := by
  unfold auTable numAUs
  cases f.dac_rate <;> cases f.sbr_flag <;> simp [Function.update]

theorem auTable_zero_pos (sf : List Byte) (sf_len : Nat) (f : SuperframeFormat)
    (au : Nat → Int) : 5 ≤ auTable sf sf_len f (numAUs f) au 0 := by
  rw [auTable_zero]
  split_ifs <;> decide

/-- With bytes 3 and 4 both zero the decoded table starts out of order. -/
theorem zero_fields_disorder (s : SuperframeFilter) (hz : rd s.sf 3 = 0 ∧ rd s.sf 4 = 0) :
    (CheckSync.parsed s).au_start 1 = 0
    ∧ (CheckSync.parsed s).au_start 1 < (CheckSync.parsed s).au_start 0
    ∧ auDisorder (CheckSync.parsed s).num_aus (CheckSync.parsed s).au_start = true := by
  have h1 : (CheckSync.parsed s).au_start 1 = 0 := by
    show auTable s.sf s.sf_len (decodeFormat (rd s.sf 2)) (numAUs (decodeFormat (rd s.sf 2)))
      s.au_start 1 = 0
    rw [auTable_one, hz.1, hz.2]
    rfl
  have h0 : 5 ≤ (CheckSync.parsed s).au_start 0 :=
    auTable_zero_pos s.sf s.sf_len (decodeFormat (rd s.sf 2)) s.au_start
  refine ⟨h1, by omega, ?_⟩
  cases hd : auDisorder (CheckSync.parsed s).num_aus (CheckSync.parsed s).au_start with
  | true => rfl
  | false =>
    have := (auDisorder_false_iff _ _).1 hd 0
      (lt_of_lt_of_le (by decide) (numAUs_le (decodeFormat (rd s.sf 2))).2)
    rw [Nat.zero_add] at this
    omega

/-- C22: for every working buffer, `CheckSync` with the test on bytes 3 and 4
removed returns the same accept/reject result as `CheckSync`; with bytes 3 and 4
both zero the decoded `au_start[1]` is 0, below `au_start[0]`, and the check of
the order of the start offsets rejects. -/
theorem checkSync_zero_guard_subsumed (ext : Externals) (s : SuperframeFilter) :
    (CheckSync.withoutZeroGuard ext s).1 = (CheckSync ext s).1
    ∧ (rd s.sf 3 = 0 ∧ rd s.sf 4 = 0 →
        (CheckSync.parsed s).au_start 1 = 0
        ∧ (CheckSync.parsed s).au_start 1 < (CheckSync.parsed s).au_start 0
        ∧ (CheckSync.withoutZeroGuard ext s).1 = false) := by
  have key : ∀ hz : rd s.sf 3 = 0 ∧ rd s.sf 4 = 0,
      (CheckSync.withoutZeroGuard ext s).1 = false := by
    intro hz
    have hd := (zero_fields_disorder s hz).2.2
    unfold CheckSync.withoutZeroGuard
    simp only
    split_ifs with h1 h2
    · rfl
    · rfl
    · exact absurd hd h2
  refine ⟨?_, fun hz => ⟨(zero_fields_disorder s hz).1, (zero_fields_disorder s hz).2.1, key hz⟩⟩
  by_cases hz : rd s.sf 3 = 0 ∧ rd s.sf 4 = 0
  · rw [key hz]
    unfold CheckSync
    simp only
    rw [if_pos hz]
  · unfold CheckSync.withoutZeroGuard CheckSync
    simp only
    rw [if_neg hz]

theorem addFrame_count (s : SuperframeFilter) (data : List Byte) :
    (Feed.addFrame s data).frame_count = if s.frame_count = 5 then 5 else s.frame_count + 1 := by
  unfold Feed.addFrame
  simp only
  split_ifs with h
  · exact h
  · rfl

/-- One call of `Feed` keeps: the filter holds five frames exactly while the
sync counter is above zero. -/
theorem feed_count_sync (ext : Externals) (s t : SuperframeFilter) (data : List Byte)
    (evs : List Event) (hw : s.WF) (hinv : s.frame_count = 5 ↔ 0 < s.sync_frames)
    (hf : Feed ext s data = some (t, evs)) :
    (t.frame_count = 5 ↔ 0 < t.sync_frames) := by
  cases hsi : Feed.syncInput ext s data with
  | none =>
    rcases syncInput_none ext s data hsi with ⟨msg, hcl⟩ | ⟨s1, hcl, hlt⟩
    · rw [feed_of_error ext s data msg hcl] at hf
      simp only [Option.some.injEq, Prod.mk.injEq] at hf
      rw [← hf.1]; exact hinv
    · rw [feed_eq, hcl, hsi] at hf
      simp only [Option.some.injEq, Prod.mk.injEq] at hf
      obtain ⟨rfl, -⟩ := hf
      obtain ⟨k1, -, -, k4⟩ := checkLen_keeps s s1 _ hcl
      have hs := (addFrame_keeps_more s1 data).2.1
      have hc := addFrame_count s1 data
      have hne : s1.frame_count ≠ 5 := by
        intro h5; rw [hc, if_pos h5] at hlt; exact absurd hlt (by decide)
      have h0 : s.sync_frames = 0 := by
        by_contra hpos
        exact hne (k4.trans (hinv.2 (Nat.pos_of_ne_zero hpos)))
      rw [hs, k1, h0]
      constructor
      · intro h5; rw [h5] at hlt; exact absurd hlt (by decide)
      · intro h; exact absurd h (by decide)
  | some r =>
    obtain ⟨v, rs⟩ := r
    cases hb : (CheckSync ext v).1 with
    | false =>
      obtain ⟨-, h5, -, -, hsy⟩ := feed_after_fail ext s v t data rs evs hw hsi hb hf
      rw [h5, hsy]
      exact ⟨fun _ => Nat.succ_pos _, fun _ => rfl⟩
    | true =>
      have hsp : Feed.syncPoint ext s data = some ((CheckSync ext v).2, rs) := by
        rw [syncPoint_eq, hsi]
        simp only [hb, if_true]
      obtain ⟨-, h0, -, hsy⟩ := feed_after_sync ext s _ t data rs evs hw hsp hf
      rw [h0, hsy]
      exact ⟨fun h => absurd h (by decide), fun h => absurd h (by decide)⟩

theorem reachable_count_sync (ext : Externals) (s : SuperframeFilter) (hr : Reachable ext s) :
    (s.frame_count = 5 ↔ 0 < s.sync_frames) := by
  induction hr with
  | init => exact ⟨fun h => absurd h (by decide), fun h => absurd h (by decide)⟩
  | feed hr hf ih => exact feed_count_sync ext _ _ _ _ (reachable_WF ext _ hr) ih hf

theorem filterZ4_reachable : Reachable refExternals filterZ4 := by
  obtain ⟨evss, h⟩ := feedAll_filterAfter refExternals
    (List.replicate 24 0 :: (framesOf sfA).take 3) (by decide!)
  exact reachable_feedAll refExternals _ _ _ evss Reachable.init h

/-- C23: on every filter reached by `Feed` calls from a new one, and after every
further call of `Feed` on it, `frame_count` is at most 5, `frame_count` is 5
exactly when `sync_frames` is above zero, and `sf_len` is `5 * frame_len`. -/
theorem frame_count_invariant (ext : Externals) (s : SuperframeFilter) (hr : Reachable ext s) :
    (s.frame_count ≤ 5 ∧ (s.frame_count = 5 ↔ 0 < s.sync_frames)
      ∧ s.sf_len = 5 * s.frame_len)
    ∧ ∀ data t evs, Feed ext s data = some (t, evs) →
        t.frame_count ≤ 5 ∧ (t.frame_count = 5 ↔ 0 < t.sync_frames)
        ∧ t.sf_len = 5 * t.frame_len := by
  have hw := reachable_WF ext s hr
  refine ⟨⟨hw.2.2.2.1, reachable_count_sync ext s hr, hw.1⟩, fun data t evs hf => ?_⟩
  have hr2 : Reachable ext t := Reachable.feed hr hf
  have hw2 := reachable_WF ext t hr2
  exact ⟨hw2.2.2.2.1, reachable_count_sync ext t hr2, hw2.1⟩

/-- Witness of C23: after a frame of zero bytes and three frames of `sfA` the
filter holds four frames with the sync counter at 0; the next call fails the
sync check and leaves five frames with the counter above zero. -/
theorem frame_count_invariant_witness :
    Reachable refExternals filterZ4
    ∧ Feed refExternals filterZ4 (slice sfA 72 24) = some (resultZ5.1, resultZ5.2)
    ∧ filterZ4.frame_count = 4 ∧ filterZ4.sync_frames = 0
    ∧ resultZ5.1.frame_count = 5 ∧ 0 < resultZ5.1.sync_frames
    ∧ resultZ5.1.sf_len = 5 * resultZ5.1.frame_len := by
  have h := (frame_count_invariant refExternals filterZ4 filterZ4_reachable).2
    (slice sfA 72 24) resultZ5.1 resultZ5.2 feedZ5
  have h5 : resultZ5.1.frame_count = 5 := by decide!
  exact ⟨filterZ4_reachable, feedZ5, by decide!, by decide!, h5, h.2.1.1 h5, h.2.2⟩

theorem observed_recover_eq (s : SuperframeFilter) :
    observed (Feed.recover s).2
      = if s.sync_frames ≠ 0 then [Event.ProcessPAD none 0 true [0, 0]] else [] := by
  unfold Feed.recover
  split_ifs <;> rfl

theorem observed_checkFormat_eq (s : SuperframeFilter) :
    observed (Feed.checkFormat s).2
      = if s.sf_format_set = false ∨ s.sf_format_raw ≠ s.sf.getD 2 0 then
          [Event.FormatChange (formatText s.sf_format s.sf_len)]
        else [] := by
  have hc : ((!s.sf_format_set || decide (s.sf_format_raw ≠ s.sf.getD 2 0)) = true)
      ↔ (s.sf_format_set = false ∨ s.sf_format_raw ≠ s.sf.getD 2 0) := by
    rw [Bool.or_eq_true, Bool.not_eq_true', decide_eq_true_eq]
  unfold Feed.checkFormat ProcessFormat
  by_cases h : s.sf_format_set = false ∨ s.sf_format_raw ≠ s.sf.getD 2 0
  · rw [if_pos h, if_pos (hc.2 h)]
    rfl
  · rw [if_neg h, if_neg (fun h2 => h (hc.1 h2))]
    rfl

theorem CheckForPAD_single (data : List Byte) :
    ∃ x n f, CheckForPAD data = [Event.ProcessPAD x n true f] := by
  rw [CheckForPAD_eq]
  split_ifs
  · exact ⟨_, _, _, rfl⟩
  · exact ⟨_, _, _, rfl⟩

theorem observed_auEvents_eq (ext : Externals) (sf : List Byte) (au : Nat → Int) (i : Nat) :
    observed (Feed.auEvents ext sf au i)
      = if auCrcStored sf au i ≠ auCrcCalced ext sf au i then
          [Event.ProcessPAD none 0 true [0, 0]]
        else Event.DecodeFrame (auPayload sf au i) :: CheckForPAD (auPayload sf au i) := by
  unfold Feed.auEvents auPayload
  simp only
  split_ifs with h
  · rfl
  · obtain ⟨x, n, f, hx⟩ := CheckForPAD_single ((auData sf au i).take (auLen au i - 2))
    rw [hx]
    rfl

theorem recover_format (s : SuperframeFilter) :
    (Feed.recover s).1.sf_format = s.sf_format ∧ (Feed.recover s).1.sync_frames = 0
    ∧ (Feed.recover s).1.sf_format_set = s.sf_format_set
    ∧ (Feed.recover s).1.sf_format_raw = s.sf_format_raw
    ∧ (Feed.recover s).1.sf = s.sf ∧ (Feed.recover s).1.sf_len = s.sf_len := by
  unfold Feed.recover
  split_ifs with h
  · exact ⟨rfl, rfl, rfl, rfl, rfl, rfl⟩
  · exact ⟨rfl, by simpa using h, rfl, rfl, rfl, rfl⟩

/-- C2, amended: in a call of `Feed` that passes the sync check on a Superframe
whose AUs all have at least two bytes, the `FormatChange`, `ProcessPAD` and AAC
decoder calls are exactly, in this order: one reset `ProcessPAD` when the sync
counter was non-zero on entry; one `FormatChange` when no format was set or the
cached format byte differs from byte 2; then for each AU `i < num_aus` in index
order either the single reset `ProcessPAD` (CRC of AU `i` wrong, no decoder call)
or the AAC decoder call on the payload of AU `i` followed by the one `ProcessPAD`
that `CheckForPAD` makes for that payload. A call that does not pass the sync
check makes none of these calls. -/
theorem feed_event_order (ext : Externals) (s : SuperframeFilter) (data : List Byte) :
    (Feed.syncPoint ext s data = none →
      ∃ t evs, Feed ext s data = some (t, evs) ∧ observed evs = [])
    ∧ ∀ u rs, Feed.syncPoint ext s data = some (u, rs) →
        (∀ i, i < u.num_aus → 2 ≤ auLen u.au_start i) →
        ∃ t evs, Feed ext s data = some (t, evs)
          ∧ observed evs
            = (if s.sync_frames ≠ 0 then [Event.ProcessPAD none 0 true [0, 0]] else [])
              ++ (if s.sf_format_set = false ∨ s.sf_format_raw ≠ u.sf.getD 2 0 then
                    [Event.FormatChange (formatText u.sf_format u.sf_len)]
                  else [])
              ++ ((List.range u.num_aus).map (fun i =>
                    if auCrcStored u.sf u.au_start i ≠ auCrcCalced ext u.sf u.au_start i then
                      [Event.ProcessPAD none 0 true [0, 0]]
                    else Event.DecodeFrame (auPayload u.sf u.au_start i)
                      :: CheckForPAD (auPayload u.sf u.au_start i))).flatten
          ∧ ∀ i, ∃ x n f,
              CheckForPAD (auPayload u.sf u.au_start i) = [Event.ProcessPAD x n true f] := by
  refine ⟨fun hsp => ?_, fun u rs hsp hall => ?_⟩
  · obtain ⟨t, evs, hf, hobs, -⟩ := feed_no_syncPoint ext s data hsp
    exact ⟨t, evs, hf, hobs⟩
  · obtain ⟨hf, hobs, -⟩ := feed_of_syncPoint ext s u data rs hsp
    rw [synced_eq, if_pos hall] at hf
    obtain ⟨v, hsi, -, hu⟩ := syncPoint_some ext s u data rs hsp
    obtain ⟨k1, k2, k3, -⟩ := syncInput_keeps ext s v data rs hsi
    have hk := checkSync_keeps_more ext v
    rw [← hu] at hk
    obtain ⟨r1, r2, r3, r4, r5, r6⟩ := recover_format u
    refine ⟨_, _, hf, ?_, fun i => CheckForPAD_single _⟩
    simp only [Option.map_some']
    rw [observed_append, hobs, observed_append, observed_append, observed_flatten,
      List.map_map, observed_recover_eq, observed_checkFormat_eq, r1, r3, r4, r5, r6,
      hk.2.1, k1, hk.2.2.2.2.1, k2, hk.2.2.2.2.2.1, k3, List.nil_append]
    congr 2
    apply List.map_congr_left
    intro i _
    exact observed_auEvents_eq ext u.sf u.au_start i

/-- Witness of C2 (amended): the call that completes the Superframe `sfC` on a
new filter: `FormatChange`, then the decoder call and the `ProcessPAD` of AUs 0
and 1, the reset `ProcessPAD` alone for AU 2 (wrong CRC), then the decoder call
and the `ProcessPAD` of AUs 3, 4 and 5. -/
theorem feed_event_order_witness :
    ∃ t evs, Feed refExternals filterC4 frameC5 = some (t, evs)
      ∧ (observed evs).map Event.kind
          = [Kind.format, Kind.frame, Kind.pad, Kind.frame, Kind.pad, Kind.pad,
             Kind.frame, Kind.pad, Kind.frame, Kind.pad, Kind.frame, Kind.pad] := by
  obtain ⟨t, evs, hf, hobs, -⟩ :=
    (feed_event_order refExternals filterC4 frameC5).2 syncC.1 syncC.2 syncPointC (by decide!)
  exact ⟨t, evs, hf, by rw [hobs]; decide!⟩

/-- C6 does not hold of the code: the five frames of `sfD` pass the sync check
with two AUs; AU 1, the 104 bytes from offset 6, has the CRC 0xAD1E that its last
two bytes store and would be handed to the decoder, but the pass of the loop for
AU 0, one byte long, has no defined result (`au_len - 2` wraps), so the call of
`Feed` delivers nothing. -/
theorem valid_AU_not_delivered :
    Feed.syncPoint refExternals filterD4 frameD5 = some (syncD.1, syncD.2)
    ∧ syncD.1.num_aus = 2
    ∧ auLen syncD.1.au_start 1 = 104
    ∧ auCrcCalced refExternals syncD.1.sf syncD.1.au_start 1 = 0xAD1E
    ∧ auCrcStored syncD.1.sf syncD.1.au_start 1 = 0xAD1E
    ∧ decodedFrames ((Feed.decodeAU refExternals syncD.1.sf syncD.1.au_start 1).getD [])
        = [slice sfD 6 102]
    ∧ Feed.decodeAU refExternals syncD.1.sf syncD.1.au_start 0 = none
    ∧ Feed refExternals filterD4 frameD5 = none :=
  ⟨syncPointD, by decide!, by decide!, by decide!, by decide!, by decide!, by decide!,
    Option.isNone_iff_eq_none.1 (by decide!)⟩

/-- C18 does not hold of the code: the five frames of `sfD` pass the sync check
with two AUs and the sync counter at zero, so two `ProcessPAD` callbacks are due;
the loop over the AUs has no defined result at AU 0, one byte long, and the call
of `Feed` makes no `ProcessPAD` callback for either AU. -/
theorem no_processPAD_after_short_AU :
    Feed.syncPoint refExternals filterD4 frameD5 = some (syncD.1, syncD.2)
    ∧ syncD.1.num_aus = 2
    ∧ filterD4.sync_frames = 0
    ∧ auLen syncD.1.au_start 0 = 1
    ∧ Feed.decodeAUs refExternals (Feed.checkFormat (Feed.recover syncD.1).1).1 = none
    ∧ Feed refExternals filterD4 frameD5 = none :=
  ⟨syncPointD, by decide!, by decide!, by decide!, by decide!,
    Option.isNone_iff_eq_none.1 (by decide!)⟩

end Dablin
